import Mathlib

/-!
JAXE libretro front-end: a shallow embedding of `src/src/libretro.c`.

The statics of `libretro.c` are gathered in the record `Core`; every C function
that reads or writes them becomes a function on `Core`.  Code that can fault
(division by zero, a negative shift, an out-of-range read) or fail to terminate
returns `Option`, `none` standing for "no defined result".

Machine integers are natural numbers or integers; where the C code can wrap
(`unsigned int`, `unsigned long`, `unsigned`) the reduction modulo `2^32` or
`2^64` is written out.
-/

namespace Jaxe

/-! ## Constants -/

/-- Modelled from the spec: `MAX_RAM` of `chip8.h` (absent from the sources),
"`MAX_RAM = 65536` bytes". -/
def MAX_RAM : Nat := 65536

/-- Modelled from the spec: `NUM_USER_FLAGS` of `chip8.h` (absent from the
sources), "16 persistent bytes". -/
def NUM_USER_FLAGS : Nat := 16

/-- Modelled from the spec: `AUDIO_BUF_SIZE` of `chip8.h` (absent from the
sources), the 16-byte (128-bit) XO-CHIP audio pattern. -/
def AUDIO_BUF_SIZE : Nat := 16

/-- Modelled from the spec: `DISPLAY_WIDTH` of `chip8.h` (absent from the
sources), the planes are `display[64×128]`. -/
def DISPLAY_WIDTH : Nat := 128

/-- Modelled from the spec: `DISPLAY_HEIGHT` of `chip8.h` (absent from the
sources), the planes are `display[64×128]`. -/
def DISPLAY_HEIGHT : Nat := 64

/-- The macro `AUDIO_RESAMPLE_RATE` of the default (non-SF2000) build. -/
def AUDIO_RESAMPLE_RATE : Nat := 44100

/-- Number of values of the C type `unsigned int` / `unsigned` (32 bits). -/
def UINT_RANGE : Nat := 2 ^ 32

/-- Number of values of the C type `unsigned long` (64 bits, LP64). -/
def ULONG_RANGE : Nat := 2 ^ 64

/-- Largest value of the C type `int`. -/
def INT_MAX : Int := 2147483647

/-! ## Data model -/

/-- Modelled from the spec: the key states of `chip8.h` (absent from the
sources), "each entry ∈ {UP, DOWN, RELEASED}". -/
inductive KeyState where
  | KEY_UP
  | KEY_DOWN
  | KEY_RELEASED
  deriving DecidableEq, Repr

/-- Modelled from the spec: the record `CHIP8` of `chip8.h` (absent from the
sources), with the fields of the data model of the spec and those the sources
under `src/` access.  Arrays are functions of the index. -/
structure CHIP8 where
  RAM : Nat → Nat
  V : Nat → Nat
  I : Nat
  PC : Nat
  SP : Nat
  DT : Nat
  ST : Nat
  display : Nat → Nat → Bool
  display2 : Nat → Nat → Bool
  keypad : Nat → KeyState
  beep : Bool
  exit : Bool
  hires : Bool
  display_updated : Bool
  plane_mask : Nat
  pitch : Nat
  cpu_freq : Nat
  timer_freq : Nat
  refresh_freq : Nat
  pc_start_addr : Nat
  total_cycle_time : Nat
  quirks : Nat → Bool
  UF_path : String

/-- The statics of `libretro.c`: the emulator, the scheduler and sampler
accumulators, the user flags, the theme colours and the output frame. -/
structure Core where
  chip8 : CHIP8
  cpu_debt : Nat
  audio_counter_chip8 : Nat
  audio_counter_resample : Nat
  audio_freq_chip8 : Nat
  snd_buf_pntr : Int
  sram : Nat → Nat
  bg_color : Nat
  p1_color : Nat
  p2_color : Nat
  overlap_color : Nat
  frame : Nat → Nat

/-- The parts of the emulator core that `libretro.c` uses and that live in
`chip8.h` / `chip8.c`, absent from the sources: two constants and the functions
`retro_run` calls.  They are parameters of the embedding.  `chip8_execute` gets
and returns the user flags as well, since it reaches `sram` through
`chip8_handle_user_flags`. -/
structure Chip8Lib where
  ONE_SEC : Nat
  AUDIO_BUF_ADDR : Nat
  chip8_execute : CHIP8 → (Nat → Nat) → CHIP8 × (Nat → Nat)
  chip8_handle_timers : CHIP8 → CHIP8
  chip8_get_sound_freq : CHIP8 → Nat
  chip8_set_cpu_freq : CHIP8 → Nat → CHIP8

/-- What the libretro host answers during one call of `retro_run`: whether the
core options changed, the value of `jaxe_theme`, the number `strtoul` reads in
the value of `jaxe_cpu_requency` (`none` when the option is unavailable) and
the joypad state by button id. -/
structure FrameInput where
  variables_updated : Bool
  theme_var : Option String
  cpu_freq_var : Option Nat
  input_state_cb : Nat → Bool

/-- One call of `audio_batch_cb`: the samples handed over (the filled part of
`buf`) and the frame count passed with them. -/
structure Batch where
  data : List Int
  frames : Nat
  deriving DecidableEq, Repr

/-- One iteration of the instruction loop of `retro_run`: the statics when
`chip8_execute` is entered, the statics at the end of the iteration and the
audio batches emitted in between. -/
structure CycleLog where
  before : Core
  after : Core
  batches : List Batch

/-- What one call of `retro_run` does towards the host: whether it asked for
shutdown, the instructions it executed and whether it sent a video frame. -/
structure FrameOutput where
  shutdown : Bool
  cycles : List CycleLog
  video : Bool

/-! ## Helpers for C constructs -/

/-- A C loop `for (i = 0; i < n; i++) s = f(i, s)`. -/
def forLoop {σ : Type} (f : Nat → σ → σ) : Nat → σ → σ
  | 0, s => s
  | n + 1, s => f n (forLoop f n s)

/-- The value of a 16-bit pattern read as `int16_t` (two's complement). -/
def toInt16 (v : Nat) : Int :=
  if v % 65536 < 32768 then ((v % 65536 : Nat) : Int) else ((v % 65536 : Nat) : Int) - 65536

/-- The C call `memcpy(dst, src, n)` on byte arrays. -/
def memcpy (dst src : Nat → Nat) (n : Nat) : Nat → Nat :=
  fun i => if i < n then src i else dst i

/-! ## User flags (`libretro.c`, lines 53-72) -/

/-- `chip8_handle_user_flags`: returns the result, the emulator and the stored
flags.  A negative `num_flags` passes the guard and reaches `memcpy` as a huge
`size_t`: no defined result. -/
def chip8_handle_user_flags (c : CHIP8) (sram : Nat → Nat) (num_flags : Int) (save : Bool) :
    Option (Bool × CHIP8 × (Nat → Nat)) :=
  if num_flags ≤ (NUM_USER_FLAGS : Int) then
    if num_flags < 0 then none
    else if save then
      some (true, c, memcpy sram c.V num_flags.toNat)
    else
      some (true, { c with V := memcpy c.V sram num_flags.toNat }, sram)
  else
    some (true, c, sram)

/-! ## Snapshots (`libretro.c`, lines 695-741) -/

/-- The record `struct serialized_state`. -/
structure serialized_state where
  chip8 : CHIP8
  cpu_debt : Nat
  audio_counter_chip8 : Nat
  audio_counter_resample : Nat
  audio_freq_chip8 : Nat
  snd_buf_pntr : Int
  sram : Nat → Nat

/-- `retro_serialize_size`: `sizeof (struct serialized_state)`, which depends
on the layout of `CHIP8` and is a parameter. -/
def retro_serialize_size (sizeof_serialized_state : Nat) : Nat :=
  sizeof_serialized_state

/-- `retro_serialize`: `data` is the buffer seen through the cast to
`struct serialized_state *`; the result is the return value and the buffer. -/
def retro_serialize (sizeof_serialized_state : Nat) (g : Core) (data : serialized_state)
    (size : Nat) : Bool × serialized_state :=
  if size < sizeof_serialized_state then (false, data)
  else
    let st := { data with chip8 := g.chip8 }
    let st := { st with cpu_debt := g.cpu_debt }
    let st := { st with audio_counter_chip8 := g.audio_counter_chip8 }
    let st := { st with audio_counter_resample := g.audio_counter_resample }
    let st := { st with audio_freq_chip8 := g.audio_freq_chip8 }
    let st := { st with snd_buf_pntr := g.snd_buf_pntr }
    let st := { st with sram := memcpy st.sram g.sram NUM_USER_FLAGS }
    (true, st)

/-- `retro_unserialize`: the result is the return value and the statics. -/
def retro_unserialize (sizeof_serialized_state : Nat) (g : Core) (data : serialized_state)
    (size : Nat) : Bool × Core :=
  if size < sizeof_serialized_state then (false, g)
  else
    let g := { g with chip8 := data.chip8 }
    let g := { g with cpu_debt := data.cpu_debt }
    let g := { g with audio_counter_chip8 := data.audio_counter_chip8 }
    let g := { g with audio_counter_resample := data.audio_counter_resample }
    let g := { g with audio_freq_chip8 := data.audio_freq_chip8 }
    let g := { g with snd_buf_pntr := data.snd_buf_pntr }
    let g := { g with sram := memcpy g.sram data.sram NUM_USER_FLAGS }
    (true, g)

/-! ## Themes and the output frame (`libretro.c`, lines 11-21, 75-95, 287-305, 385-413) -/

/-- The macro `vRGB` of the default build (no `USE_RGB565`). -/
def vRGB (r g b : Nat) : Nat := ((r <<< 16) ||| (g <<< 8)) ||| b

/-- The record `struct theme`. -/
structure theme where
  bg : Nat
  p1 : Nat
  p2 : Nat
  overlap : Nat
  name : String

/-- The table `color_themes`. -/
def color_themes : List theme :=
  [ ⟨vRGB 0 0 0, vRGB 0xFF 0xFF 0xFF, vRGB 0xAA 0xAA 0xAA, vRGB 0x55 0x55 0x55, "Default"⟩,
    ⟨vRGB 0 0 0, vRGB 0xFF 0xFF 0xFF, vRGB 0 0 0, vRGB 0 0 0, "Black and white"⟩,
    ⟨vRGB 0xFF 0xFF 0xFF, vRGB 0 0 0, vRGB 0 0 0, vRGB 0 0 0, "Inverted black and white"⟩,
    ⟨vRGB 0 0 0, vRGB 0xFF 0 0, vRGB 0 0 0, vRGB 0 0 0, "Blood"⟩,
    ⟨vRGB 0 0 0, vRGB 0 0xFF 0, vRGB 0 0 0, vRGB 0 0 0, "Hacker"⟩,
    ⟨vRGB 0 0 0, vRGB 0 0 0xFF, vRGB 0 0 0, vRGB 0 0 0, "Space"⟩,
    ⟨vRGB 0xF0 0x90 0x7C, vRGB 0x96 0x29 0x12, vRGB 0xF4 0x69 0, vRGB 0xFA 0xA4 0, "Crazy Orange"⟩,
    ⟨vRGB 0x10 0 0x19, vRGB 0xFF 0xE1 0xFF, vRGB 0xE7 0 0xEA, vRGB 0xE7 0 0xEA, "Cyberpunk"⟩ ]

/-- The entry `color_themes[i]`. -/
def color_theme_at (i : Nat) : theme :=
  color_themes.getD i ⟨0, 0, 0, 0, ""⟩

/-- `load_theme`: the last theme whose name equals the option value, theme 0
when there is none or the option is unavailable. -/
def load_theme (theme_var : Option String) (g : Core) : Core :=
  let theme_number : Nat :=
    match theme_var with
    | none => 0
    | some value =>
      forLoop (fun i n => if value = (color_theme_at i).name then i else n) color_themes.length 0
  { g with
    bg_color := (color_theme_at theme_number).bg
    p1_color := (color_theme_at theme_number).p1
    p2_color := (color_theme_at theme_number).p2
    overlap_color := (color_theme_at theme_number).overlap }

/-- The body of the inner loop of `draw_display`: the colour of pixel `(x, y)`
is stored at `frame[x + y * DISPLAY_WIDTH]`. -/
def draw_pixel (g : Core) (y x : Nat) (frame : Nat → Nat) : Nat → Nat :=
  let color :=
    if !g.chip8.display y x && !g.chip8.display2 y x then g.bg_color
    else if g.chip8.display y x && !g.chip8.display2 y x then g.p1_color
    else if !g.chip8.display y x && g.chip8.display2 y x then g.p2_color
    else g.overlap_color
  Function.update frame (x + y * DISPLAY_WIDTH) color

/-- `draw_display`. -/
def draw_display (g : Core) : Core :=
  { g with
    frame := forLoop (fun y fr => forLoop (fun x fr => draw_pixel g y x fr) DISPLAY_WIDTH fr)
      DISPLAY_HEIGHT g.frame }

/-! ## The audio sampler (`libretro.c`, lines 490-530) -/

/-- `get_audio_sample`: the sample and the statics after the call.  `x` is kept
as a 16-bit pattern and read as `int16_t` on return.  There is no defined
result when the index leaves `RAM`, when the shift count `snd_buf_pntr % 8` is
negative, or when `snd_buf_pntr++` overflows `int`. -/
def get_audio_sample (lib : Chip8Lib) (g : Core) : Option (Int × Core) :=
  let idx : Int := (lib.AUDIO_BUF_ADDR : Int) + Int.tdiv g.snd_buf_pntr 8
  let sh : Int := Int.tmod g.snd_buf_pntr 8
  if idx < 0 ∨ (MAX_RAM : Int) ≤ idx ∨ sh < 0 ∨ INT_MAX ≤ g.snd_buf_pntr then none
  else
    let x : Nat := g.chip8.RAM idx.toNat % 256
    let x := (x <<< sh.toNat) % 65536
    let x := x &&& 0x80
    let x := (x * 0xFF) % 65536
    let p := g.snd_buf_pntr + 1
    let p := if (AUDIO_BUF_SIZE * 8 : Nat) ≤ p then 0 else p
    some (toInt16 x, { g with snd_buf_pntr := p })

/-- The `while` loop of `audio_sample`, `q` being `ONE_SEC / AUDIO_RESAMPLE_RATE`:
`c` is `audio_counter_resample`, `buf` the part of the local buffer below
`bufptr`, `out` the batches sent so far.  The first argument bounds the number
of iterations. -/
def audio_sample_loop (q : Nat) (sample : Int) :
    Nat → Nat → List Int → List Batch → Option (Nat × List Int × List Batch)
  | 0, _, _, _ => none
  | fuel + 1, c, buf, out =>
    if q ≤ c then
      let buf := buf ++ [sample, sample]
      if 200 ≤ buf.length then
        audio_sample_loop q sample fuel (c - q) [] (out ++ [⟨buf, buf.length / 2⟩])
      else
        audio_sample_loop q sample fuel (c - q) buf out
    else some (c, buf, out)

/-- `audio_sample`: the statics after the call and the batches sent.  The loop
runs at most `audio_counter_resample / q` times when `q > 0` and forever when
`q = 0`, so the bound `audio_counter_resample + 1` is exhausted exactly when
the C loop does not terminate. -/
def audio_sample (lib : Chip8Lib) (sample : Int) (g : Core) : Option (Core × List Batch) :=
  match audio_sample_loop (lib.ONE_SEC / AUDIO_RESAMPLE_RATE) sample
      (g.audio_counter_resample + 1) g.audio_counter_resample [] [] with
  | none => none
  | some (c, buf, out) =>
    let out := if buf ≠ [] then out ++ [⟨buf, buf.length / 2⟩] else out
    some ({ g with audio_counter_resample := c }, out)

/-! ## The frame (`libretro.c`, lines 343-354, 216-236, 565-647) -/

/-- `get_cpu_freq_var`. -/
def get_cpu_freq_var (cpu_freq_var : Option Nat) (dflt : Nat) : Nat :=
  match cpu_freq_var with
  | none => dflt
  | some cpu_freq => if cpu_freq = 0 then dflt else cpu_freq

/-- The table `hexorder`, with the button ids of `libretro.h`
(B 0, Y 1, SELECT 2, START 3, UP 4, DOWN 5, LEFT 6, RIGHT 7, A 8, X 9, L 10,
R 11, L2 12, R2 13, L3 14, R3 15). -/
def hexorder : List Nat :=
  [0, 3, 1, 2, 10, 4, 8, 6, 5, 7, 11, 12, 9, 13, 14, 15]

/-- The entry `hexorder[i]`. -/
def hexorder_at (i : Nat) : Nat :=
  hexorder.getD i 0

/-- The body of the key loop of `retro_run` for key `i`. -/
def poll_key (input_state_cb : Nat → Bool) (i : Nat) (c : CHIP8) : CHIP8 :=
  if input_state_cb (hexorder_at i) then
    { c with keypad := Function.update c.keypad i KeyState.KEY_DOWN }
  else
    let k := if c.keypad i = KeyState.KEY_DOWN then KeyState.KEY_RELEASED else KeyState.KEY_UP
    { c with keypad := Function.update c.keypad i k }

/-- The key loop of `retro_run` (default build), lines 584-591. -/
def poll_keys (input_state_cb : Nat → Bool) (c : CHIP8) : CHIP8 :=
  forLoop (poll_key input_state_cb) 16 c

/-- The start of `retro_run` after the exit test, lines 572-591: the option
update and the key poll. -/
def frame_start (lib : Chip8Lib) (inp : FrameInput) (g : Core) : Core :=
  let g :=
    if inp.variables_updated then
      let g := load_theme inp.theme_var g
      let cpu_freq := get_cpu_freq_var inp.cpu_freq_var g.chip8.cpu_freq
      if cpu_freq ≠ g.chip8.cpu_freq then
        { g with chip8 := lib.chip8_set_cpu_freq g.chip8 cpu_freq }
      else g
    else g
  { g with chip8 := poll_keys inp.input_state_cb g.chip8 }

/-- The `while` loop of the beeping branch, lines 621-626, `step` being
`cycle_audio_step`.  The first argument bounds the number of iterations. -/
def beep_loop (lib : Chip8Lib) (step : Nat) :
    Nat → Core → List Batch → Option (Core × List Batch)
  | 0, _, _ => none
  | fuel + 1, g, out =>
    if step < g.audio_counter_chip8 then
      let g := { g with audio_counter_chip8 := (g.audio_counter_chip8 - step) % UINT_RANGE }
      match get_audio_sample lib g with
      | none => none
      | some (sample, g) =>
        let g := { g with
          audio_counter_resample := (g.audio_counter_resample + step) % UINT_RANGE }
        match audio_sample lib sample g with
        | none => none
        | some (g, bs) => beep_loop lib step fuel g (out ++ bs)
    else some (g, out)

/-- The audio part of one iteration of the instruction loop, lines 607-627.
The loop of the beeping branch runs at most `audio_counter_chip8` times when
`cycle_audio_step > 0` and forever otherwise (unless the counter is 0), so the
bound `audio_counter_chip8 + 1` is exhausted exactly when it does not
terminate.  A sound frequency of 0 divides by zero. -/
def cycle_audio (lib : Chip8Lib) (cycle_step : Nat) (g : Core) : Option (Core × List Batch) :=
  if !g.chip8.beep then
    let g := { g with audio_freq_chip8 := 0 }
    let g := { g with audio_counter_chip8 := 0 }
    let g := { g with snd_buf_pntr := 0 }
    let g := { g with
      audio_counter_resample := (g.audio_counter_resample + cycle_step) % UINT_RANGE }
    audio_sample lib 0 g
  else
    let g :=
      if g.audio_freq_chip8 = 0 then
        let g := { g with audio_freq_chip8 := lib.chip8_get_sound_freq g.chip8 % UINT_RANGE }
        { g with snd_buf_pntr := 0 }
      else g
    if g.audio_freq_chip8 = 0 then none
    else
      let cycle_audio_step := lib.ONE_SEC / g.audio_freq_chip8
      let g := { g with
        audio_counter_chip8 := (g.audio_counter_chip8 + cycle_step) % UINT_RANGE }
      beep_loop lib cycle_audio_step (g.audio_counter_chip8 + 1) g []

/-- The emulator part of one iteration of the instruction loop, lines 602-605. -/
def cycle_cpu (lib : Chip8Lib) (cycle_step : Nat) (g : Core) : Core :=
  let c := { g.chip8 with total_cycle_time := cycle_step }
  let r := lib.chip8_execute c g.sram
  let c := r.1
  let c := if c.timer_freq ≠ c.refresh_freq then lib.chip8_handle_timers c else c
  { g with chip8 := c, sram := r.2 }

/-- One iteration of the instruction loop of `retro_run`, lines 602-627. -/
def run_cycle (lib : Chip8Lib) (cycle_step : Nat) (g : Core) : Option (Core × List Batch) :=
  cycle_audio lib cycle_step (cycle_cpu lib cycle_step g)

/-- The bound of the instruction loop, `(chip8.cpu_freq + cpu_debt) /
chip8.refresh_freq` in `unsigned long`. -/
def cycle_bound (g : Core) : Nat :=
  ((g.chip8.cpu_freq + g.cpu_debt) % ULONG_RANGE) / g.chip8.refresh_freq

/-- The instruction loop of `retro_run`, lines 601-628: `i` is the 32-bit
counter, `log` the iterations done so far.  The first argument bounds the
number of iterations.  A refresh frequency of 0 divides by zero. -/
def run_loop (lib : Chip8Lib) (cycle_step : Nat) :
    Nat → Nat → Core → List CycleLog → Option (Core × List CycleLog)
  | 0, _, _, _ => none
  | fuel + 1, i, g, log =>
    if g.chip8.refresh_freq = 0 then none
    else if i < cycle_bound g ∧ g.chip8.exit = false then
      match run_cycle lib cycle_step g with
      | none => none
      | some (g', bs) =>
        run_loop lib cycle_step fuel ((i + 1) % UINT_RANGE) g' (log ++ [⟨g, g', bs⟩])
    else some (g, log)

/-- The end-of-frame timer step of `retro_run`, lines 630-640. -/
def frame_timers (c : CHIP8) : CHIP8 :=
  if c.timer_freq = c.refresh_freq then
    let c := if 0 < c.DT then { c with DT := c.DT - 1 } else c
    if 0 < c.ST then
      let c := { c with ST := c.ST - 1 }
      { c with beep := if 0 < c.ST then true else false }
    else c
  else c

/-- `retro_run`: the statics after the call and what the host saw.  `fuel`
bounds the number of iterations of the instruction loop; `none` means a fault
(division by zero, undefined read or shift), a loop that does not terminate,
or too small a `fuel`. -/
def retro_run (lib : Chip8Lib) (inp : FrameInput) (fuel : Nat) (g : Core) :
    Option (Core × FrameOutput) :=
  if g.chip8.exit then some (g, ⟨true, [], false⟩)
  else
    let g := frame_start lib inp g
    if g.chip8.cpu_freq = 0 then none
    else
      let cycle_step := lib.ONE_SEC / g.chip8.cpu_freq
      match run_loop lib cycle_step fuel 0 g [] with
      | none => none
      | some (g, log) =>
        let g := { g with chip8 := frame_timers g.chip8 }
        if g.chip8.refresh_freq = 0 then none
        else
          let g := { g with
            cpu_debt := ((g.chip8.cpu_freq + g.cpu_debt) % ULONG_RANGE) % g.chip8.refresh_freq }
          some (draw_display g, ⟨false, log, true⟩)

/-! ## Repeated calls and sample states -/

/-- The statics after `n` consecutive calls of `get_audio_sample`. -/
def get_audio_sample_times (lib : Chip8Lib) : Nat → Core → Option Core
  | 0, g => some g
  | n + 1, g =>
    match get_audio_sample lib g with
    | none => none
    | some (_, g') => get_audio_sample_times lib n g'

/-- An emulator with every field zero, all keys up, at the default rates of
the spec (1000 / 60 / 60 Hz). -/
def blank_chip8 : CHIP8 :=
  { RAM := fun _ => 0, V := fun _ => 0, I := 0, PC := 0x200, SP := 0, DT := 0, ST := 0,
    display := fun _ _ => false, display2 := fun _ _ => false,
    keypad := fun _ => KeyState.KEY_UP, beep := false, exit := false, hires := false,
    display_updated := false, plane_mask := 1, pitch := 0, cpu_freq := 1000,
    timer_freq := 60, refresh_freq := 60, pc_start_addr := 0x200, total_cycle_time := 0,
    quirks := fun _ => true, UF_path := "" }

/-- The statics as `load_rom` leaves the accumulators (all zero), around
`blank_chip8`. -/
def blank_core : Core :=
  { chip8 := blank_chip8, cpu_debt := 0, audio_counter_chip8 := 0, audio_counter_resample := 0,
    audio_freq_chip8 := 0, snd_buf_pntr := 0, sram := fun _ => 0, bg_color := 0,
    p1_color := 0xFFFFFF, p2_color := 0xAAAAAA, overlap_color := 0x555555, frame := fun _ => 0 }

/-- A snapshot buffer filled with zeros. -/
def blank_buffer : serialized_state :=
  { chip8 := blank_chip8, cpu_debt := 0, audio_counter_chip8 := 0, audio_counter_resample := 0,
    audio_freq_chip8 := 0, snd_buf_pntr := 0, sram := fun _ => 0 }

/-- An emulator core whose instructions only advance `PC` by 2 and whose timer
and frequency functions do the least possible; one second is `10^9` ticks and
the audio pattern sits at `0x1000`. -/
def sample_lib : Chip8Lib :=
  { ONE_SEC := 1000000000, AUDIO_BUF_ADDR := 0x1000,
    chip8_execute := fun c sram => ({ c with PC := c.PC + 2 }, sram),
    chip8_handle_timers := fun c => c,
    chip8_get_sound_freq := fun _ => 4000,
    chip8_set_cpu_freq := fun c f => { c with cpu_freq := f } }

/-- A host that reports no option change and no button pressed. -/
def idle_input : FrameInput :=
  { variables_updated := false, theme_var := none, cpu_freq_var := none,
    input_state_cb := fun _ => false }

/-- A state in which `beep` is set although the sound timer is 0. -/
def stale_beep_chip8 : CHIP8 :=
  { blank_chip8 with beep := true }

/-- A state with the sound timer at 3 and `beep` set. -/
def sounding_chip8 : CHIP8 :=
  { blank_chip8 with ST := 3, beep := true }

/-- A keypad state in which key 5 is in state RELEASED. -/
def released_chip8 : CHIP8 :=
  { blank_chip8 with keypad := fun i => if i = 5 then KeyState.KEY_RELEASED else KeyState.KEY_UP }

/-- Registers holding `0xB, 0xA, 0xD` in `V0..V2`, as in `test_Fx75_Fx85`. -/
def flags_chip8 : CHIP8 :=
  { blank_chip8 with V := fun i => if i = 0 then 0xB else if i = 1 then 0xA else if i = 2 then 0xD else 0 }

/-- Statics whose audio pattern starts with the byte `0x40` and whose pattern
pointer is 1. -/
def pattern_core : Core :=
  { blank_core with
    chip8 := { blank_chip8 with RAM := fun a => if a = 0x1000 then 0x40 else 0 }
    snd_buf_pntr := 1 }

/-- The emulator-core functions leave the scheduling rates alone:
`chip8_execute` and `chip8_handle_timers` change neither `cpu_freq` nor
`refresh_freq`. -/
def keeps_rates (lib : Chip8Lib) : Prop :=
  (∀ c sram, (lib.chip8_execute c sram).1.cpu_freq = c.cpu_freq ∧
    (lib.chip8_execute c sram).1.refresh_freq = c.refresh_freq) ∧
  (∀ c, (lib.chip8_handle_timers c).cpu_freq = c.cpu_freq ∧
    (lib.chip8_handle_timers c).refresh_freq = c.refresh_freq)

/-- The playback rate `chip8_get_sound_freq` computes is positive, fits in
`unsigned int` and is at most `ONE_SEC`, so `cycle_audio_step` is positive. -/
def sound_freq_in_range (lib : Chip8Lib) : Prop :=
  ∀ c, 0 < lib.chip8_get_sound_freq c ∧ lib.chip8_get_sound_freq c < UINT_RANGE ∧
    lib.chip8_get_sound_freq c ≤ lib.ONE_SEC

/-- The sampler can run without fault: one resampler period
`ONE_SEC / AUDIO_RESAMPLE_RATE` is positive, the audio pattern lies inside
`RAM`, the pattern pointer is in `0..127` and the current playback rate is at
most `ONE_SEC`. -/
def sampler_ready (lib : Chip8Lib) (g : Core) : Prop :=
  AUDIO_RESAMPLE_RATE ≤ lib.ONE_SEC ∧ lib.AUDIO_BUF_ADDR + AUDIO_BUF_SIZE ≤ MAX_RAM ∧
  0 ≤ g.snd_buf_pntr ∧ g.snd_buf_pntr < 128 ∧ g.audio_freq_chip8 ≤ lib.ONE_SEC

/-- An emulator core like `sample_lib` whose instruction at `0x202` is `00FD`:
executing it sets `exit`. -/
def exit_lib : Chip8Lib :=
  { sample_lib with
    chip8_execute := fun c sram =>
      ({ c with PC := c.PC + 2, exit := c.exit || decide (c.PC = 0x202) }, sram) }

/-- The log `l` records consecutive iterations of the instruction loop leading
from the statics `s` to the statics `f`: each entry starts where the previous
one ended, starts with `exit` clear, and ends as `run_cycle` says. -/
def linked (lib : Chip8Lib) (cycle_step : Nat) : Core → List CycleLog → Core → Prop
  | s, [], f => f = s
  | s, e :: l, f =>
    e.before = s ∧ s.chip8.exit = false ∧
    run_cycle lib cycle_step s = some (e.after, e.batches) ∧
    linked lib cycle_step e.after l f

/-- The quotient of the spec's scheduler sentence, `ceil(a / b)`. -/
def ceil_div (a b : Nat) : Nat :=
  (a + b - 1) / b

/-- What a test observes of one call of `retro_run`: whether it has a defined
result and, if so, the final `exit`, the number of instructions executed and
the new `cpu_debt`. -/
def frame_summary (lib : Chip8Lib) (inp : FrameInput) (fuel : Nat) (g : Core) :
    Option (Bool × Nat × Nat) :=
  (retro_run lib inp fuel g).map (fun r => (r.1.chip8.exit, r.2.cycles.length, r.1.cpu_debt))

/-! ## The instruction executor (`chip8.c`, absent from the sources)

`chip8_execute` is declared in `chip8.h` and defined in `chip8.c`, neither of
which is among the sources; `src/tests/test.c` calls it.  It is modelled from
the spec (sections 3, 4.1-4.7 and 7), and where `test.c` asserts a behaviour
the model follows the test. -/

/-- Modelled from the spec: what `chip8_execute` needs besides the emulator
record, all of it in the absent `chip8.h` / `chip8.c`: the start of the stack
region and of the audio pattern, the byte `Cxkk` draws at random, and the
sprite and scroll engines of sections 4.5 and 4.6, which act on the two planes
(and, for sprites, yield `VF`) and are left as parameters. -/
structure Chip8Env where
  SP_START_ADDR : Nat
  AUDIO_BUF_ADDR : Nat
  rand_byte : Nat
  draw_sprite : CHIP8 → Nat → Nat → Nat → (Nat → Nat → Bool) × (Nat → Nat → Bool) × Nat
  scroll_down : CHIP8 → Nat → (Nat → Nat → Bool) × (Nat → Nat → Bool)
  scroll_up : CHIP8 → Nat → (Nat → Nat → Bool) × (Nat → Nat → Bool)
  scroll_right : CHIP8 → (Nat → Nat → Bool) × (Nat → Nat → Bool)
  scroll_left : CHIP8 → (Nat → Nat → Bool) × (Nat → Nat → Bool)

/-- Modelled from the spec: `FONT_START_ADDR` of `chip8.h` (absent from the
sources), "`[0x50, 0x50+80)` — small font". -/
def FONT_START_ADDR : Nat := 0x50

/-- Modelled from the spec: `BIG_FONT_START_ADDR` of `chip8.h` (absent from the
sources), "`[0xA0, 0xA0+160)` — big font". -/
def BIG_FONT_START_ADDR : Nat := 0xA0

/-- Modelled from the spec: the size of the call stack region of `chip8.h`
(absent from the sources), "16 frames of 2 bytes each". -/
def STACK_SIZE : Nat := 32

/-- Number of values of a 16-bit register (`PC`, `SP`, `I`). -/
def WORD_RANGE : Nat := 65536

/-- Modelled from the spec: a byte read from `RAM`, "addresses are masked
modulo `MAX_RAM`". -/
def ram_read (ram : Nat → Nat) (a : Nat) : Nat :=
  ram (a % MAX_RAM) % 256

/-- Modelled from the spec: a byte written to `RAM`, "addresses are masked
modulo `MAX_RAM`". -/
def ram_write (ram : Nat → Nat) (a v : Nat) : Nat → Nat :=
  Function.update ram (a % MAX_RAM) (v % 256)

/-- Modelled from the spec: a write to the 8-bit register `V[x]`. -/
def set_reg (V : Nat → Nat) (x v : Nat) : Nat → Nat :=
  Function.update V x (v % 256)

/-- Modelled from the spec: the fetch of `chip8_execute`, "reads two bytes at
`PC` (big-endian) into a 16-bit instruction". -/
def fetch (c : CHIP8) : Nat :=
  ram_read c.RAM c.PC * 256 + ram_read c.RAM (c.PC + 1)

/-- Modelled from the spec: a skip, `PC` moves past the next instruction. -/
def skip_next (c : CHIP8) : CHIP8 :=
  { c with PC := (c.PC + 2) % WORD_RANGE }

/-- Modelled from the spec: `PC` "rewound by 2" (`Fx0A` while it waits; opcode
`0000`, after which `test_0000` finds `PC` where it was). -/
def rewind (c : CHIP8) : CHIP8 :=
  { c with PC := (c.PC + WORD_RANGE - 2) % WORD_RANGE }

/-- Modelled from the spec: `00E0`, "both display planes are zeroed" (sections
3 and 8).  The spec also describes operations on the planes as parameterised by
`plane_mask`; what `00E0` does to a plane that is not selected is not settled
by the sources, and nothing proved below depends on the planes after `00E0`. -/
def op_00E0 (c : CHIP8) : CHIP8 :=
  { c with display := fun _ _ => false, display2 := fun _ _ => false }

/-- Modelled from the spec: `00EE`, return: `PC` is the big-endian word at
`RAM[SP]` and `SP` drops by 2 (`test_00EE`); "when `SP ≤ SP_START_ADDR`" the
opcode is a no-op. -/
def op_00EE (env : Chip8Env) (c : CHIP8) : CHIP8 :=
  if c.SP ≤ env.SP_START_ADDR then c
  else
    { c with
      PC := ram_read c.RAM c.SP * 256 + ram_read c.RAM (c.SP + 1)
      SP := (c.SP + WORD_RANGE - 2) % WORD_RANGE }

/-- Modelled from the spec: `2nnn`, call: `SP` grows by 2, the address of the
next instruction (`PC` is already advanced) is stored big-endian at `RAM[SP]`,
and `PC` becomes `nnn` (`test_2nnn`); "when `SP` would exceed the 16-frame
region" the opcode is a no-op. -/
def op_2nnn (env : Chip8Env) (c : CHIP8) (nnn : Nat) : CHIP8 :=
  if env.SP_START_ADDR + STACK_SIZE ≤ c.SP + 2 then c
  else
    let sp := (c.SP + 2) % WORD_RANGE
    let ram := ram_write c.RAM sp (c.PC / 256)
    let ram := ram_write ram (sp + 1) (c.PC % 256)
    { c with SP := sp, RAM := ram, PC := nnn }

/-- Modelled from the spec: `5xy2`, save `Vx..Vy` at `RAM[I..]` (XO-CHIP). -/
def op_5xy2 (c : CHIP8) (x y : Nat) : CHIP8 :=
  { c with
    RAM := forLoop (fun i ram =>
        ram_write ram (c.I + i) (c.V (if x ≤ y then x + i else x - i)))
      ((if x ≤ y then y - x else x - y) + 1) c.RAM }

/-- Modelled from the spec: `5xy3`, load `Vx..Vy` from `RAM[I..]` (XO-CHIP). -/
def op_5xy3 (c : CHIP8) (x y : Nat) : CHIP8 :=
  { c with
    V := forLoop (fun i V =>
        set_reg V (if x ≤ y then x + i else x - i) (ram_read c.RAM (c.I + i)))
      ((if x ≤ y then y - x else x - y) + 1) c.V }

/-- Modelled from the spec: `8xy1`, `8xy2`, `8xy3` with the bitwise operation
`f`: "result in `Vx`.  If quirk 9 disabled, `VF` is also cleared to 0". -/
def op_logic (f : Nat → Nat → Nat) (c : CHIP8) (x y : Nat) : CHIP8 :=
  let V := set_reg c.V x (f (c.V x) (c.V y))
  { c with V := if c.quirks 9 then V else set_reg V 0xF 0 }

/-- Modelled from the spec: `8xy4`, "result in `Vx`, `VF = carry (0/1)`.  `VF`
is written after the result". -/
def op_8xy4 (c : CHIP8) (x y : Nat) : CHIP8 :=
  let sum := c.V x + c.V y
  let V := set_reg c.V x sum
  { c with V := set_reg V 0xF (if 0xFF < sum then 1 else 0) }

/-- Modelled from the spec: `8xy5`, "`Vx = Vx − Vy`, `VF = 1` if no borrow
(Vx ≥ Vy), else 0.  Same late-write rule". -/
def op_8xy5 (c : CHIP8) (x y : Nat) : CHIP8 :=
  let a := c.V x
  let b := c.V y
  let V := set_reg c.V x (a + 256 - b % 256)
  { c with V := set_reg V 0xF (if b ≤ a then 1 else 0) }

/-- Modelled from the spec: `8xy7`, "`Vx = Vy − Vx`, `VF = 1` if Vy ≥ Vx". -/
def op_8xy7 (c : CHIP8) (x y : Nat) : CHIP8 :=
  let a := c.V x
  let b := c.V y
  let V := set_reg c.V x (b + 256 - a % 256)
  { c with V := set_reg V 0xF (if a ≤ b then 1 else 0) }

/-- Modelled from the spec: the value the shifts `8xy6` and `8xyE` shift.
With quirk 1 disabled the spec says "operate on `Vx` in place".  With quirk 1
enabled the spec names `Vy` as the source, but `test_8xy6` and `test_8xyE`, run
with quirk 1 enabled, find `Vx` shifted in place, and the model follows the
tests; so both branches take `Vx`. -/
def shift_source (c : CHIP8) (x : Nat) : Nat :=
  if c.quirks 1 then c.V x else c.V x

/-- Modelled from the spec: `8xy6`, shift right, "`VF` = shifted-out bit". -/
def op_8xy6 (c : CHIP8) (x : Nat) : CHIP8 :=
  let src := shift_source c x
  let V := set_reg c.V x (src / 2)
  { c with V := set_reg V 0xF (src % 2) }

/-- Modelled from the spec: `8xyE`, shift left, "`VF` = shifted-out bit". -/
def op_8xyE (c : CHIP8) (x : Nat) : CHIP8 :=
  let src := shift_source c x
  let V := set_reg c.V x (src * 2)
  { c with V := set_reg V 0xF (src / 128 % 2) }

/-- Modelled from the spec: `Bnnn`, "jump uses `V[x]` where x = high nibble of
nnn (SCHIP); disabled → uses `V[0]`" (quirk 3; `test_Bnnn`). -/
def op_Bnnn (c : CHIP8) (x nnn : Nat) : CHIP8 :=
  { c with PC := (nnn + (if c.quirks 3 then c.V x else c.V 0)) % WORD_RANGE }

/-- Modelled from the spec: `Dxyn`, the planes and `VF` the sprite engine
yields; "set `display_updated = true`". -/
def op_Dxyn (env : Chip8Env) (c : CHIP8) (x y n : Nat) : CHIP8 :=
  let r := env.draw_sprite c x y n
  { c with display := r.1, display2 := r.2.1, V := set_reg c.V 0xF r.2.2,
           display_updated := true }

/-- Modelled from the spec: the lowest key among the first `n` that is in
state RELEASED, if any. -/
def find_released (keypad : Nat → KeyState) : Nat → Option Nat
  | 0 => none
  | n + 1 =>
    match find_released keypad n with
    | some k => some k
    | none => if keypad n = KeyState.KEY_RELEASED then some n else none

/-- Modelled from the spec: `Fx0A`, "blocks (`PC` is rewound by 2 each cycle
until) a key transitions from DOWN to RELEASED; on that edge, `Vx ← key index`
and execution proceeds past"; the RELEASED state "is observed exactly once by
the next read that consumes it, then becomes UP". -/
def op_Fx0A (c : CHIP8) (x : Nat) : CHIP8 :=
  match find_released c.keypad 16 with
  | none => rewind c
  | some k =>
    { c with V := set_reg c.V x k, keypad := Function.update c.keypad k KeyState.KEY_UP }

/-- Modelled from the spec: `Fx33`, the decimal digits of `Vx` at `RAM[I]`,
`RAM[I+1]`, `RAM[I+2]` (`test_Fx33`). -/
def op_Fx33 (c : CHIP8) (x : Nat) : CHIP8 :=
  let ram := ram_write c.RAM c.I (c.V x / 100)
  let ram := ram_write ram (c.I + 1) (c.V x / 10 % 10)
  let ram := ram_write ram (c.I + 2) (c.V x % 10)
  { c with RAM := ram }

/-- Modelled from the spec: `Fx55`, store `V0..Vx` at `RAM[I..]`; with quirk 2
"I is not incremented", "disabled → `I = I + x + 1`". -/
def op_Fx55 (c : CHIP8) (x : Nat) : CHIP8 :=
  { c with
    RAM := forLoop (fun i ram => ram_write ram (c.I + i) (c.V i)) (x + 1) c.RAM
    I := if c.quirks 2 then c.I else (c.I + x + 1) % WORD_RANGE }

/-- Modelled from the spec: `Fx65`, load `V0..Vx` from `RAM[I..]`; `I` as for
`Fx55`. -/
def op_Fx65 (c : CHIP8) (x : Nat) : CHIP8 :=
  { c with
    V := forLoop (fun i V => set_reg V i (ram_read c.RAM (c.I + i))) (x + 1) c.V
    I := if c.quirks 2 then c.I else (c.I + x + 1) % WORD_RANGE }

/-- Modelled from the spec: `F002`, the 16 bytes at `RAM[I..]` become the audio
pattern at `AUDIO_BUF_ADDR`. -/
def op_F002 (env : Chip8Env) (c : CHIP8) : CHIP8 :=
  { c with
    RAM := forLoop (fun i ram => ram_write ram (env.AUDIO_BUF_ADDR + i) (ram_read c.RAM (c.I + i)))
      AUDIO_BUF_SIZE c.RAM }

/-- Modelled from the spec: `Fx75` (`save`) and `Fx85`, "persist/restore user
flags", through `chip8_handle_user_flags` of `libretro.c` with the `x + 1`
registers `V0..Vx` (`test_Fx75_Fx85`). -/
def op_user_flags (c : CHIP8) (sram : Nat → Nat) (x : Nat) (save : Bool) :
    CHIP8 × (Nat → Nat) :=
  match chip8_handle_user_flags c sram ((x + 1 : Nat) : Int) save with
  | none => (c, sram)
  | some r => r.2

/-- Modelled from the spec: `00FE` (lo-res) and `00FF` (hi-res); with quirk 5
"switching resolution clears the display". -/
def op_hires (c : CHIP8) (hires : Bool) : CHIP8 :=
  if c.quirks 5 then op_00E0 { c with hires := hires } else { c with hires := hires }

/-- Modelled from the spec: the opcodes with high nibble 0.  `c` has `PC`
already advanced.  `0000` leaves `PC` where it was before the fetch
(`test_0000`); only the opcodes of section 4.2 are defined. -/
def op_0 (env : Chip8Env) (c : CHIP8) (instr : Nat) : CHIP8 :=
  if instr = 0x0000 then rewind c
  else if instr / 16 = 0x00C then
    let r := env.scroll_down c (instr % 16)
    { c with display := r.1, display2 := r.2 }
  else if instr / 16 = 0x00D then
    let r := env.scroll_up c (instr % 16)
    { c with display := r.1, display2 := r.2 }
  else if instr = 0x00E0 then op_00E0 c
  else if instr = 0x00EE then op_00EE env c
  else if instr = 0x00FB then
    let r := env.scroll_right c
    { c with display := r.1, display2 := r.2 }
  else if instr = 0x00FC then
    let r := env.scroll_left c
    { c with display := r.1, display2 := r.2 }
  else if instr = 0x00FD then { c with exit := true }
  else if instr = 0x00FE then op_hires c false
  else if instr = 0x00FF then op_hires c true
  else c

/-- Modelled from the spec: the opcodes `8xyN`. -/
def op_8 (c : CHIP8) (x y n : Nat) : CHIP8 :=
  if n = 0 then { c with V := set_reg c.V x (c.V y) }
  else if n = 1 then op_logic (fun a b => a ||| b) c x y
  else if n = 2 then op_logic (fun a b => a &&& b) c x y
  else if n = 3 then op_logic (fun a b => a ^^^ b) c x y
  else if n = 4 then op_8xy4 c x y
  else if n = 5 then op_8xy5 c x y
  else if n = 6 then op_8xy6 c x
  else if n = 7 then op_8xy7 c x y
  else if n = 0xE then op_8xyE c x
  else c

/-- Modelled from the spec: the opcodes with high nibble F.  `FX00 NNNN` is a
four-byte instruction: the word after the opcode is loaded into `I` and `PC`
moves past it. -/
def op_F (env : Chip8Env) (c : CHIP8) (sram : Nat → Nat) (x kk : Nat) : CHIP8 × (Nat → Nat) :=
  if kk = 0x00 then
    ({ c with I := fetch c, PC := (c.PC + 2) % WORD_RANGE }, sram)
  else if kk = 0x01 then ({ c with plane_mask := x % 4 }, sram)
  else if kk = 0x02 ∧ x = 0 then (op_F002 env c, sram)
  else if kk = 0x07 then ({ c with V := set_reg c.V x c.DT }, sram)
  else if kk = 0x0A then (op_Fx0A c x, sram)
  else if kk = 0x15 then ({ c with DT := c.V x % 256 }, sram)
  else if kk = 0x18 then ({ c with ST := c.V x % 256, beep := decide (0 < c.V x % 256) }, sram)
  else if kk = 0x1E then ({ c with I := (c.I + c.V x) % WORD_RANGE }, sram)
  else if kk = 0x29 then ({ c with I := FONT_START_ADDR + 5 * c.V x }, sram)
  else if kk = 0x30 then ({ c with I := BIG_FONT_START_ADDR + 10 * (c.V x % 16) }, sram)
  else if kk = 0x33 then (op_Fx33 c x, sram)
  else if kk = 0x3A then ({ c with pitch := c.V x % 256 }, sram)
  else if kk = 0x55 then (op_Fx55 c x, sram)
  else if kk = 0x65 then (op_Fx65 c x, sram)
  else if kk = 0x75 then op_user_flags c sram x true
  else if kk = 0x85 then op_user_flags c sram x false
  else (c, sram)

/-- Modelled from the spec: `chip8_execute` of `chip8.c` (absent from the
sources): fetch, "advances `PC += 2` before executing", then "dispatch is by
high nibble, then sub-fields"; "undefined opcodes are treated as no-ops (`PC`
already advanced)".  The result is the emulator and the user flags. -/
def chip8_execute (env : Chip8Env) (c0 : CHIP8) (sram : Nat → Nat) : CHIP8 × (Nat → Nat) :=
  let instr := fetch c0
  let c := { c0 with PC := (c0.PC + 2) % WORD_RANGE }
  let op := instr / 4096
  let x := instr / 256 % 16
  let y := instr / 16 % 16
  let n := instr % 16
  let kk := instr % 256
  let nnn := instr % 4096
  if op = 0x0 then (op_0 env c instr, sram)
  else if op = 0x1 then ({ c with PC := nnn }, sram)
  else if op = 0x2 then (op_2nnn env c nnn, sram)
  else if op = 0x3 then ((if c.V x = kk then skip_next c else c), sram)
  else if op = 0x4 then ((if c.V x ≠ kk then skip_next c else c), sram)
  else if op = 0x5 then
    (if n = 0 then (if c.V x = c.V y then skip_next c else c)
     else if n = 2 then op_5xy2 c x y
     else if n = 3 then op_5xy3 c x y
     else c, sram)
  else if op = 0x6 then ({ c with V := set_reg c.V x kk }, sram)
  else if op = 0x7 then ({ c with V := set_reg c.V x (c.V x + kk) }, sram)
  else if op = 0x8 then (op_8 c x y n, sram)
  else if op = 0x9 then
    (if n = 0 then (if c.V x ≠ c.V y then skip_next c else c) else c, sram)
  else if op = 0xA then ({ c with I := nnn }, sram)
  else if op = 0xB then (op_Bnnn c x nnn, sram)
  else if op = 0xC then ({ c with V := set_reg c.V x (env.rand_byte &&& kk) }, sram)
  else if op = 0xD then (op_Dxyn env c x y n, sram)
  else if op = 0xE then
    (if kk = 0x9E then (if c.keypad (c.V x) = KeyState.KEY_DOWN then skip_next c else c)
     else if kk = 0xA1 then (if c.keypad (c.V x) ≠ KeyState.KEY_DOWN then skip_next c else c)
     else c, sram)
  else op_F env c sram x kk

/-- The opcodes the spec calls control flow: `1nnn`, `2nnn`, `00EE`, the skip
family (`3xkk`, `4xkk`, `5xy0`, `9xy0`, `Ex9E`, `ExA1`) and `Bnnn`. -/
def control_flow (instr : Nat) : Bool :=
  instr / 4096 = 0x1 || instr / 4096 = 0x2 || instr = 0x00EE ||
  instr / 4096 = 0x3 || instr / 4096 = 0x4 ||
  (instr / 4096 = 0x5 && instr % 16 = 0) || (instr / 4096 = 0x9 && instr % 16 = 0) ||
  (instr / 4096 = 0xE && (instr % 256 = 0x9E || instr % 256 = 0xA1)) ||
  instr / 4096 = 0xB

/-- The opcodes section 4.2 of the spec defines, and `0000`. -/
def defined_opcode (instr : Nat) : Bool :=
  (instr / 4096 = 0x0 &&
    (instr = 0x0000 || instr / 16 = 0x00C || instr / 16 = 0x00D || instr = 0x00E0 ||
     instr = 0x00EE || instr = 0x00FB || instr = 0x00FC || instr = 0x00FD ||
     instr = 0x00FE || instr = 0x00FF)) ||
  instr / 4096 = 0x1 || instr / 4096 = 0x2 || instr / 4096 = 0x3 || instr / 4096 = 0x4 ||
  (instr / 4096 = 0x5 && (instr % 16 = 0 || instr % 16 = 2 || instr % 16 = 3)) ||
  instr / 4096 = 0x6 || instr / 4096 = 0x7 ||
  (instr / 4096 = 0x8 && (instr % 16 ≤ 7 || instr % 16 = 0xE)) ||
  (instr / 4096 = 0x9 && instr % 16 = 0) ||
  instr / 4096 = 0xA || instr / 4096 = 0xB || instr / 4096 = 0xC || instr / 4096 = 0xD ||
  (instr / 4096 = 0xE && (instr % 256 = 0x9E || instr % 256 = 0xA1)) ||
  (instr / 4096 = 0xF &&
    (instr % 256 = 0x00 || instr % 256 = 0x01 || instr = 0xF002 || instr % 256 = 0x07 ||
     instr % 256 = 0x0A || instr % 256 = 0x15 || instr % 256 = 0x18 || instr % 256 = 0x1E ||
     instr % 256 = 0x29 || instr % 256 = 0x30 || instr % 256 = 0x33 || instr % 256 = 0x3A ||
     instr % 256 = 0x55 || instr % 256 = 0x65 || instr % 256 = 0x75 || instr % 256 = 0x85))

/-- A sample environment: the stack region at `0x1E0`, the audio pattern at
`0x1000`, sprite and scroll engines that leave the planes alone. -/
def test_env : Chip8Env :=
  { SP_START_ADDR := 0x1E0, AUDIO_BUF_ADDR := 0x1000, rand_byte := 0x5A,
    draw_sprite := fun c _ _ _ => (c.display, c.display2, 0),
    scroll_down := fun c _ => (c.display, c.display2),
    scroll_up := fun c _ => (c.display, c.display2),
    scroll_right := fun c => (c.display, c.display2),
    scroll_left := fun c => (c.display, c.display2) }

/-- The emulator as `main` of `test.c` sets it up and `chip8_load_instr` leaves
it: quirks 0 to 8 enabled (the initializer has nine entries), `PC` at
`PC_START_ADDR_DEFAULT`, `SP` at the start of the stack, registers zero, and
`instr` stored big-endian at `PC`. -/
def test_chip8 (instr : Nat) : CHIP8 :=
  { blank_chip8 with
    SP := test_env.SP_START_ADDR
    quirks := fun i => decide (i < 9)
    RAM := ram_write (ram_write blank_chip8.RAM 0x200 (instr / 256)) 0x201 (instr % 256) }

/-- What a test of `test.c` reads after `chip8_execute`: `PC`, `SP`, `I` and
the registers `V6`, `V0` and `VF`. -/
def observe (r : CHIP8 × (Nat → Nat)) : Nat × Nat × Nat × Nat × Nat × Nat :=
  (r.1.PC, r.1.SP, r.1.I, r.1.V 6, r.1.V 0, r.1.V 0xF)

/-- A snapshot buffer that differs from `blank_buffer` in every scalar field,
in `PC` and in the first user flag. -/
def other_buffer : serialized_state :=
  { chip8 := { blank_chip8 with PC := 0x300 }, cpu_debt := 7, audio_counter_chip8 := 1,
    audio_counter_resample := 2, audio_freq_chip8 := 4000, snd_buf_pntr := 5,
    sram := fun i => if i = 0 then 9 else 0 }

/-- The program of scenario 5 of the spec: `2300` at `0x200` and `00EE` at
`0x300`, the stack empty. -/
def call_chip8 : CHIP8 :=
  { test_chip8 0x2300 with
    RAM := ram_write (ram_write (test_chip8 0x2300).RAM 0x300 0x00) 0x301 0xEE }

/-- The registers of `test_8xy4`, second part: `V6 = 0xFA`, `V9 = 0x07`. -/
def add_chip8 (instr : Nat) : CHIP8 :=
  { test_chip8 instr with V := fun i => if i = 6 then 0xFA else if i = 9 then 0x07 else 0 }

/-- The registers of `test_8xy6`, first part: `V6 = 0x69`, the others 0. -/
def shift_chip8 (instr : Nat) : CHIP8 :=
  { test_chip8 instr with V := fun i => if i = 6 then 0x69 else 0 }

/-- The state of `shift_chip8` with quirk 1 disabled and `V9 = 0x0F`. -/
def plain_shift_chip8 (instr : Nat) : CHIP8 :=
  { test_chip8 instr with
    V := fun i => if i = 6 then 0x69 else if i = 9 then 0x0F else 0
    quirks := fun i => decide (i < 9 ∧ i ≠ 1) }

/-- Statics in which the sampler was playing: pattern pointer 7, five ticks in
`audio_counter_chip8`, a playback rate of 4000, while `beep` is clear. -/
def ringing_core : Core :=
  { blank_core with snd_buf_pntr := 7, audio_counter_chip8 := 5, audio_freq_chip8 := 4000 }

/-- The state of `test_Fx33`, first part: `F033` with `I = 4`, `V0 = 169`. -/
def bcd_chip8 : CHIP8 :=
  { test_chip8 0xF033 with I := 0x4, V := fun i => if i = 0 then 169 else 0 }

/-- The state of `test_Fx0A`, second part: `F00A` with key `A` released. -/
def key_chip8 : CHIP8 :=
  { test_chip8 0xF00A with
    keypad := fun i => if i = 0xA then KeyState.KEY_RELEASED else KeyState.KEY_UP }

/-! ## Core options (`libretro.c`, lines 108, 147-214, 356-382) -/

/-- Modelled from the spec: `NUM_QUIRKS` of `chip8.h` (absent from the
sources), "`quirks[10]`"; the initialiser of `chip8_init_with_vars` lists ten
values and the table `variables` starts with ten quirk options. -/
def NUM_QUIRKS : Nat := 10

/-- Modelled from the spec: `CPU_FREQ_DEFAULT` of `chip8.h` (absent from the
sources), "Defaults 1000/60/60". -/
def CPU_FREQ_DEFAULT : Nat := 1000

/-- Modelled from the spec: `TIMER_FREQ_DEFAULT` of `chip8.h` (absent from the
sources), "Defaults 1000/60/60". -/
def TIMER_FREQ_DEFAULT : Nat := 60

/-- Modelled from the spec: `REFRESH_FREQ_DEFAULT` of `chip8.h` (absent from
the sources), "Defaults 1000/60/60". -/
def REFRESH_FREQ_DEFAULT : Nat := 60

/-- Modelled from the spec: `PC_START_ADDR_DEFAULT` of `chip8.h` (absent from
the sources), "default `0x200`". -/
def PC_START_ADDR_DEFAULT : Nat := 0x200

/-- The macro `FIRST_QUIRK_VARIABLE`. -/
def FIRST_QUIRK_VARIABLE : Nat := 0

/-- The keys of the table `variables` (default build), without the closing
`{ NULL, NULL }` entry (`variables` is a reserved word here). -/
def variables_table : List String :=
  [ "jaxe_quirk_0_ram_init",
    "jaxe_quirk_1_8xy6_8xye",
    "jaxe_quirk_2_fx55_fx65",
    "jaxe_quirk_3_bnnn",
    "jaxe_quirk_4_big_sprite_lores",
    "jaxe_quirk_5_00fe_00ff",
    "jaxe_quirk_6_sprite_wrapping",
    "jaxe_quirk_7_collision_enumeration",
    "jaxe_quirk_8_collision_bottom_of_screen",
    "jaxe_quirk_9_disable_undefined_VF_after_logical_OR_AND_XOR",
    "jaxe_cpu_requency",
    "jaxe_theme" ]

/-- The key `variables[i].key`. -/
def variables_key (i : Nat) : String :=
  variables_table.getD i ""

/-- What the host answers to `environ_cb(RETRO_ENVIRONMENT_GET_VARIABLE, &var)`
for a key: the value the call returns and the pointer `var.value` after it
(`none` is `NULL`). -/
structure VarHost where
  environ_cb : String → Bool × Option String
  strtoul : String → Nat

/-- The arguments `chip8_init_with_vars` passes to `chip8_init`. -/
structure InitArgs where
  cpu_freq : Nat
  timer_freq : Nat
  refresh_freq : Nat
  pc_start_addr : Nat
  quirks : List Bool

/-- The body of the quirk loop of `chip8_init_with_vars`, line 375, for
quirk `i`. -/
def quirk_var (host : VarHost) (i : Nat) (quirks : List Bool) : List Bool :=
  let r := host.environ_cb (variables_key (i + FIRST_QUIRK_VARIABLE))
  quirks.set i ((!r.1 || r.2.isNone) || (r.2 != some "disabled"))

/-- The array `quirks` of `chip8_init_with_vars` after the loop of lines
370-376, starting from the initialiser of line 358. -/
def init_quirks (host : VarHost) : List Bool :=
  forLoop (quirk_var host) NUM_QUIRKS
    [true, true, true, true, true, true, true, true, true, true]

/-- The option value a lookup yields when the call succeeds and the value is
not `NULL` (the test `environ_cb(...) && var.value`). -/
def option_value (host : VarHost) (key : String) : Option String :=
  if (host.environ_cb key).1 then (host.environ_cb key).2 else none

/-- `chip8_init_with_vars`: the statics after `load_theme` and the arguments of
the call of `chip8_init` (`chip8.c`, absent from the sources). -/
def chip8_init_with_vars (host : VarHost) (g : Core) : Core × InitArgs :=
  let g := load_theme (option_value host "jaxe_theme") g
  let quirks := init_quirks host
  let cpu_freq := get_cpu_freq_var ((option_value host "jaxe_cpu_requency").map host.strtoul)
    CPU_FREQ_DEFAULT
  (g, ⟨cpu_freq, TIMER_FREQ_DEFAULT, REFRESH_FREQ_DEFAULT, PC_START_ADDR_DEFAULT, quirks⟩)

/-- A host without core options: every lookup fails. -/
def no_options : VarHost :=
  { environ_cb := fun _ => (false, none), strtoul := fun _ => 0 }

/-- A host that knows the Bnnn quirk option only, set to "disabled", and
answers every other key with a `NULL` value. -/
def bnnn_disabled : VarHost :=
  { environ_cb := fun k => if k = "jaxe_quirk_3_bnnn" then (true, some "disabled") else (true, none),
    strtoul := fun _ => 0 }

/-! ## The stores of `draw_display` -/

/-- The colour `draw_display` computes for pixel `(x, y)`, lines 393-408. -/
def pixel_color (g : Core) (y x : Nat) : Nat :=
  if !g.chip8.display y x && !g.chip8.display2 y x then g.bg_color
  else if g.chip8.display y x && !g.chip8.display2 y x then g.p1_color
  else if !g.chip8.display y x && g.chip8.display2 y x then g.p2_color
  else g.overlap_color

/-- The loops of `draw_display` with the stores of line 410 recorded: the frame
and the indices stored to, in program order. -/
def draw_display_stores (g : Core) : (Nat → Nat) × List Nat :=
  forLoop
    (fun y s => forLoop (fun x s => (draw_pixel g y x s.1, s.2 ++ [x + y * DISPLAY_WIDTH]))
      DISPLAY_WIDTH s)
    DISPLAY_HEIGHT (g.frame, [])

/-- Statics with plane 1 lit at `(3, 2)` and `(5, 2)` and plane 2 lit at
`(4, 2)` and `(5, 2)`. -/
def planes_core : Core :=
  { blank_core with
    chip8 := { blank_chip8 with
      display := fun y x => decide (y = 2 ∧ (x = 3 ∨ x = 5))
      display2 := fun y x => decide (y = 2 ∧ (x = 4 ∨ x = 5)) } }

/-! ## The SDL front-end: the debugger stack (`main.c`, lines 20, 62-98, 361-365) -/

/-- The macro `DBG_STACK_MAX`. -/
def DBG_STACK_MAX : Nat := 1000

/-- Smallest value of the C type `int`. -/
def INT_MIN : Int := -2147483648

/-- The statics of `main.c` that the debugger stack and the input handler
touch. -/
structure Sdl where
  chip8 : CHIP8
  dbg_stack : Nat → CHIP8
  dbg_stack_pntr : Int
  debug_mode : Bool
  paused : Bool
  dbg_step : Bool
  dbg_step_back : Bool
  color_themes : Nat → Int
  color_theme_pntr : Int
  on_color : Int
  off_color : Int

/-- `dbg_stack_push`.  There is no defined result when `dbg_stack_pntr++`
overflows `int` or when the store falls below the array. -/
def dbg_stack_push (s : Sdl) : Option Sdl :=
  if INT_MAX ≤ s.dbg_stack_pntr then none
  else
    let p := s.dbg_stack_pntr + 1
    let p := if (DBG_STACK_MAX : Int) ≤ p then 0 else p
    if p < 0 then none
    else some { s with dbg_stack_pntr := p, dbg_stack := Function.update s.dbg_stack p.toNat s.chip8 }

/-- `dbg_stack_pop`.  There is no defined result when `dbg_stack_pntr--`
overflows `int` or when the read falls beyond the array. -/
def dbg_stack_pop (s : Sdl) : Option Sdl :=
  if s.dbg_stack_pntr ≤ INT_MIN then none
  else
    let p := s.dbg_stack_pntr - 1
    let p := if p < 0 then (DBG_STACK_MAX : Int) - 1 else p
    if (DBG_STACK_MAX : Int) ≤ p then none
    else
      some { s with
        dbg_stack_pntr := p, chip8 := s.dbg_stack p.toNat, dbg_step := true, dbg_step_back := true }

/-- The loop of `init_emulator`, lines 362-365: every slot of the debugger
stack gets the initial emulator. -/
def init_dbg_stack (s : Sdl) : Sdl :=
  { s with dbg_stack := forLoop (fun i st => Function.update st i s.chip8) DBG_STACK_MAX s.dbg_stack }

/-- What can happen to the debugger stack between two looks at it: a push, a
pop, or the emulator moving on to another state (an executed instruction). -/
inductive DbgOp where
  | push
  | pop
  | cycle (c : CHIP8)

/-- One operation on the statics. -/
def dbg_apply (op : DbgOp) (s : Sdl) : Option Sdl :=
  match op with
  | DbgOp.push => dbg_stack_push s
  | DbgOp.pop => dbg_stack_pop s
  | DbgOp.cycle c => some { s with chip8 := c }

/-- A sequence of operations on the statics, first to last. -/
def dbg_run : List DbgOp → Sdl → Option Sdl
  | [], s => some s
  | op :: ops, s =>
    match dbg_apply op s with
    | none => none
    | some s' => dbg_run ops s'

/-- The statics of `main.c` at program start around `blank_chip8`: stack
pointer 0, not paused, not in debug mode, the first colour theme. -/
def blank_sdl : Sdl :=
  { chip8 := blank_chip8, dbg_stack := fun _ => blank_chip8, dbg_stack_pntr := 0,
    debug_mode := false, paused := false, dbg_step := false, dbg_step_back := false,
    color_themes := fun i => if i % 2 = 0 then 0xFFFFFF else 0, color_theme_pntr := 0,
    on_color := 0xFFFFFF, off_color := 0 }

/-- What a test observes of the statics after a run of operations: the stack
pointer and the program counter and `ST` of the emulator. -/
def dbg_summary (r : Option Sdl) : Option (Int × Nat × Nat) :=
  r.map (fun s => (s.dbg_stack_pntr, s.chip8.PC, s.chip8.ST))

/-! ## The SDL front-end: keys (`main.c`, lines 15, 100-111, 597-742) -/

/-- The macro `BAD_KEY`. -/
def BAD_KEY : Nat := 0x42

/-- The key code `SDLK_1` of `SDL_keycode.h`, the character `1`. -/
def SDLK_1 : Int := 49

/-- The key code `SDLK_2` of `SDL_keycode.h`, the character `2`. -/
def SDLK_2 : Int := 50

/-- The key code `SDLK_3` of `SDL_keycode.h`, the character `3`. -/
def SDLK_3 : Int := 51

/-- The key code `SDLK_4` of `SDL_keycode.h`, the character `4`. -/
def SDLK_4 : Int := 52

/-- The key code `SDLK_q` of `SDL_keycode.h`, the character `q`. -/
def SDLK_q : Int := 113

/-- The key code `SDLK_w` of `SDL_keycode.h`, the character `w`. -/
def SDLK_w : Int := 119

/-- The key code `SDLK_e` of `SDL_keycode.h`, the character `e`. -/
def SDLK_e : Int := 101

/-- The key code `SDLK_r` of `SDL_keycode.h`, the character `r`. -/
def SDLK_r : Int := 114

/-- The key code `SDLK_a` of `SDL_keycode.h`, the character `a`. -/
def SDLK_a : Int := 97

/-- The key code `SDLK_s` of `SDL_keycode.h`, the character `s`. -/
def SDLK_s : Int := 115

/-- The key code `SDLK_d` of `SDL_keycode.h`, the character `d`. -/
def SDLK_d : Int := 100

/-- The key code `SDLK_f` of `SDL_keycode.h`, the character `f`. -/
def SDLK_f : Int := 102

/-- The key code `SDLK_z` of `SDL_keycode.h`, the character `z`. -/
def SDLK_z : Int := 122

/-- The key code `SDLK_x` of `SDL_keycode.h`, the character `x`. -/
def SDLK_x : Int := 120

/-- The key code `SDLK_c` of `SDL_keycode.h`, the character `c`. -/
def SDLK_c : Int := 99

/-- The key code `SDLK_v` of `SDL_keycode.h`, the character `v`. -/
def SDLK_v : Int := 118

/-- The key code `SDLK_SPACE` of `SDL_keycode.h`, the space character. -/
def SDLK_SPACE : Int := 32

/-- The key code `SDLK_UP` of `SDL_keycode.h`, scancode 82 with bit 30 set. -/
def SDLK_UP : Int := 1073741906

/-- The key code `SDLK_DOWN` of `SDL_keycode.h`, scancode 81 with bit 30 set. -/
def SDLK_DOWN : Int := 1073741905

/-- The key code `SDLK_RIGHT` of `SDL_keycode.h`, scancode 79 with bit 30 set. -/
def SDLK_RIGHT : Int := 1073741903

/-- The key code `SDLK_LEFT` of `SDL_keycode.h`, scancode 80 with bit 30 set. -/
def SDLK_LEFT : Int := 1073741904

/-- The key code `SDLK_RETURN` of `SDL_keycode.h`, carriage return. -/
def SDLK_RETURN : Int := 13

/-- The key code `SDLK_BACKSPACE` of `SDL_keycode.h`, backspace. -/
def SDLK_BACKSPACE : Int := 8

/-- The key code `SDLK_ESCAPE` of `SDL_keycode.h`, escape. -/
def SDLK_ESCAPE : Int := 27

/-- `SDLK_to_hex`: the `switch` over the key code, the cases in source order. -/
def SDLK_to_hex (key : Int) : Nat :=
  if key = SDLK_1 then 0x01
  else if key = SDLK_2 then 0x02
  else if key = SDLK_3 then 0x03
  else if key = SDLK_4 then 0x0C
  else if key = SDLK_q then 0x04
  else if key = SDLK_w then 0x05
  else if key = SDLK_e then 0x06
  else if key = SDLK_r then 0x0D
  else if key = SDLK_a then 0x07
  else if key = SDLK_s then 0x08
  else if key = SDLK_d then 0x09
  else if key = SDLK_f then 0x0E
  else if key = SDLK_z then 0x0A
  else if key = SDLK_x then 0x00
  else if key = SDLK_c then 0x0B
  else if key = SDLK_v then 0x0F
  else BAD_KEY

/-- The sixteen key codes `SDLK_to_hex` has a case for, as they lie on the
keyboard: rows `1 2 3 4`, `q w e r`, `a s d f`, `z x c v`. -/
def mapped_keys : List Int :=
  [ SDLK_1, SDLK_2, SDLK_3, SDLK_4,
    SDLK_q, SDLK_w, SDLK_e, SDLK_r,
    SDLK_a, SDLK_s, SDLK_d, SDLK_f,
    SDLK_z, SDLK_x, SDLK_c, SDLK_v ]

/-- The keypad of the emulator, row by row: `1 2 3 C`, `4 5 6 D`, `7 8 9 E`,
`A 0 B F`. -/
def keypad_layout : List Nat :=
  [ 0x1, 0x2, 0x3, 0xC,
    0x4, 0x5, 0x6, 0xD,
    0x7, 0x8, 0x9, 0xE,
    0xA, 0x0, 0xB, 0xF ]

/-- The macro `NUM_COLOR_THEMES`: the table `color_themes` has 12 entries. -/
def NUM_COLOR_THEMES : Int := 12

/-- `cycle_color_theme`; the pointer starts at 0 and only this function moves
it, in steps of 2 within `0..10`. -/
def cycle_color_theme (s : Sdl) : Sdl :=
  let p := s.color_theme_pntr + 2
  let p := if NUM_COLOR_THEMES ≤ p then 0 else p
  { s with
    color_theme_pntr := p, on_color := s.color_themes p.toNat,
    off_color := s.color_themes (p + 1).toNat }

/-- The functions of `chip8.c` (absent from the sources) that `handle_input`
calls; they are parameters of the embedding. -/
structure Chip8Ops where
  chip8_set_cpu_freq : CHIP8 → Nat → CHIP8
  chip8_dump : CHIP8 → CHIP8
  chip8_soft_reset : CHIP8 → CHIP8

/-- What `SDL_PollEvent` hands over: a quit request, a key going up or down
with its key code, or an event of another type. -/
inductive SDL_Event where
  | quit
  | keyup (sym : Int)
  | keydown (sym : Int)
  | other

/-- One store `chip8.keypad[index] = state` of `handle_input`. -/
structure KeyStore where
  index : Nat
  state : KeyState
  deriving DecidableEq, Repr

/-- What `handle_input` leaves behind: its return value, the statics, the
events still queued and the stores to `chip8.keypad` it made, in order. -/
structure InputResult where
  running : Bool
  statics : Sdl
  queue : List SDL_Event
  stores : List KeyStore

/-- The inner `switch` of the `SDL_KEYUP` case, lines 681-726, for a key that
is not a keypad key.  The frequencies are `unsigned long`. -/
def keyup_command (ops : Chip8Ops) (keyc : Int) (s : Sdl) : Option Sdl :=
  if keyc = SDLK_SPACE then some { s with paused := !s.paused }
  else if keyc = SDLK_UP then some { s with dbg_step := true && s.debug_mode }
  else if keyc = SDLK_DOWN then (if s.debug_mode then dbg_stack_pop s else some s)
  else if keyc = SDLK_RIGHT then
    some { s with chip8 := ops.chip8_set_cpu_freq s.chip8 ((s.chip8.cpu_freq + 100) % ULONG_RANGE) }
  else if keyc = SDLK_LEFT then
    some { s with
      chip8 := ops.chip8_set_cpu_freq s.chip8 ((s.chip8.cpu_freq + ULONG_RANGE - 100) % ULONG_RANGE) }
  else if keyc = SDLK_RETURN then some { s with chip8 := ops.chip8_dump s.chip8 }
  else if keyc = SDLK_BACKSPACE then some (cycle_color_theme s)
  else if keyc = SDLK_ESCAPE then some { s with chip8 := ops.chip8_soft_reset s.chip8 }
  else some s

/-- The store `chip8.keypad[hexkey] = state`, recorded. -/
def store_key (hexkey : Nat) (state : KeyState) (s : Sdl) (stores : List KeyStore) :
    Sdl × List KeyStore :=
  ({ s with chip8 := { s.chip8 with keypad := Function.update s.chip8.keypad hexkey state } },
   stores ++ [⟨hexkey, state⟩])

/-- `handle_input`: the loop over `SDL_PollEvent`, the list being the queued
events.  `none` means a fault inside `dbg_stack_pop`. -/
def handle_input (ops : Chip8Ops) : List SDL_Event → Sdl → List KeyStore → Option InputResult
  | [], s, stores => some ⟨true, s, [], stores⟩
  | SDL_Event.quit :: es, s, stores => some ⟨false, s, es, stores⟩
  | SDL_Event.keyup sym :: es, s, stores =>
    let hexkey := SDLK_to_hex sym
    if hexkey ≠ BAD_KEY then
      let r := store_key hexkey KeyState.KEY_RELEASED s stores
      some ⟨true, r.1, es, r.2⟩
    else
      match keyup_command ops sym s with
      | none => none
      | some s' => handle_input ops es s' stores
  | SDL_Event.keydown sym :: es, s, stores =>
    let hexkey := SDLK_to_hex sym
    if hexkey ≠ BAD_KEY then
      let r := store_key hexkey KeyState.KEY_DOWN s stores
      handle_input ops es r.1 r.2
    else handle_input ops es s stores
  | SDL_Event.other :: es, s, stores => handle_input ops es s stores

/-- Emulator functions that do nothing, for sample runs of `handle_input`. -/
def idle_ops : Chip8Ops :=
  { chip8_set_cpu_freq := fun c f => { c with cpu_freq := f },
    chip8_dump := fun c => c, chip8_soft_reset := fun c => c }

/-- What a test observes of a call of `handle_input`: the return value, the
number of events left and the stores to the keypad. -/
def input_summary (r : Option InputResult) : Option (Bool × Nat × List KeyStore) :=
  r.map (fun x => (x.running, x.queue.length, x.stores))

/-! ## Sample runs of the resampler -/

/-- What a test observes of a call of `audio_sample`: the counter left and the
frame counts of the batches handed to the host, in order. -/
def resample_summary (lib : Chip8Lib) (sample : Int) (g : Core) : Option (Nat × List Nat) :=
  (audio_sample lib sample g).map (fun r => (r.1.audio_counter_resample, r.2.map Batch.frames))

/-- Statics with three million ticks in `audio_counter_resample`. -/
def loaded_core : Core :=
  { blank_core with audio_counter_resample := 3000000 }

/-! ## Consecutive frames -/

/-- Consecutive calls of `retro_run`, one per host input: the statics after the
last call and the number of instructions executed in all of them. -/
def retro_run_frames (lib : Chip8Lib) (fuel : Nat) : List FrameInput → Core → Option (Core × Nat)
  | [], g => some (g, 0)
  | inp :: rest, g =>
    match retro_run lib inp fuel g with
    | none => none
    | some r =>
      match retro_run_frames lib fuel rest r.1 with
      | none => none
      | some r' => some (r'.1, r.2.cycles.length + r'.2)

/-- What a test observes of consecutive frames: the final `exit`, the number of
instructions executed and the final `cpu_debt`. -/
def frames_summary (lib : Chip8Lib) (fuel : Nat) (inps : List FrameInput) (g : Core) :
    Option (Bool × Nat × Nat) :=
  (retro_run_frames lib fuel inps g).map (fun r => (r.1.chip8.exit, r.2, r.1.cpu_debt))

/-- Statics with `cpu_freq` at the largest `unsigned long` (what `strtoul`
returns for an option value that is out of range) and a debt of 59. -/
def wrap_core : Core :=
  { blank_core with chip8 := { blank_chip8 with cpu_freq := ULONG_RANGE - 1 }, cpu_debt := 59 }

/-! ## Snapshot round trip -/

/-- Claim C2: a snapshot written by `retro_serialize` into a buffer of at least
`retro_serialize_size()` bytes and read back by `retro_unserialize`, whatever
the statics became in between, restores the whole `CHIP8` record, `cpu_debt`,
the three audio accumulators, `snd_buf_pntr` and the 16 user-flag bytes; both
calls return true. -/
theorem snapshot_round_trip (sz : Nat) (s g : Core) (buf : serialized_state) (size size' : Nat)
    (h : retro_serialize_size sz ≤ size) (h' : retro_serialize_size sz ≤ size') :
    (retro_serialize sz s buf size).1 = true ∧
    (retro_unserialize sz g (retro_serialize sz s buf size).2 size').1 = true ∧
    (retro_unserialize sz g (retro_serialize sz s buf size).2 size').2.chip8 = s.chip8 ∧
    (retro_unserialize sz g (retro_serialize sz s buf size).2 size').2.cpu_debt = s.cpu_debt ∧
    (retro_unserialize sz g (retro_serialize sz s buf size).2 size').2.audio_counter_chip8
      = s.audio_counter_chip8 ∧
    (retro_unserialize sz g (retro_serialize sz s buf size).2 size').2.audio_counter_resample
      = s.audio_counter_resample ∧
    (retro_unserialize sz g (retro_serialize sz s buf size).2 size').2.audio_freq_chip8
      = s.audio_freq_chip8 ∧
    (retro_unserialize sz g (retro_serialize sz s buf size).2 size').2.snd_buf_pntr
      = s.snd_buf_pntr ∧
    ∀ i, i < NUM_USER_FLAGS →
      (retro_unserialize sz g (retro_serialize sz s buf size).2 size').2.sram i = s.sram i := by
  have h1 : ¬ size < sz := by simpa [retro_serialize_size] using h
  have h2 : ¬ size' < sz := by simpa [retro_serialize_size] using h'
  simp only [retro_serialize, retro_unserialize, h1, h2, if_false, memcpy]
  refine ⟨trivial, trivial, trivial, trivial, trivial, trivial, trivial, trivial, ?_⟩
  intro i hi
  simp [hi]

/-- Witness of C2: a snapshot of a state with `cpu_debt = 40`, taken into a
400000-byte buffer and restored over the blank state. -/
theorem snapshot_round_trip_witness :
    retro_serialize_size 300000 ≤ 400000 ∧
    (retro_unserialize 300000 blank_core
      (retro_serialize 300000 { blank_core with cpu_debt := 40 } blank_buffer 400000).2
      400000).2.cpu_debt = 40 :=
  ⟨by decide,
   (snapshot_round_trip 300000 { blank_core with cpu_debt := 40 } blank_core blank_buffer
      400000 400000 (by decide) (by decide)).2.2.2.1⟩

/-! ## End-of-frame timers -/

/-- Claim C3: when `timer_freq == refresh_freq` the end-of-frame step of
`retro_run` takes one off `DT` if it is positive and leaves it at 0 otherwise,
and likewise for `ST`; when the frequencies differ it leaves both unchanged. -/
theorem frame_timers_decrement (c : CHIP8) :
    (frame_timers c).DT =
      (if c.timer_freq = c.refresh_freq then (if 0 < c.DT then c.DT - 1 else 0) else c.DT) ∧
    (frame_timers c).ST =
      (if c.timer_freq = c.refresh_freq then (if 0 < c.ST then c.ST - 1 else 0) else c.ST) := by
  unfold frame_timers
  by_cases hf : c.timer_freq = c.refresh_freq
  · by_cases hd : 0 < c.DT <;> by_cases hs : 0 < c.ST <;> simp [hf, hd, hs] <;> omega
  · simp [hf]

/-- Counterexample to C4 as stated: with `timer_freq == refresh_freq`, `ST = 0`
and `beep` set before the tick, the tick leaves `beep` set and `ST` at 0. -/
theorem frame_timers_stale_beep :
    stale_beep_chip8.timer_freq = stale_beep_chip8.refresh_freq ∧
    (frame_timers stale_beep_chip8).beep = true ∧
    (frame_timers stale_beep_chip8).ST = 0 ∧
    ¬ ((frame_timers stale_beep_chip8).beep = true ↔ 0 < (frame_timers stale_beep_chip8).ST) := by
  decide

/-- Claim C4, amended: after the end-of-frame tick (`timer_freq ==
refresh_freq`), for every state before the tick in which `ST > 0` or `beep` is
clear, `beep` is true exactly when `ST` is greater than zero. -/
theorem frame_timers_beep (c : CHIP8) (hf : c.timer_freq = c.refresh_freq)
    (hs : 0 < c.ST ∨ c.beep = false) :
    ((frame_timers c).beep = true ↔ 0 < (frame_timers c).ST) := by
  unfold frame_timers
  by_cases hd : 0 < c.DT <;> by_cases h0 : 0 < c.ST
  · simp [hf, hd, h0]
  · have hb : c.beep = false := by
      rcases hs with h | h
      · exact absurd h h0
      · exact h
    simp [hf, hd, h0, hb]
  · simp [hf, hd, h0]
  · have hb : c.beep = false := by
      rcases hs with h | h
      · exact absurd h h0
      · exact h
    simp [hf, hd, h0, hb]

/-- Witness of C4: the tick of a state with `ST = 3`. -/
theorem frame_timers_beep_witness :
    sounding_chip8.timer_freq = sounding_chip8.refresh_freq ∧
    (0 < sounding_chip8.ST ∨ sounding_chip8.beep = false) ∧
    ((frame_timers sounding_chip8).beep = true ↔ 0 < (frame_timers sounding_chip8).ST) :=
  ⟨by decide, by decide, frame_timers_beep sounding_chip8 (by decide) (by decide)⟩

/-! ## Key poll -/

/-- The key loop run over the first `n` keys: key `i < n` becomes DOWN when its
button is pressed, RELEASED when it is not and the key was DOWN, UP otherwise;
the other keys keep their state. -/
theorem poll_keys_upto (cb : Nat → Bool) (c : CHIP8) (n i : Nat) :
    (forLoop (poll_key cb) n c).keypad i =
      if i < n then
        (if cb (hexorder_at i) then KeyState.KEY_DOWN
         else if c.keypad i = KeyState.KEY_DOWN then KeyState.KEY_RELEASED
         else KeyState.KEY_UP)
      else c.keypad i := by
  induction n with
  | zero => simp [forLoop]
  | succ n ih =>
    simp only [forLoop]
    by_cases hin : i = n
    · subst hin
      have hk : (forLoop (poll_key cb) i c).keypad i = c.keypad i := by
        rw [ih]; simp
      by_cases hp : cb (hexorder_at i) = true
      · simp [poll_key, hp]
      · simp [poll_key, hp, hk]
    · have hne : (poll_key cb n (forLoop (poll_key cb) n c)).keypad i
          = (forLoop (poll_key cb) n c).keypad i := by
        unfold poll_key
        split <;> simp [Function.update, hin]
      rw [hne, ih]
      by_cases hlt : i < n
      · have : i < n + 1 := by omega
        simp [hlt, this]
      · have : ¬ i < n + 1 := by omega
        simp [hlt, this]

/-- The state of key `i < 16` after the key loop of `retro_run`. -/
theorem poll_keys_keypad (cb : Nat → Bool) (c : CHIP8) (i : Nat) (hi : i < 16) :
    (poll_keys cb c).keypad i =
      (if cb (hexorder_at i) then KeyState.KEY_DOWN
       else if c.keypad i = KeyState.KEY_DOWN then KeyState.KEY_RELEASED
       else KeyState.KEY_UP) := by
  unfold poll_keys
  rw [poll_keys_upto]
  simp [hi]

/-- Claim C5: in the key poll of `retro_run` (default build), a key `i` in
`0..15` that is RELEASED and whose button is not pressed in this poll becomes
UP. -/
theorem poll_keys_released_decays (cb : Nat → Bool) (c : CHIP8) (i : Nat) (hi : i < 16)
    (hrel : c.keypad i = KeyState.KEY_RELEASED) (hup : cb (hexorder_at i) = false) :
    (poll_keys cb c).keypad i = KeyState.KEY_UP := by
  rw [poll_keys_keypad cb c i hi]
  simp [hup, hrel]

/-- Witness of C5: key 5 released before the poll, no button pressed. -/
theorem poll_keys_released_decays_witness :
    released_chip8.keypad 5 = KeyState.KEY_RELEASED ∧
    (poll_keys idle_input.input_state_cb released_chip8).keypad 5 = KeyState.KEY_UP :=
  ⟨by decide,
   poll_keys_released_decays idle_input.input_state_cb released_chip8 5 (by decide)
     (by decide) (by decide)⟩

/-! ## User flags -/

/-- Claim C7: for `n ≤ NUM_USER_FLAGS`, saving the first `n` registers and later
restoring them, whatever the emulator `c'` is at that time, sets `V[0..n)` to
the values at save time and leaves `V[n..16)` as in `c'`; both calls return
true, the save leaves the emulator and the restore the stored flags alone. -/
theorem user_flags_round_trip (n : Nat) (hn : n ≤ NUM_USER_FLAGS) (c c' : CHIP8)
    (sram : Nat → Nat) :
    ∃ sram' c'',
      chip8_handle_user_flags c sram (n : Int) true = some (true, c, sram') ∧
      chip8_handle_user_flags c' sram' (n : Int) false = some (true, c'', sram') ∧
      (∀ i, i < n → c''.V i = c.V i) ∧ (∀ i, n ≤ i → c''.V i = c'.V i) := by
  have h1 : ((n : Nat) : Int) ≤ ((NUM_USER_FLAGS : Nat) : Int) := by exact_mod_cast hn
  have h2 : ¬ ((n : Nat) : Int) < 0 := by omega
  refine ⟨memcpy sram c.V n, { c' with V := memcpy c'.V (memcpy sram c.V n) n }, ?_, ?_, ?_, ?_⟩
  · simp [chip8_handle_user_flags, h1]
  · simp [chip8_handle_user_flags, h1]
  · intro i hi
    simp [memcpy, hi]
  · intro i hi
    have : ¬ i < n := by omega
    simp [memcpy, this]

/-- Witness of C7: three registers saved from `flags_chip8` and restored into
the blank emulator. -/
theorem user_flags_round_trip_witness :
    3 ≤ NUM_USER_FLAGS ∧
    ∃ sram' c'',
      chip8_handle_user_flags flags_chip8 blank_core.sram ((3 : Nat) : Int) true
        = some (true, flags_chip8, sram') ∧
      chip8_handle_user_flags blank_chip8 sram' ((3 : Nat) : Int) false
        = some (true, c'', sram') ∧
      (∀ i, i < 3 → c''.V i = flags_chip8.V i) ∧ (∀ i, 3 ≤ i → c''.V i = blank_chip8.V i) :=
  ⟨by decide, user_flags_round_trip 3 (by decide) flags_chip8 blank_chip8 blank_core.sram⟩

/-! ## The audio sampler -/

/-- The arithmetic of `get_audio_sample` on a byte `v` and a shift `sh < 8`:
the 16-bit pattern left in `x` is full scale when bit `7 - sh` of `v` is set
and 0 otherwise. -/
theorem sample_bits (v sh : Nat) (hsh : sh < 8) :
    ((((v % 256) <<< sh) % 65536) &&& 0x80) * 0xFF % 65536
      = if v.testBit (7 - sh) then 32640 else 0 := by
  have h128 : (0x80 : Nat) = 2 ^ 7 := by norm_num
  have h16 : (65536 : Nat) = 2 ^ 16 := by norm_num
  have h8 : (256 : Nat) = 2 ^ 8 := by norm_num
  rw [h128, Nat.and_two_pow, h16, Nat.testBit_mod_two_pow, Nat.testBit_shiftLeft, h8,
    Nat.testBit_mod_two_pow]
  have h1 : decide (7 ≥ sh) = true := by simp; omega
  have h2 : decide (7 - sh < 8) = true := by simp; omega
  simp only [h1, h2, Bool.true_and, show decide (7 < 16) = true by decide]
  cases v.testBit (7 - sh) <;> simp

/-- With the pattern inside `RAM` and the pointer `p` in `0..127`,
`get_audio_sample` has a defined result: the sample is given by bit
`7 - p % 8` of byte `p / 8` of the pattern and the pointer becomes
`(p + 1) % 128`; nothing else changes. -/
theorem get_audio_sample_in_range (lib : Chip8Lib) (g : Core) (p : Nat) (hp : p < 128)
    (hg : g.snd_buf_pntr = (p : Int)) (hA : lib.AUDIO_BUF_ADDR + AUDIO_BUF_SIZE ≤ MAX_RAM) :
    get_audio_sample lib g =
      some ((if (g.chip8.RAM (lib.AUDIO_BUF_ADDR + p / 8)).testBit (7 - p % 8)
              then (32640 : Int) else 0),
            { g with snd_buf_pntr := (((p + 1) % 128 : Nat) : Int) }) := by
  have e1 : Int.tdiv (p : Int) 8 = ((p / 8 : Nat) : Int) := (Int.ofNat_tdiv p 8).symm
  have e2 : Int.tmod (p : Int) 8 = ((p % 8 : Nat) : Int) := (Int.ofNat_tmod p 8).symm
  have e3 : ((lib.AUDIO_BUF_ADDR : Int) + ((p / 8 : Nat) : Int))
      = ((lib.AUDIO_BUF_ADDR + p / 8 : Nat) : Int) := by push_cast; rfl
  have hsh : p % 8 < 8 := Nat.mod_lt _ (by norm_num)
  unfold MAX_RAM AUDIO_BUF_SIZE at hA
  have hc : ¬ (((lib.AUDIO_BUF_ADDR + p / 8 : Nat) : Int) < 0
      ∨ ((MAX_RAM : Nat) : Int) ≤ ((lib.AUDIO_BUF_ADDR + p / 8 : Nat) : Int)
      ∨ ((p % 8 : Nat) : Int) < 0 ∨ INT_MAX ≤ (p : Int)) := by
    unfold MAX_RAM INT_MAX
    omega
  unfold get_audio_sample
  simp only [hg, e1, e2, e3, if_neg hc, Int.toNat_ofNat, sample_bits _ _ hsh]
  have hs : toInt16 (if (g.chip8.RAM (lib.AUDIO_BUF_ADDR + p / 8)).testBit (7 - p % 8)
      then 32640 else 0)
      = (if (g.chip8.RAM (lib.AUDIO_BUF_ADDR + p / 8)).testBit (7 - p % 8)
          then (32640 : Int) else 0) := by
    split <;> simp [toInt16]
  have hq : (if (((AUDIO_BUF_SIZE * 8 : Nat) : Int) ≤ (p : Int) + 1) then (0 : Int)
      else (p : Int) + 1) = (((p + 1) % 128 : Nat) : Int) := by
    unfold AUDIO_BUF_SIZE
    split <;> omega
  rw [hs, hq]

/-- Claim C8: for every pointer value `p` in `0..127` (the pattern lying inside
`RAM`), `get_audio_sample` returns a sample that is a function of bit
`7 - p mod 8` of `RAM[AUDIO_BUF_ADDR + p div 8]` alone: 0 when the bit is 0 and
`0x80 * 0xFF = 32640` when it is 1. -/
theorem get_audio_sample_bit_stream (lib : Chip8Lib) (g : Core) (p : Nat) (hp : p < 128)
    (hg : g.snd_buf_pntr = (p : Int)) (hA : lib.AUDIO_BUF_ADDR + AUDIO_BUF_SIZE ≤ MAX_RAM) :
    ∃ g', get_audio_sample lib g =
      some ((if (g.chip8.RAM (lib.AUDIO_BUF_ADDR + p / 8)).testBit (7 - p % 8)
              then (0x80 * 0xFF : Int) else 0), g') ∧
      (0x80 * 0xFF : Int) = 32640 := by
  refine ⟨{ g with snd_buf_pntr := (((p + 1) % 128 : Nat) : Int) }, ?_, by norm_num⟩
  rw [get_audio_sample_in_range lib g p hp hg hA]
  norm_num

/-- Witness of C8: pointer 1 on a pattern starting with `0x40` reads bit 6 of
byte 0, which is set. -/
theorem get_audio_sample_bit_stream_witness :
    (1 : Nat) < 128 ∧ pattern_core.snd_buf_pntr = ((1 : Nat) : Int) ∧
    sample_lib.AUDIO_BUF_ADDR + AUDIO_BUF_SIZE ≤ MAX_RAM ∧
    (pattern_core.chip8.RAM (sample_lib.AUDIO_BUF_ADDR + 1 / 8)).testBit (7 - 1 % 8) = true ∧
    ∃ g', get_audio_sample sample_lib pattern_core =
      some ((if (pattern_core.chip8.RAM (sample_lib.AUDIO_BUF_ADDR + 1 / 8)).testBit (7 - 1 % 8)
              then (0x80 * 0xFF : Int) else 0), g') ∧
      (0x80 * 0xFF : Int) = 32640 :=
  ⟨by decide, by decide, by decide, by decide,
   get_audio_sample_bit_stream sample_lib pattern_core 1 (by decide) (by decide) (by decide)⟩

/-- After `n` consecutive calls of `get_audio_sample` from a pointer `p` in
`0..127` the pointer is `(p + n) % 128`. -/
theorem get_audio_sample_times_pntr (lib : Chip8Lib)
    (hA : lib.AUDIO_BUF_ADDR + AUDIO_BUF_SIZE ≤ MAX_RAM) (n : Nat) :
    ∀ (g : Core) (p : Nat), p < 128 → g.snd_buf_pntr = (p : Int) →
      ∃ g', get_audio_sample_times lib n g = some g' ∧
        g'.snd_buf_pntr = (((p + n) % 128 : Nat) : Int) := by
  induction n with
  | zero =>
    intro g p hp hg
    refine ⟨g, rfl, ?_⟩
    rw [hg, Nat.add_zero, Nat.mod_eq_of_lt hp]
  | succ n ih =>
    intro g p hp hg
    simp only [get_audio_sample_times, get_audio_sample_in_range lib g p hp hg hA]
    obtain ⟨g', h1, h2⟩ := ih { g with snd_buf_pntr := (((p + 1) % 128 : Nat) : Int) }
      ((p + 1) % 128) (Nat.mod_lt _ (by norm_num)) rfl
    refine ⟨g', h1, ?_⟩
    rw [h2]
    congr 1
    omega

/-- Claim C9: for every `p` with `0 ≤ p < 128` (the pattern lying inside `RAM`)
the pointer after one call of `get_audio_sample` is `(p + 1) mod 128`, which is
again in `0..127`, so that the byte read next, at offset `snd_buf_pntr / 8`, is
one of the `AUDIO_BUF_SIZE` bytes of the pattern; and 128 consecutive calls
bring the pointer back to `p`. -/
theorem get_audio_sample_pntr_wraps (lib : Chip8Lib) (g : Core) (p : Nat) (hp : p < 128)
    (hg : g.snd_buf_pntr = (p : Int)) (hA : lib.AUDIO_BUF_ADDR + AUDIO_BUF_SIZE ≤ MAX_RAM) :
    (∃ x g', get_audio_sample lib g = some (x, g') ∧
      g'.snd_buf_pntr = (((p + 1) % 128 : Nat) : Int) ∧
      0 ≤ g'.snd_buf_pntr ∧ g'.snd_buf_pntr < 128 ∧
      Int.tdiv g'.snd_buf_pntr 8 < (AUDIO_BUF_SIZE : Int)) ∧
    (∃ g', get_audio_sample_times lib 128 g = some g' ∧ g'.snd_buf_pntr = (p : Int)) := by
  constructor
  · refine ⟨_, _, get_audio_sample_in_range lib g p hp hg hA, rfl, ?_, ?_, ?_⟩
    · simp only []
      omega
    · simp only []
      omega
    · simp only []
      have e : Int.tdiv (((p + 1) % 128 : Nat) : Int) 8 = (((p + 1) % 128 / 8 : Nat) : Int) :=
        (Int.ofNat_tdiv _ 8).symm
      rw [e]
      unfold AUDIO_BUF_SIZE
      omega
  · obtain ⟨g', h1, h2⟩ := get_audio_sample_times_pntr lib hA 128 g p hp hg
    refine ⟨g', h1, ?_⟩
    rw [h2]
    congr 1
    omega

/-- Witness of C9: the pointer 127 wraps to 0 and comes back to 127 after 128
calls. -/
theorem get_audio_sample_pntr_wraps_witness :
    (127 : Nat) < 128 ∧
    (∃ x g', get_audio_sample sample_lib { blank_core with snd_buf_pntr := 127 } = some (x, g') ∧
      g'.snd_buf_pntr = (((127 + 1) % 128 : Nat) : Int) ∧
      0 ≤ g'.snd_buf_pntr ∧ g'.snd_buf_pntr < 128 ∧
      Int.tdiv g'.snd_buf_pntr 8 < (AUDIO_BUF_SIZE : Int)) ∧
    (∃ g', get_audio_sample_times sample_lib 128 { blank_core with snd_buf_pntr := 127 } = some g' ∧
      g'.snd_buf_pntr = ((127 : Nat) : Int)) :=
  ⟨by decide,
   get_audio_sample_pntr_wraps sample_lib { blank_core with snd_buf_pntr := 127 } 127
     (by decide) rfl (by decide)⟩

/-! ## The resampler and the beeping loop -/

/-- With a positive period `q` and enough iterations allowed, the loop of
`audio_sample` ends with the counter reduced modulo `q`; if all samples queued
or sent before are `s`, so are all samples queued or sent after. -/
theorem audio_sample_loop_total (q : Nat) (s : Int) (hq : 0 < q) :
    ∀ (fuel c : Nat) (buf : List Int) (out : List Batch), c / q < fuel →
      (∀ x ∈ buf, x = s) → (∀ b ∈ out, ∀ x ∈ b.data, x = s) →
      ∃ buf' out', audio_sample_loop q s fuel c buf out = some (c % q, buf', out') ∧
        (∀ x ∈ buf', x = s) ∧ (∀ b ∈ out', ∀ x ∈ b.data, x = s) := by
  intro fuel
  induction fuel with
  | zero => intro c buf out h; exact absurd h (Nat.not_lt_zero _)
  | succ n ih =>
    intro c buf out h hb ho
    unfold audio_sample_loop
    by_cases hc : q ≤ c
    · have hdiv : c / q = (c - q) / q + 1 := Nat.div_eq_sub_div hq hc
      have hmod : c % q = (c - q) % q := Nat.mod_eq_sub_mod hc
      have h1 : (c - q) / q < n := by
        rw [hdiv] at h
        exact Nat.lt_of_succ_lt_succ h
      have hb' : ∀ x ∈ buf ++ [s, s], x = s := by
        intro x hx
        rcases List.mem_append.mp hx with h | h
        · exact hb x h
        · simp at h; exact h
      simp only [hc, if_true]
      by_cases hfull : 200 ≤ (buf ++ [s, s]).length
      · simp only [hfull, if_true]
        rw [hmod]
        apply ih (c - q) [] _ h1
        · intro x hx; simp at hx
        · intro b hbm x hx
          rcases List.mem_append.mp hbm with h | h
          · exact ho b h x hx
          · simp at h
            subst h
            exact hb' x hx
      · simp only [hfull, if_false]
        rw [hmod]
        exact ih (c - q) _ out h1 hb' ho
    · simp only [hc, if_false]
      have : c % q = c := Nat.mod_eq_of_lt (by omega)
      rw [this]
      exact ⟨buf, out, rfl, hb, ho⟩

/-- With `ONE_SEC / AUDIO_RESAMPLE_RATE > 0`, `audio_sample` has a defined
result: only `audio_counter_resample` changes, to its remainder modulo the
period, and every sample handed to the host is the given one. -/
theorem audio_sample_total (lib : Chip8Lib) (s : Int) (g : Core)
    (hq : 0 < lib.ONE_SEC / AUDIO_RESAMPLE_RATE) :
    ∃ bs, audio_sample lib s g =
        some ({ g with audio_counter_resample :=
                g.audio_counter_resample % (lib.ONE_SEC / AUDIO_RESAMPLE_RATE) }, bs) ∧
      ∀ b ∈ bs, ∀ x ∈ b.data, x = s := by
  have hfuel : g.audio_counter_resample / (lib.ONE_SEC / AUDIO_RESAMPLE_RATE)
      < g.audio_counter_resample + 1 :=
    Nat.lt_succ_of_le (Nat.div_le_self _ _)
  obtain ⟨buf', out', h1, h2, h3⟩ := audio_sample_loop_total _ s hq
    (g.audio_counter_resample + 1) g.audio_counter_resample [] [] hfuel
    (by intro x hx; simp at hx) (by intro b hb; simp at hb)
  unfold audio_sample
  rw [h1]
  refine ⟨if buf' ≠ [] then out' ++ [⟨buf', buf'.length / 2⟩] else out', rfl, ?_⟩
  intro b hb x hx
  by_cases hne : buf' ≠ []
  · rw [if_pos hne] at hb
    rcases List.mem_append.mp hb with h | h
    · exact h3 b h x hx
    · simp at h
      subst h
      exact h2 x hx
  · rw [if_neg hne] at hb
    exact h3 b hb x hx

/-- Whatever `audio_sample` returns, it changed `audio_counter_resample` only. -/
theorem audio_sample_frame (lib : Chip8Lib) (s : Int) (g g' : Core) (bs : List Batch)
    (h : audio_sample lib s g = some (g', bs)) :
    ∃ c, g' = { g with audio_counter_resample := c } := by
  unfold audio_sample at h
  split at h
  · exact absurd h (by simp)
  · rename_i c buf out _
    simp only [Option.some.injEq, Prod.mk.injEq] at h
    exact ⟨c, h.1.symm⟩

/-- Whatever `get_audio_sample` returns, it changed `snd_buf_pntr` only. -/
theorem get_audio_sample_frame (lib : Chip8Lib) (g g' : Core) (x : Int)
    (h : get_audio_sample lib g = some (x, g')) :
    ∃ p, g' = { g with snd_buf_pntr := p } := by
  unfold get_audio_sample at h
  dsimp only at h
  split at h
  · exact absurd h (by simp)
  · simp only [Option.some.injEq, Prod.mk.injEq] at h
    exact ⟨_, h.2.symm⟩

/-- Whatever the beeping loop returns, it left the emulator, the debt, the user
flags and the playback rate alone. -/
theorem beep_loop_frame (lib : Chip8Lib) (step : Nat) :
    ∀ (fuel : Nat) (g : Core) (out : List Batch) (g' : Core) (out' : List Batch),
      beep_loop lib step fuel g out = some (g', out') →
      g'.chip8 = g.chip8 ∧ g'.cpu_debt = g.cpu_debt ∧ g'.sram = g.sram ∧
        g'.audio_freq_chip8 = g.audio_freq_chip8 := by
  intro fuel
  induction fuel with
  | zero =>
    intro g out g' out' h
    simp [beep_loop] at h
  | succ n ih =>
    intro g out g' out' h
    unfold beep_loop at h
    by_cases hc : step < g.audio_counter_chip8
    · simp only [hc, if_true] at h
      split at h
      · exact absurd h (by simp)
      · rename_i x g1 hg1
        obtain ⟨p, hp⟩ := get_audio_sample_frame lib _ _ _ hg1
        split at h
        · exact absurd h (by simp)
        · rename_i g2 bs hg2
          obtain ⟨c, hc2⟩ := audio_sample_frame lib _ _ _ _ hg2
          have := ih g2 (out ++ bs) g' out' h
          rw [hc2, hp] at this
          simpa using this
    · simp only [hc, if_false, Option.some.injEq, Prod.mk.injEq] at h
      rw [← h.1]
      exact ⟨rfl, rfl, rfl, rfl⟩

/-- With a positive `cycle_audio_step`, a positive resampler period, the
pattern inside `RAM` and the pointer in `0..127`, the beeping loop has a
defined result once allowed more iterations than `audio_counter_chip8`, and
the pointer is again in `0..127`. -/
theorem beep_loop_total (lib : Chip8Lib) (step : Nat) (hstep : 0 < step)
    (hq : 0 < lib.ONE_SEC / AUDIO_RESAMPLE_RATE)
    (hA : lib.AUDIO_BUF_ADDR + AUDIO_BUF_SIZE ≤ MAX_RAM) :
    ∀ (fuel : Nat) (g : Core) (out : List Batch), g.audio_counter_chip8 < fuel →
      0 ≤ g.snd_buf_pntr → g.snd_buf_pntr < 128 →
      ∃ g' out', beep_loop lib step fuel g out = some (g', out') ∧
        0 ≤ g'.snd_buf_pntr ∧ g'.snd_buf_pntr < 128 := by
  intro fuel
  induction fuel with
  | zero => intro g out h; exact absurd h (Nat.not_lt_zero _)
  | succ n ih =>
    intro g out h hp0 hp1
    unfold beep_loop
    by_cases hc : step < g.audio_counter_chip8
    · simp only [hc, if_true]
      have hpn : g.snd_buf_pntr = ((g.snd_buf_pntr.toNat : Nat) : Int) :=
        (Int.toNat_of_nonneg hp0).symm
      have hlt : g.snd_buf_pntr.toNat < 128 := by omega
      have hle : (g.audio_counter_chip8 - step) % UINT_RANGE < n := by
        have : (g.audio_counter_chip8 - step) % UINT_RANGE ≤ g.audio_counter_chip8 - step :=
          Nat.mod_le _ _
        omega
      rw [get_audio_sample_in_range lib
        { g with audio_counter_chip8 := (g.audio_counter_chip8 - step) % UINT_RANGE }
        g.snd_buf_pntr.toNat hlt hpn hA]
      dsimp only
      generalize (if (g.chip8.RAM (lib.AUDIO_BUF_ADDR + g.snd_buf_pntr.toNat / 8)).testBit
        (7 - g.snd_buf_pntr.toNat % 8) = true then (32640 : Int) else 0) = x
      obtain ⟨bs, hbs, -⟩ := audio_sample_total lib x
        { g with
          audio_counter_chip8 := (g.audio_counter_chip8 - step) % UINT_RANGE
          snd_buf_pntr := (((g.snd_buf_pntr.toNat + 1) % 128 : Nat) : Int)
          audio_counter_resample := (g.audio_counter_resample + step) % UINT_RANGE } hq
      rw [hbs]
      dsimp only
      apply ih
      · exact hle
      · dsimp only
        omega
      · dsimp only
        omega
    · simp only [hc, if_false]
      exact ⟨g, out, rfl, hp0, hp1⟩

/-- Whatever the audio part of an iteration returns, it left the emulator, the
debt and the user flags alone. -/
theorem cycle_audio_frame (lib : Chip8Lib) (cycle_step : Nat) (g g' : Core) (bs : List Batch)
    (h : cycle_audio lib cycle_step g = some (g', bs)) :
    g'.chip8 = g.chip8 ∧ g'.cpu_debt = g.cpu_debt ∧ g'.sram = g.sram := by
  unfold cycle_audio at h
  by_cases hb : g.chip8.beep = true
  · simp only [hb, Bool.not_true, Bool.false_eq_true, if_false] at h
    by_cases hz : g.audio_freq_chip8 = 0
    · simp only [hz, if_true] at h
      by_cases hf : lib.chip8_get_sound_freq g.chip8 % UINT_RANGE = 0
      · simp only [hf, if_true] at h
        exact absurd h (by simp)
      · simp only [hf, if_false] at h
        have := beep_loop_frame lib _ _ _ _ _ _ h
        exact ⟨this.1, this.2.1, this.2.2.1⟩
    · simp only [hz, if_false] at h
      have := beep_loop_frame lib _ _ _ _ _ _ h
      exact ⟨this.1, this.2.1, this.2.2.1⟩
  · have hb' : g.chip8.beep = false := by simpa using hb
    simp only [hb', Bool.not_false, if_true] at h
    obtain ⟨c, hc⟩ := audio_sample_frame lib _ _ _ _ h
    rw [hc]
    exact ⟨rfl, rfl, rfl⟩

/-- When `beep` is clear, the audio part of an iteration has a defined result
(the resampler period being positive): pointer, chip8 counter and playback
rate are 0 afterwards and every sample handed to the host is 0. -/
theorem cycle_audio_silent (lib : Chip8Lib) (cycle_step : Nat) (g : Core)
    (hq : 0 < lib.ONE_SEC / AUDIO_RESAMPLE_RATE) (hb : g.chip8.beep = false) :
    ∃ g' bs, cycle_audio lib cycle_step g = some (g', bs) ∧
      g'.snd_buf_pntr = 0 ∧ g'.audio_counter_chip8 = 0 ∧ g'.audio_freq_chip8 = 0 ∧
      ∀ b ∈ bs, ∀ x ∈ b.data, x = 0 := by
  unfold cycle_audio
  simp only [hb, Bool.not_false, if_true]
  obtain ⟨bs, h1, h2⟩ := audio_sample_total lib 0
    { g with
      audio_freq_chip8 := 0
      audio_counter_chip8 := 0
      snd_buf_pntr := 0
      audio_counter_resample := (g.audio_counter_resample + cycle_step) % UINT_RANGE } hq
  exact ⟨_, bs, h1, rfl, rfl, rfl, h2⟩

/-- With a sound frequency in range and the sampler ready, the audio part of an
iteration has a defined result and leaves the sampler ready. -/
theorem cycle_audio_total (lib : Chip8Lib) (cycle_step : Nat) (g : Core)
    (hsnd : sound_freq_in_range lib) (hready : sampler_ready lib g) :
    ∃ g' bs, cycle_audio lib cycle_step g = some (g', bs) ∧ sampler_ready lib g' := by
  obtain ⟨hone, hA, hp0, hp1, hfreq⟩ := hready
  have hq : 0 < lib.ONE_SEC / AUDIO_RESAMPLE_RATE :=
    Nat.div_pos hone (by unfold AUDIO_RESAMPLE_RATE; norm_num)
  by_cases hb : g.chip8.beep = true
  · unfold cycle_audio
    simp only [hb, Bool.not_true, Bool.false_eq_true, if_false]
    obtain ⟨hs0, hs1, hs2⟩ := hsnd g.chip8
    by_cases hz : g.audio_freq_chip8 = 0
    · have hmod : lib.chip8_get_sound_freq g.chip8 % UINT_RANGE = lib.chip8_get_sound_freq g.chip8 :=
        Nat.mod_eq_of_lt hs1
      have hne : ¬ lib.chip8_get_sound_freq g.chip8 = 0 := by omega
      simp only [hz, if_true, hmod, hne, if_false]
      obtain ⟨g', out', h1, h2, h3⟩ := beep_loop_total lib
        (lib.ONE_SEC / lib.chip8_get_sound_freq g.chip8) (Nat.div_pos hs2 hs0) hq hA
        ((g.audio_counter_chip8 + cycle_step) % UINT_RANGE + 1)
        { g with
          audio_freq_chip8 := lib.chip8_get_sound_freq g.chip8
          snd_buf_pntr := 0
          audio_counter_chip8 := (g.audio_counter_chip8 + cycle_step) % UINT_RANGE } []
        (Nat.lt_succ_self _) (le_refl _) (by norm_num)
      refine ⟨g', out', h1, hone, hA, h2, h3, ?_⟩
      have := (beep_loop_frame lib _ _ _ _ _ _ h1).2.2.2
      rw [this]
      exact hs2
    · simp only [hz, if_false]
      obtain ⟨g', out', h1, h2, h3⟩ := beep_loop_total lib
        (lib.ONE_SEC / g.audio_freq_chip8) (Nat.div_pos hfreq (Nat.pos_of_ne_zero hz)) hq hA
        ((g.audio_counter_chip8 + cycle_step) % UINT_RANGE + 1)
        { g with
          audio_counter_chip8 := (g.audio_counter_chip8 + cycle_step) % UINT_RANGE } []
        (Nat.lt_succ_self _) hp0 hp1
      refine ⟨g', out', h1, hone, hA, h2, h3, ?_⟩
      have := (beep_loop_frame lib _ _ _ _ _ _ h1).2.2.2
      rw [this]
      exact hfreq
  · have hb' : g.chip8.beep = false := by simpa using hb
    obtain ⟨g', bs, h1, h2, -, h4, -⟩ := cycle_audio_silent lib cycle_step g hq hb'
    refine ⟨g', bs, h1, hone, hA, ?_, ?_, ?_⟩
    · rw [h2]
    · rw [h2]; norm_num
    · rw [h4]; exact Nat.zero_le _

/-! ## One iteration of the instruction loop -/

/-- Whatever an iteration returns, its emulator is the one `chip8_execute` and
`chip8_handle_timers` produced, and the debt is unchanged. -/
theorem run_cycle_frame (lib : Chip8Lib) (cycle_step : Nat) (g g' : Core) (bs : List Batch)
    (h : run_cycle lib cycle_step g = some (g', bs)) :
    g'.chip8 = (cycle_cpu lib cycle_step g).chip8 ∧ g'.cpu_debt = g.cpu_debt := by
  have := cycle_audio_frame lib cycle_step _ _ _ h
  exact ⟨this.1, this.2.1⟩

/-- When the emulator core keeps the rates, an iteration leaves `cpu_freq`,
`refresh_freq` and `cpu_debt`, hence the loop bound, unchanged. -/
theorem run_cycle_rates (lib : Chip8Lib) (cycle_step : Nat) (g g' : Core) (bs : List Batch)
    (hr : keeps_rates lib) (h : run_cycle lib cycle_step g = some (g', bs)) :
    g'.chip8.cpu_freq = g.chip8.cpu_freq ∧ g'.chip8.refresh_freq = g.chip8.refresh_freq ∧
      g'.cpu_debt = g.cpu_debt ∧ cycle_bound g' = cycle_bound g := by
  obtain ⟨h1, h2⟩ := run_cycle_frame lib cycle_step g g' bs h
  have hc : (cycle_cpu lib cycle_step g).chip8.cpu_freq = g.chip8.cpu_freq ∧
      (cycle_cpu lib cycle_step g).chip8.refresh_freq = g.chip8.refresh_freq := by
    unfold cycle_cpu
    dsimp only
    have he := hr.1 { g.chip8 with total_cycle_time := cycle_step } g.sram
    split
    · have ht := hr.2 (lib.chip8_execute { g.chip8 with total_cycle_time := cycle_step } g.sram).1
      exact ⟨ht.1.trans he.1, ht.2.trans he.2⟩
    · exact he
  have e1 : g'.chip8.cpu_freq = g.chip8.cpu_freq := by rw [h1]; exact hc.1
  have e2 : g'.chip8.refresh_freq = g.chip8.refresh_freq := by rw [h1]; exact hc.2
  refine ⟨e1, e2, h2, ?_⟩
  unfold cycle_bound
  rw [e1, e2, h2]

/-- With a sound frequency in range and the sampler ready, an iteration has a
defined result and leaves the sampler ready. -/
theorem run_cycle_total (lib : Chip8Lib) (cycle_step : Nat) (g : Core)
    (hsnd : sound_freq_in_range lib) (hready : sampler_ready lib g) :
    ∃ g' bs, run_cycle lib cycle_step g = some (g', bs) ∧ sampler_ready lib g' :=
  cycle_audio_total lib cycle_step (cycle_cpu lib cycle_step g) hsnd hready

/-! ## The instruction loop -/

/-- Whatever the instruction loop returns, its log is the given one followed by
linked iterations leading from the initial to the final statics. -/
theorem run_loop_linked (lib : Chip8Lib) (cycle_step : Nat) :
    ∀ (fuel i : Nat) (g : Core) (log : List CycleLog) (g' : Core) (log' : List CycleLog),
      run_loop lib cycle_step fuel i g log = some (g', log') →
      ∃ new, log' = log ++ new ∧ linked lib cycle_step g new g' := by
  intro fuel
  induction fuel with
  | zero =>
    intro i g log g' log' h
    simp [run_loop] at h
  | succ n ih =>
    intro i g log g' log' h
    unfold run_loop at h
    by_cases hz : g.chip8.refresh_freq = 0
    · simp only [hz, if_true] at h
      exact absurd h (by simp)
    · simp only [hz, if_false] at h
      by_cases hc : i < cycle_bound g ∧ g.chip8.exit = false
      · rw [if_pos hc] at h
        split at h
        · exact absurd h (by simp)
        · rename_i g1 bs hrun
          obtain ⟨new, h1, h2⟩ := ih _ _ _ _ _ h
          refine ⟨⟨g, g1, bs⟩ :: new, ?_, ?_⟩
          · rw [h1]; simp
          · exact ⟨rfl, hc.2, hrun, h2⟩
      · rw [if_neg hc] at h
        simp only [Option.some.injEq, Prod.mk.injEq] at h
        refine ⟨[], ?_, ?_⟩
        · rw [← h.2]; simp
        · exact h.1.symm

/-- In a linked log every iteration starts with `exit` clear and ends as
`run_cycle` says. -/
theorem linked_entries (lib : Chip8Lib) (cycle_step : Nat) :
    ∀ (l : List CycleLog) (s f : Core), linked lib cycle_step s l f →
      ∀ e ∈ l, e.before.chip8.exit = false ∧
        run_cycle lib cycle_step e.before = some (e.after, e.batches) := by
  intro l
  induction l with
  | nil => intro s f _ e he; simp at he
  | cons a l ih =>
    intro s f h e he
    obtain ⟨h1, h2, h3, h4⟩ := h
    rcases List.mem_cons.mp he with heq | hmem
    · subst heq
      rw [h1]
      exact ⟨h2, h3⟩
    · exact ih _ _ h4 e hmem

/-- In a linked log an iteration that ends with `exit` set is the last one, and
the final statics are the ones it ended with. -/
theorem linked_exit_last (lib : Chip8Lib) (cycle_step : Nat) :
    ∀ (l1 : List CycleLog) (s f : Core) (e : CycleLog) (l2 : List CycleLog),
      linked lib cycle_step s (l1 ++ e :: l2) f → e.after.chip8.exit = true →
      l2 = [] ∧ f = e.after := by
  intro l1
  induction l1 with
  | nil =>
    intro s f e l2 h hex
    obtain ⟨-, -, -, h4⟩ := h
    cases l2 with
    | nil => exact ⟨rfl, h4⟩
    | cons e2 l2 =>
      obtain ⟨-, h6, -, -⟩ := h4
      rw [hex] at h6
      exact absurd h6 (by simp)
  | cons a l1 ih =>
    intro s f e l2 h hex
    obtain ⟨-, -, -, h4⟩ := h
    exact ih _ _ _ _ h4 hex

/-- When the emulator core keeps the rates, the instruction loop leaves
`cpu_freq`, `refresh_freq` and `cpu_debt` unchanged. -/
theorem run_loop_rates (lib : Chip8Lib) (cycle_step : Nat) (hr : keeps_rates lib) :
    ∀ (fuel i : Nat) (g : Core) (log : List CycleLog) (g' : Core) (log' : List CycleLog),
      run_loop lib cycle_step fuel i g log = some (g', log') →
      g'.chip8.cpu_freq = g.chip8.cpu_freq ∧ g'.chip8.refresh_freq = g.chip8.refresh_freq ∧
        g'.cpu_debt = g.cpu_debt := by
  intro fuel
  induction fuel with
  | zero =>
    intro i g log g' log' h
    simp [run_loop] at h
  | succ n ih =>
    intro i g log g' log' h
    unfold run_loop at h
    by_cases hz : g.chip8.refresh_freq = 0
    · simp only [hz, if_true] at h
      exact absurd h (by simp)
    · simp only [hz, if_false] at h
      by_cases hc : i < cycle_bound g ∧ g.chip8.exit = false
      · rw [if_pos hc] at h
        split at h
        · exact absurd h (by simp)
        · rename_i g1 bs hrun
          obtain ⟨a1, a2, a3, -⟩ := run_cycle_rates lib cycle_step g g1 bs hr hrun
          obtain ⟨b1, b2, b3⟩ := ih _ _ _ _ _ h
          exact ⟨b1.trans a1, b2.trans a2, b3.trans a3⟩
      · rw [if_neg hc] at h
        simp only [Option.some.injEq, Prod.mk.injEq] at h
        rw [← h.1]
        exact ⟨rfl, rfl, rfl⟩

/-- When the emulator core keeps the rates and the bound fits the 32-bit
counter, a loop that ends with `exit` clear has run the counter up to the
bound: it added `cycle_bound g - i` iterations to the log. -/
theorem run_loop_count (lib : Chip8Lib) (cycle_step : Nat) (hr : keeps_rates lib) :
    ∀ (fuel i : Nat) (g : Core) (log : List CycleLog) (g' : Core) (log' : List CycleLog),
      run_loop lib cycle_step fuel i g log = some (g', log') →
      i ≤ cycle_bound g → cycle_bound g < UINT_RANGE → g'.chip8.exit = false →
      log'.length = log.length + (cycle_bound g - i) := by
  intro fuel
  induction fuel with
  | zero =>
    intro i g log g' log' h
    simp [run_loop] at h
  | succ n ih =>
    intro i g log g' log' h hi hb hex
    unfold run_loop at h
    by_cases hz : g.chip8.refresh_freq = 0
    · simp only [hz, if_true] at h
      exact absurd h (by simp)
    · simp only [hz, if_false] at h
      by_cases hc : i < cycle_bound g ∧ g.chip8.exit = false
      · rw [if_pos hc] at h
        split at h
        · exact absurd h (by simp)
        · rename_i g1 bs hrun
          obtain ⟨-, -, -, a4⟩ := run_cycle_rates lib cycle_step g g1 bs hr hrun
          have hi1 : (i + 1) % UINT_RANGE = i + 1 := Nat.mod_eq_of_lt (by omega)
          rw [hi1] at h
          have := ih _ _ _ _ _ h (by rw [a4]; omega) (by rw [a4]; exact hb) hex
          rw [this, a4, List.length_append]
          simp only [List.length_singleton]
          omega
      · rw [if_neg hc] at h
        simp only [Option.some.injEq, Prod.mk.injEq] at h
        rw [← h.2]
        rw [← h.1] at hex
        have : ¬ i < cycle_bound g := fun hlt => hc ⟨hlt, hex⟩
        omega

/-- When the emulator core keeps the rates, the sound frequency is in range,
the sampler is ready, the refresh rate is not 0 and the bound fits the 32-bit
counter, the instruction loop has a defined result once allowed more
iterations than remain up to the bound. -/
theorem run_loop_total (lib : Chip8Lib) (cycle_step : Nat) (hr : keeps_rates lib)
    (hsnd : sound_freq_in_range lib) :
    ∀ (fuel i : Nat) (g : Core) (log : List CycleLog),
      sampler_ready lib g → g.chip8.refresh_freq ≠ 0 → cycle_bound g < UINT_RANGE →
      cycle_bound g - i < fuel →
      ∃ r, run_loop lib cycle_step fuel i g log = some r := by
  intro fuel
  induction fuel with
  | zero => intro i g log _ _ _ h; exact absurd h (Nat.not_lt_zero _)
  | succ n ih =>
    intro i g log hready hz hb hfuel
    unfold run_loop
    simp only [hz, if_false]
    by_cases hc : i < cycle_bound g ∧ g.chip8.exit = false
    · rw [if_pos hc]
      obtain ⟨g1, bs, hrun, hready1⟩ := run_cycle_total lib cycle_step g hsnd hready
      obtain ⟨-, a2, -, a4⟩ := run_cycle_rates lib cycle_step g g1 bs hr hrun
      rw [hrun]
      dsimp only
      have hi1 : (i + 1) % UINT_RANGE = i + 1 := Nat.mod_eq_of_lt (by omega)
      rw [hi1]
      apply ih _ _ _ hready1
      · rw [a2]; exact hz
      · rw [a4]; exact hb
      · rw [a4]; omega
    · rw [if_neg hc]
      exact ⟨_, rfl⟩

/-! ## The frame -/

/-- The start of the frame touches the emulator and the theme colours only. -/
theorem frame_start_statics (lib : Chip8Lib) (inp : FrameInput) (g : Core) :
    (frame_start lib inp g).cpu_debt = g.cpu_debt ∧
    (frame_start lib inp g).snd_buf_pntr = g.snd_buf_pntr ∧
    (frame_start lib inp g).audio_freq_chip8 = g.audio_freq_chip8 := by
  unfold frame_start load_theme
  dsimp only
  split
  · split <;> exact ⟨rfl, rfl, rfl⟩
  · exact ⟨rfl, rfl, rfl⟩

/-- The end-of-frame timer step changes neither `exit` nor the rates. -/
theorem frame_timers_keeps (c : CHIP8) :
    (frame_timers c).exit = c.exit ∧ (frame_timers c).cpu_freq = c.cpu_freq ∧
    (frame_timers c).refresh_freq = c.refresh_freq := by
  unfold frame_timers
  dsimp only
  split
  · split <;> split <;> exact ⟨rfl, rfl, rfl⟩
  · exact ⟨rfl, rfl, rfl⟩

/-- A frame entered with `exit` set returns at once: shutdown is requested, no
instruction is executed and the statics are unchanged. -/
theorem retro_run_exit_set (lib : Chip8Lib) (inp : FrameInput) (fuel : Nat) (g : Core)
    (h : g.chip8.exit = true) :
    retro_run lib inp fuel g = some (g, ⟨true, [], false⟩) := by
  unfold retro_run
  simp [h]

/-- Whatever a frame entered with `exit` clear returns, its log is a linked run
of the instruction loop from the statics after the frame start, and the final
`exit` is the one the loop ended with. -/
theorem retro_run_linked (lib : Chip8Lib) (inp : FrameInput) (fuel : Nat) (g : Core)
    (r : Core × FrameOutput) (hex : g.chip8.exit = false)
    (h : retro_run lib inp fuel g = some r) :
    ∃ g1, linked lib (lib.ONE_SEC / (frame_start lib inp g).chip8.cpu_freq)
        (frame_start lib inp g) r.2.cycles g1 ∧ r.1.chip8.exit = g1.chip8.exit := by
  unfold retro_run at h
  simp only [hex, Bool.false_eq_true, if_false] at h
  split at h
  · exact absurd h (by simp)
  · split at h
    · exact absurd h (by simp)
    · rename_i g1 log hloop
      split at h
      · exact absurd h (by simp)
      · simp only [Option.some.injEq] at h
        obtain ⟨new, h1, h2⟩ := run_loop_linked lib _ _ _ _ _ _ _ hloop
        rw [List.nil_append] at h1
        subst h1
        refine ⟨g1, ?_, ?_⟩
        · rw [← h]
          exact h2
        · rw [← h]
          exact (frame_timers_keeps g1.chip8).1

/-- Under the stated conditions a frame has a defined result once `fuel`
exceeds the quotient `(cpu_freq + cpu_debt) / refresh_freq`, and if it returns
with `exit` clear it has executed exactly that many instructions. -/
theorem retro_run_floor (lib : Chip8Lib) (inp : FrameInput) (fuel : Nat) (g : Core)
    (hr : keeps_rates lib) (hsnd : sound_freq_in_range lib) (hready : sampler_ready lib g)
    (hcpu : 0 < (frame_start lib inp g).chip8.cpu_freq)
    (href : 0 < (frame_start lib inp g).chip8.refresh_freq)
    (hsum : (frame_start lib inp g).chip8.cpu_freq + g.cpu_debt < ULONG_RANGE)
    (hN : ((frame_start lib inp g).chip8.cpu_freq + g.cpu_debt)
      / (frame_start lib inp g).chip8.refresh_freq < UINT_RANGE)
    (hfuel : ((frame_start lib inp g).chip8.cpu_freq + g.cpu_debt)
      / (frame_start lib inp g).chip8.refresh_freq < fuel) :
    ∃ r, retro_run lib inp fuel g = some r ∧
      (r.1.chip8.exit = false →
        r.2.cycles.length = ((frame_start lib inp g).chip8.cpu_freq + g.cpu_debt)
          / (frame_start lib inp g).chip8.refresh_freq) := by
  by_cases hex : g.chip8.exit = true
  · refine ⟨_, retro_run_exit_set lib inp fuel g hex, ?_⟩
    intro h
    rw [hex] at h
    exact absurd h (by simp)
  · have hex' : g.chip8.exit = false := by simpa using hex
    obtain ⟨s1, s2, s3⟩ := frame_start_statics lib inp g
    have hready0 : sampler_ready lib (frame_start lib inp g) := by
      unfold sampler_ready at hready ⊢
      rw [s2, s3]
      exact hready
    have hbound : cycle_bound (frame_start lib inp g)
        = ((frame_start lib inp g).chip8.cpu_freq + g.cpu_debt)
          / (frame_start lib inp g).chip8.refresh_freq := by
      unfold cycle_bound
      rw [s1, Nat.mod_eq_of_lt hsum]
    obtain ⟨⟨g1, log⟩, hloop⟩ := run_loop_total lib
      (lib.ONE_SEC / (frame_start lib inp g).chip8.cpu_freq) hr hsnd fuel 0
      (frame_start lib inp g) [] hready0 (Nat.pos_iff_ne_zero.mp href)
      (by rw [hbound]; exact hN) (by rw [hbound]; exact hfuel)
    obtain ⟨-, r2, -⟩ := run_loop_rates lib _ hr _ _ _ _ _ _ hloop
    have hcount := run_loop_count lib _ hr _ _ _ _ _ _ hloop (Nat.zero_le _)
      (by rw [hbound]; exact hN)
    have hz : ¬ (frame_timers g1.chip8).refresh_freq = 0 := by
      rw [(frame_timers_keeps g1.chip8).2.2, r2]
      exact Nat.pos_iff_ne_zero.mp href
    unfold retro_run
    simp only [hex', Bool.false_eq_true, if_false, Nat.pos_iff_ne_zero.mp hcpu, hloop, hz]
    refine ⟨_, rfl, ?_⟩
    intro hfin
    have hfin1 : g1.chip8.exit = false := by
      rw [← (frame_timers_keeps g1.chip8).1]
      exact hfin
    have := hcount hfin1
    rw [hbound] at this
    simpa using this

/-- Claim C1, amended: a frame executes exactly
`floor((cpu_freq + cpu_debt) / refresh_freq)` instructions when it returns with
`exit` clear, for every `cpu_freq > 0` and `refresh_freq > 0` (the rates in
effect after the option update), provided the emulator core keeps the rates,
the sum fits `unsigned long`, the quotient fits the 32-bit loop counter and the
sampler runs without fault; under these conditions the frame does return. -/
theorem retro_run_executes_floor (lib : Chip8Lib) (inp : FrameInput) (fuel : Nat) (g : Core)
    (hr : keeps_rates lib) (hsnd : sound_freq_in_range lib) (hready : sampler_ready lib g)
    (hcpu : 0 < (frame_start lib inp g).chip8.cpu_freq)
    (href : 0 < (frame_start lib inp g).chip8.refresh_freq)
    (hsum : (frame_start lib inp g).chip8.cpu_freq + g.cpu_debt < ULONG_RANGE)
    (hN : ((frame_start lib inp g).chip8.cpu_freq + g.cpu_debt)
      / (frame_start lib inp g).chip8.refresh_freq < UINT_RANGE)
    (hfuel : ((frame_start lib inp g).chip8.cpu_freq + g.cpu_debt)
      / (frame_start lib inp g).chip8.refresh_freq < fuel) :
    ∃ r, retro_run lib inp fuel g = some r ∧
      (r.1.chip8.exit = false →
        r.2.cycles.length = ((frame_start lib inp g).chip8.cpu_freq + g.cpu_debt)
          / (frame_start lib inp g).chip8.refresh_freq) :=
  retro_run_floor lib inp fuel g hr hsnd hready hcpu href hsum hN hfuel

/-- Witness of C1: the default rates, 1000 Hz over 60 Hz with no debt, give 16
instructions and leave a debt of 40. -/
theorem retro_run_executes_floor_witness :
    frame_summary sample_lib idle_input 17 blank_core = some (false, 16, 40) ∧
    ∃ r, retro_run sample_lib idle_input 17 blank_core = some r ∧
      (r.1.chip8.exit = false →
        r.2.cycles.length
          = ((frame_start sample_lib idle_input blank_core).chip8.cpu_freq + blank_core.cpu_debt)
            / (frame_start sample_lib idle_input blank_core).chip8.refresh_freq) :=
  ⟨by decide,
   retro_run_executes_floor sample_lib idle_input 17 blank_core
     ⟨fun _ _ => ⟨rfl, rfl⟩, fun _ => ⟨rfl, rfl⟩⟩
     (fun _ => ⟨show 0 < 4000 by decide, show 4000 < UINT_RANGE by decide,
       show 4000 ≤ 1000000000 by decide⟩)
     ⟨by decide, by decide, by decide, by decide, by decide⟩
     (by decide) (by decide) (by decide) (by decide) (by decide)⟩

/-- Counterexample to C1 as stated: at 1000 Hz over 60 Hz with no debt the
frame returns with `exit` clear after 16 instructions, while
`ceil(1000 / 60) = 17`; and with `cpu_freq = 0` the frame has no defined result
(`ONE_SEC / chip8.cpu_freq` divides by zero), whatever the fuel. -/
theorem retro_run_not_ceil :
    frame_summary sample_lib idle_input 17 blank_core = some (false, 16, 40) ∧
    ceil_div (blank_core.chip8.cpu_freq + blank_core.cpu_debt) blank_core.chip8.refresh_freq
      = 17 ∧
    ∀ fuel, (retro_run sample_lib idle_input fuel
      { blank_core with chip8 := { blank_chip8 with cpu_freq := 0 } }).isNone = true :=
  ⟨by decide, by decide, fun _ => rfl⟩

/-! ## Exit -/

/-- When `chip8_handle_timers` keeps `exit`, the emulator part of an iteration
ends with the `exit` that `chip8_execute` returned. -/
theorem cycle_cpu_exit (lib : Chip8Lib) (cycle_step : Nat) (g : Core)
    (hT : ∀ c, (lib.chip8_handle_timers c).exit = c.exit) :
    (cycle_cpu lib cycle_step g).chip8.exit
      = (lib.chip8_execute { g.chip8 with total_cycle_time := cycle_step } g.sram).1.exit := by
  unfold cycle_cpu
  dsimp only
  split
  · exact hT _
  · rfl

/-- Claim C6: no instruction is executed after `exit` is set.  A frame entered
with `exit` set executes no instruction and returns the statics unchanged.  In
any frame every instruction starts with `exit` clear, and (with
`chip8_handle_timers` keeping `exit`) an instruction after which
`chip8_execute` returns with `exit` set is the last one of the frame, which
returns with `exit` set. -/
theorem retro_run_stops_at_exit (lib : Chip8Lib) (inp : FrameInput) (g : Core)
    (hT : ∀ c, (lib.chip8_handle_timers c).exit = c.exit) :
    (g.chip8.exit = true → ∀ fuel, retro_run lib inp fuel g = some (g, ⟨true, [], false⟩)) ∧
    (∀ fuel r, retro_run lib inp fuel g = some r →
      (∀ e ∈ r.2.cycles, e.before.chip8.exit = false) ∧
      (∀ l1 e l2, r.2.cycles = l1 ++ e :: l2 →
        (lib.chip8_execute
          { e.before.chip8 with
            total_cycle_time := lib.ONE_SEC / (frame_start lib inp g).chip8.cpu_freq }
          e.before.sram).1.exit = true →
        l2 = [] ∧ r.1.chip8.exit = true)) := by
  refine ⟨fun h fuel => retro_run_exit_set lib inp fuel g h, ?_⟩
  intro fuel r h
  by_cases hex : g.chip8.exit = true
  · rw [retro_run_exit_set lib inp fuel g hex] at h
    simp only [Option.some.injEq] at h
    rw [← h]
    refine ⟨fun e he => by simp at he, ?_⟩
    intro l1 e l2 hl
    simp at hl
  · have hex' : g.chip8.exit = false := by simpa using hex
    obtain ⟨g1, hlink, hfin⟩ := retro_run_linked lib inp fuel g r hex' h
    refine ⟨fun e he => (linked_entries lib _ _ _ _ hlink e he).1, ?_⟩
    intro l1 e l2 hl hset
    have hmem : e ∈ r.2.cycles := by rw [hl]; simp
    have hrun := (linked_entries lib _ _ _ _ hlink e hmem).2
    have hafter : e.after.chip8.exit = true := by
      rw [(run_cycle_frame lib _ _ _ _ hrun).1, cycle_cpu_exit lib _ _ hT]
      exact hset
    rw [hl] at hlink
    obtain ⟨h1, h2⟩ := linked_exit_last lib _ l1 _ _ e l2 hlink hafter
    refine ⟨h1, ?_⟩
    rw [hfin, h2]
    exact hafter

/-- Witness of C6: with `00FD` at `0x202` the frame executes two instructions
instead of 16 and returns with `exit` set; the next frame executes none. -/
theorem retro_run_stops_at_exit_witness :
    frame_summary exit_lib idle_input 17 blank_core = some (true, 2, 40) ∧
    ((blank_core.chip8.exit = true →
        ∀ fuel, retro_run exit_lib idle_input fuel blank_core
          = some (blank_core, ⟨true, [], false⟩)) ∧
     (∀ fuel r, retro_run exit_lib idle_input fuel blank_core = some r →
      (∀ e ∈ r.2.cycles, e.before.chip8.exit = false) ∧
      (∀ l1 e l2, r.2.cycles = l1 ++ e :: l2 →
        (exit_lib.chip8_execute
          { e.before.chip8 with
            total_cycle_time :=
              exit_lib.ONE_SEC / (frame_start exit_lib idle_input blank_core).chip8.cpu_freq }
          e.before.sram).1.exit = true →
        l2 = [] ∧ r.1.chip8.exit = true))) :=
  ⟨by decide, retro_run_stops_at_exit exit_lib idle_input blank_core (fun _ => rfl)⟩

/-! ## Silence -/

/-- Claim C10: whenever `beep` is false after an executed instruction (at the
test of line 607, the resampler period being positive), the iteration has a
defined result in which `snd_buf_pntr`, `audio_counter_chip8` and
`audio_freq_chip8` are 0 and every sample handed to the host is 0; and in every
frame each logged iteration that ends with `beep` clear ended so. -/
theorem run_cycle_silent_resets (lib : Chip8Lib) (hq : AUDIO_RESAMPLE_RATE ≤ lib.ONE_SEC) :
    (∀ cycle_step g, (cycle_cpu lib cycle_step g).chip8.beep = false →
      ∃ g' bs, run_cycle lib cycle_step g = some (g', bs) ∧
        g'.chip8 = (cycle_cpu lib cycle_step g).chip8 ∧
        g'.snd_buf_pntr = 0 ∧ g'.audio_counter_chip8 = 0 ∧ g'.audio_freq_chip8 = 0 ∧
        ∀ b ∈ bs, ∀ x ∈ b.data, x = 0) ∧
    (∀ inp fuel g r, retro_run lib inp fuel g = some r →
      ∀ e ∈ r.2.cycles, e.after.chip8.beep = false →
        e.after.snd_buf_pntr = 0 ∧ e.after.audio_counter_chip8 = 0 ∧
        e.after.audio_freq_chip8 = 0 ∧ ∀ b ∈ e.batches, ∀ x ∈ b.data, x = 0) := by
  have hq' : 0 < lib.ONE_SEC / AUDIO_RESAMPLE_RATE :=
    Nat.div_pos hq (by unfold AUDIO_RESAMPLE_RATE; norm_num)
  have key : ∀ cycle_step g, (cycle_cpu lib cycle_step g).chip8.beep = false →
      ∃ g' bs, run_cycle lib cycle_step g = some (g', bs) ∧
        g'.chip8 = (cycle_cpu lib cycle_step g).chip8 ∧
        g'.snd_buf_pntr = 0 ∧ g'.audio_counter_chip8 = 0 ∧ g'.audio_freq_chip8 = 0 ∧
        ∀ b ∈ bs, ∀ x ∈ b.data, x = 0 := by
    intro cycle_step g hb
    obtain ⟨g', bs, h1, h2, h3, h4, h5⟩ :=
      cycle_audio_silent lib cycle_step (cycle_cpu lib cycle_step g) hq' hb
    exact ⟨g', bs, h1, (run_cycle_frame lib _ _ _ _ h1).1, h2, h3, h4, h5⟩
  refine ⟨key, ?_⟩
  intro inp fuel g r h e he hb
  by_cases hex : g.chip8.exit = true
  · rw [retro_run_exit_set lib inp fuel g hex] at h
    simp only [Option.some.injEq] at h
    rw [← h] at he
    simp at he
  · have hex' : g.chip8.exit = false := by simpa using hex
    obtain ⟨g1, hlink, -⟩ := retro_run_linked lib inp fuel g r hex' h
    have hrun := (linked_entries lib _ _ _ _ hlink e he).2
    have hb' : (cycle_cpu lib (lib.ONE_SEC / (frame_start lib inp g).chip8.cpu_freq)
        e.before).chip8.beep = false := by
      rw [← (run_cycle_frame lib _ _ _ _ hrun).1]
      exact hb
    obtain ⟨g', bs, h1, -, h3, h4, h5, h6⟩ := key _ _ hb'
    rw [hrun] at h1
    simp only [Option.some.injEq, Prod.mk.injEq] at h1
    rw [h1.1, h1.2]
    exact ⟨h3, h4, h5, h6⟩

/-- Witness of C10: one instruction from statics in which the sampler was
playing (pattern pointer 7, counter 5, rate 4000) while `beep` is clear: the
three are 0 afterwards and only silence is handed over. -/
theorem run_cycle_silent_resets_witness :
    AUDIO_RESAMPLE_RATE ≤ sample_lib.ONE_SEC ∧
    ringing_core.snd_buf_pntr = 7 ∧ ringing_core.audio_counter_chip8 = 5 ∧
    ringing_core.audio_freq_chip8 = 4000 ∧
    (cycle_cpu sample_lib 1000000 ringing_core).chip8.beep = false ∧
    ∃ g' bs, run_cycle sample_lib 1000000 ringing_core = some (g', bs) ∧
      g'.chip8 = (cycle_cpu sample_lib 1000000 ringing_core).chip8 ∧
      g'.snd_buf_pntr = 0 ∧ g'.audio_counter_chip8 = 0 ∧ g'.audio_freq_chip8 = 0 ∧
      ∀ b ∈ bs, ∀ x ∈ b.data, x = 0 :=
  ⟨by decide, by decide, by decide, by decide, by decide,
   (run_cycle_silent_resets sample_lib (by decide)).1 1000000 ringing_core (by decide)⟩

/-! ## The tests of `test.c` on the modelled executor -/

/-- `test_0000`: after `0000` the program counter is still at
`PC_START_ADDR_DEFAULT`. -/
theorem model_test_0000 :
    observe (chip8_execute test_env (test_chip8 0x0000) blank_core.sram)
      = (0x200, 0x1E0, 0, 0, 0, 0) := by
  decide

/-- `test_00EE`: with `SP = SP_START_ADDR + 5` and `0D AD` on the stack the
return leaves `SP = SP_START_ADDR + 3` and `PC = 0xDAD`. -/
theorem model_test_00EE :
    observe (chip8_execute test_env
      { test_chip8 0x00EE with
        SP := 0x1E5
        RAM := ram_write (ram_write (test_chip8 0x00EE).RAM 0x1E5 0x0D) 0x1E6 0xAD }
      blank_core.sram) = (0xDAD, 0x1E3, 0, 0, 0, 0) := by
  decide

/-- `test_2nnn`: after `2FFF`, `SP = SP_START_ADDR + 2`, `PC = 0xFFF` and the
word on the stack is `pc_start_addr + 2`. -/
theorem model_test_2nnn :
    observe (chip8_execute test_env (test_chip8 0x2FFF) blank_core.sram)
      = (0xFFF, 0x1E2, 0, 0, 0, 0) ∧
    (chip8_execute test_env (test_chip8 0x2FFF) blank_core.sram).1.RAM 0x1E2 * 256
      + (chip8_execute test_env (test_chip8 0x2FFF) blank_core.sram).1.RAM 0x1E3 = 0x202 := by
  decide

/-- `test_8xy4`: `8694` with `V6 = 5, V9 = 5` gives `V6 = 0x0A, VF = 0`; with
`V6 = 0xFA, V9 = 7` it gives `V6 = 1, VF = 1`. -/
theorem model_test_8xy4 :
    observe (chip8_execute test_env
      { test_chip8 0x8694 with V := fun i => if i = 6 then 0x05 else if i = 9 then 0x05 else 0 }
      blank_core.sram) = (0x202, 0x1E0, 0, 0x0A, 0, 0) ∧
    observe (chip8_execute test_env
      { test_chip8 0x8694 with V := fun i => if i = 6 then 0xFA else if i = 9 then 0x07 else 0 }
      blank_core.sram) = (0x202, 0x1E0, 0, 0x01, 0, 1) := by
  decide

/-- `test_8xy5`: `8695` with `V6 = 0x0A, V9 = 3` gives `V6 = 7, VF = 1`; with
`V6 = 2, V9 = 4` it gives `V6 = 0xFE, VF = 0`. -/
theorem model_test_8xy5 :
    observe (chip8_execute test_env
      { test_chip8 0x8695 with V := fun i => if i = 6 then 0x0A else if i = 9 then 0x03 else 0 }
      blank_core.sram) = (0x202, 0x1E0, 0, 0x07, 0, 1) ∧
    observe (chip8_execute test_env
      { test_chip8 0x8695 with V := fun i => if i = 6 then 0x02 else if i = 9 then 0x04 else 0 }
      blank_core.sram) = (0x202, 0x1E0, 0, 0xFE, 0, 0) := by
  decide

/-- `test_8xy7`: `8697` with `V6 = 3, V9 = 0x0A` gives `V6 = 7, VF = 1`; with
`V6 = 4, V9 = 3` it gives `V6 = 0xFF, VF = 0`. -/
theorem model_test_8xy7 :
    observe (chip8_execute test_env
      { test_chip8 0x8697 with V := fun i => if i = 6 then 0x03 else if i = 9 then 0x0A else 0 }
      blank_core.sram) = (0x202, 0x1E0, 0, 0x07, 0, 1) ∧
    observe (chip8_execute test_env
      { test_chip8 0x8697 with V := fun i => if i = 6 then 0x04 else if i = 9 then 0x03 else 0 }
      blank_core.sram) = (0x202, 0x1E0, 0, 0xFF, 0, 0) := by
  decide

/-- `test_8xyE`: `869E`, quirk 1 enabled, with `V6 = 0x69` gives `V6 = 0xD2,
VF = 0`; with `V6 = 0xF0` it gives `V6 = 0xE0, VF = 1`. -/
theorem model_test_8xyE :
    observe (chip8_execute test_env
      { test_chip8 0x869E with V := fun i => if i = 6 then 0x69 else 0 }
      blank_core.sram) = (0x202, 0x1E0, 0, 0xD2, 0, 0) ∧
    observe (chip8_execute test_env
      { test_chip8 0x869E with V := fun i => if i = 6 then 0xF0 else 0 }
      blank_core.sram) = (0x202, 0x1E0, 0, 0xE0, 0, 1) := by
  decide

/-- `test_Bnnn`: `BBAD` with `VB = 0x69` jumps to `0xC16`. -/
theorem model_test_Bnnn :
    observe (chip8_execute test_env
      { test_chip8 0xBBAD with V := fun i => if i = 0xB then 0x69 else 0 }
      blank_core.sram) = (0xC16, 0x1E0, 0, 0, 0, 0) := by
  decide

/-- `test_Fx0A`: `F00A` with key `A` down leaves `PC` at `pc_start_addr`; with
key `A` released it gives `V0 = 0xA` and `PC = pc_start_addr + 2`. -/
theorem model_test_Fx0A :
    observe (chip8_execute test_env
      { test_chip8 0xF00A with
        keypad := fun i => if i = 0xA then KeyState.KEY_DOWN else KeyState.KEY_UP }
      blank_core.sram) = (0x200, 0x1E0, 0, 0, 0, 0) ∧
    observe (chip8_execute test_env
      { test_chip8 0xF00A with
        keypad := fun i => if i = 0xA then KeyState.KEY_RELEASED else KeyState.KEY_UP }
      blank_core.sram) = (0x202, 0x1E0, 0, 0, 0xA, 0) := by
  decide

/-- `test_Fx33`: `F033` with `I = 4` and `V0 = 169` stores 1, 6, 9. -/
theorem model_test_Fx33 :
    (chip8_execute test_env
      { test_chip8 0xF033 with I := 0x4, V := fun i => if i = 0 then 169 else 0 }
      blank_core.sram).1.RAM 4 = 1 ∧
    (chip8_execute test_env
      { test_chip8 0xF033 with I := 0x4, V := fun i => if i = 0 then 169 else 0 }
      blank_core.sram).1.RAM 5 = 6 ∧
    (chip8_execute test_env
      { test_chip8 0xF033 with I := 0x4, V := fun i => if i = 0 then 169 else 0 }
      blank_core.sram).1.RAM 6 = 9 := by
  decide

/-! ## Snapshot size check and contents -/

/-- Claim C11: `retro_serialize` and `retro_unserialize` return false if and
only if `size < retro_serialize_size()`, and when they return false the buffer
is as it was and the statics are as they were. -/
theorem snapshot_too_small (sz : Nat) (g : Core) (data : serialized_state) (size : Nat) :
    ((retro_serialize sz g data size).1 = false ↔ size < retro_serialize_size sz) ∧
    ((retro_unserialize sz g data size).1 = false ↔ size < retro_serialize_size sz) ∧
    ((retro_serialize sz g data size).1 = false → (retro_serialize sz g data size).2 = data) ∧
    ((retro_unserialize sz g data size).1 = false → (retro_unserialize sz g data size).2 = g) := by
  unfold retro_serialize retro_unserialize retro_serialize_size
  by_cases h : size < sz
  · simp [h]
  · simp [h]

/-- Witness of C11: a 100-byte buffer offered for a 300000-byte record. -/
theorem snapshot_too_small_witness :
    (retro_serialize 300000 blank_core other_buffer 100).1 = false ∧
    (retro_unserialize 300000 blank_core other_buffer 100).1 = false ∧
    (retro_serialize 300000 blank_core other_buffer 100).2 = other_buffer ∧
    (retro_unserialize 300000 blank_core other_buffer 100).2 = blank_core :=
  ⟨by decide, by decide,
   (snapshot_too_small 300000 blank_core other_buffer 100).2.2.1 (by decide),
   (snapshot_too_small 300000 blank_core other_buffer 100).2.2.2 (by decide)⟩

/-- Counterexample to C12 as stated: two buffers of sufficient size that differ
in every scalar field of the record, in `PC` and in the first user flag are
both accepted, and the second one replaces the statics; no field of the record
acts as a version tag. -/
theorem unserialize_accepts_any_content :
    (retro_unserialize 300000 blank_core blank_buffer 400000).1 = true ∧
    (retro_unserialize 300000 blank_core other_buffer 400000).1 = true ∧
    (retro_unserialize 300000 blank_core other_buffer 400000).2.cpu_debt = 7 ∧
    (retro_unserialize 300000 blank_core other_buffer 400000).2.chip8.PC = 0x300 ∧
    other_buffer.cpu_debt ≠ blank_buffer.cpu_debt ∧
    other_buffer.audio_counter_chip8 ≠ blank_buffer.audio_counter_chip8 ∧
    other_buffer.audio_counter_resample ≠ blank_buffer.audio_counter_resample ∧
    other_buffer.audio_freq_chip8 ≠ blank_buffer.audio_freq_chip8 ∧
    other_buffer.snd_buf_pntr ≠ blank_buffer.snd_buf_pntr ∧
    other_buffer.chip8.PC ≠ blank_buffer.chip8.PC ∧
    other_buffer.sram 0 ≠ blank_buffer.sram 0 := by
  decide

/-- Claim C12, amended: the serialized record is the `CHIP8` record, `cpu_debt`,
the three audio accumulators, `snd_buf_pntr` and the user flags, with no
version tag, and `retro_unserialize` succeeds for every buffer of sufficient
size, whatever its content: it returns true and the statics become the content
of the buffer. -/
theorem unserialize_no_version_tag (sz : Nat) (g : Core) (data : serialized_state) (size : Nat)
    (h : retro_serialize_size sz ≤ size) :
    (retro_unserialize sz g data size).1 = true ∧
    (retro_unserialize sz g data size).2.chip8 = data.chip8 ∧
    (retro_unserialize sz g data size).2.cpu_debt = data.cpu_debt ∧
    (retro_unserialize sz g data size).2.audio_counter_chip8 = data.audio_counter_chip8 ∧
    (retro_unserialize sz g data size).2.audio_counter_resample = data.audio_counter_resample ∧
    (retro_unserialize sz g data size).2.audio_freq_chip8 = data.audio_freq_chip8 ∧
    (retro_unserialize sz g data size).2.snd_buf_pntr = data.snd_buf_pntr ∧
    ∀ i, i < NUM_USER_FLAGS → (retro_unserialize sz g data size).2.sram i = data.sram i := by
  have h1 : ¬ size < sz := by simpa [retro_serialize_size] using h
  simp only [retro_unserialize, h1, if_false, memcpy]
  refine ⟨trivial, trivial, trivial, trivial, trivial, trivial, trivial, ?_⟩
  intro i hi
  simp [hi]

/-- Witness of C12: `other_buffer` read from a 400000-byte area. -/
theorem unserialize_no_version_tag_witness :
    retro_serialize_size 300000 ≤ 400000 ∧
    (retro_unserialize 300000 blank_core other_buffer 400000).1 = true ∧
    (retro_unserialize 300000 blank_core other_buffer 400000).2.snd_buf_pntr
      = other_buffer.snd_buf_pntr :=
  ⟨by decide,
   (unserialize_no_version_tag 300000 blank_core other_buffer 400000 (by decide)).1,
   (unserialize_no_version_tag 300000 blank_core other_buffer 400000 (by decide)).2.2.2.2.2.2.1⟩

/-! ## Program counter -/

/-- The user-flag opcodes leave `PC` alone. -/
theorem op_user_flags_PC (c : CHIP8) (sram : Nat → Nat) (x : Nat) (save : Bool) :
    (op_user_flags c sram x save).1.PC = c.PC := by
  unfold op_user_flags chip8_handle_user_flags
  split
  · rfl
  · rename_i r h
    split at h
    · split at h
      · exact absurd h (by simp)
      · split at h <;> (simp only [Option.some.injEq] at h; rw [← h])
    · simp only [Option.some.injEq] at h
      rw [← h]

/-- `Fx0A` leaves `PC` alone when it finds a released key. -/
theorem op_Fx0A_PC (c : CHIP8) (x k : Nat) (h : find_released c.keypad 16 = some k) :
    (op_Fx0A c x).PC = c.PC := by
  unfold op_Fx0A
  generalize find_released c.keypad 16 = r at h
  subst h
  rfl

/-- A change of resolution leaves `PC` alone. -/
theorem op_hires_PC (c : CHIP8) (b : Bool) : (op_hires c b).PC = c.PC := by
  unfold op_hires
  split <;> exact rfl

/-- The opcodes `8xyN` leave `PC` alone. -/
theorem op_8_PC (c : CHIP8) (x y n : Nat) : (op_8 c x y n).PC = c.PC := by
  unfold op_8
  repeat' split
  all_goals exact rfl

/-- The opcodes with high nibble 0 other than `0000` and `00EE` leave `PC`
alone. -/
theorem op_0_PC (env : Chip8Env) (c : CHIP8) (instr : Nat) (h0 : instr ≠ 0x0000)
    (h1 : instr ≠ 0x00EE) : (op_0 env c instr).PC = c.PC := by
  unfold op_0
  rw [if_neg h0]
  repeat' split
  all_goals first
    | contradiction
    | exact op_hires_PC _ _
    | exact rfl

/-- The opcodes with high nibble F other than `FX00 NNNN` and a waiting `Fx0A`
leave `PC` alone. -/
theorem op_F_PC (env : Chip8Env) (c : CHIP8) (sram : Nat → Nat) (x kk : Nat) (h0 : kk ≠ 0x00)
    (h1 : kk = 0x0A → ∃ k, find_released c.keypad 16 = some k) :
    (op_F env c sram x kk).1.PC = c.PC := by
  unfold op_F
  rw [if_neg h0]
  by_cases a : kk = 0x0A
  · obtain ⟨k, hk⟩ := h1 a
    subst a
    exact op_Fx0A_PC c x k hk
  · simp only [apply_ite Prod.fst, apply_ite CHIP8.PC, op_user_flags_PC, a, if_false,
      show (op_F002 env c).PC = c.PC from rfl, show (op_Fx33 c x).PC = c.PC from rfl,
      show (op_Fx55 c x).PC = c.PC from rfl, show (op_Fx65 c x).PC = c.PC from rfl, ite_self]

/-- The search for a released key among the first `n` keys finds nothing
exactly when none of them is RELEASED, and otherwise finds the lowest one. -/
theorem find_released_spec (keypad : Nat → KeyState) (n : Nat) :
    (find_released keypad n = none ↔ ∀ i, i < n → keypad i ≠ KeyState.KEY_RELEASED) ∧
    (∀ k, find_released keypad n = some k →
      k < n ∧ keypad k = KeyState.KEY_RELEASED ∧ ∀ i, i < k → keypad i ≠ KeyState.KEY_RELEASED) := by
  induction n with
  | zero =>
    refine ⟨?_, ?_⟩
    · simp [find_released]
    · intro k h
      simp [find_released] at h
  | succ n ih =>
    obtain ⟨ih1, ih2⟩ := ih
    unfold find_released
    cases hf : find_released keypad n with
    | some j =>
      obtain ⟨j1, j2, j3⟩ := ih2 j hf
      refine ⟨?_, ?_⟩
      · simp only [false_iff, reduceCtorEq]
        intro h
        exact h j (by omega) j2
      · intro k hk
        simp only [Option.some.injEq] at hk
        subst hk
        exact ⟨by omega, j2, j3⟩
    | none =>
      have hn := ih1.mp hf
      by_cases hr : keypad n = KeyState.KEY_RELEASED
      · simp only [hr, if_true]
        refine ⟨?_, ?_⟩
        · simp only [false_iff, reduceCtorEq]
          intro h
          exact h n (by omega) hr
        · intro k hk
          simp only [Option.some.injEq] at hk
          subst hk
          exact ⟨by omega, hr, hn⟩
      · simp only [hr, if_false]
        refine ⟨?_, ?_⟩
        · simp only [true_iff]
          intro i hi
          by_cases hin : i = n
          · subst hin; exact hr
          · exact hn i (by omega)
        · intro k hk
          simp at hk

/-- An opcode that is not control flow, not `0000`, not `FX00 NNNN` and not a
waiting `Fx0A` leaves `PC` two past its previous value. -/
theorem chip8_execute_PC (env : Chip8Env) (c : CHIP8) (sram : Nat → Nat)
    (hcf : control_flow (fetch c) = false) (h0 : fetch c ≠ 0x0000)
    (hF0 : ¬ (fetch c / 4096 = 0xF ∧ fetch c % 256 = 0x00))
    (hwait : fetch c / 4096 = 0xF → fetch c % 256 = 0x0A →
      ∃ k, find_released c.keypad 16 = some k) :
    (chip8_execute env c sram).1.PC = (c.PC + 2) % WORD_RANGE := by
  simp [control_flow] at hcf
  obtain ⟨⟨⟨⟨⟨⟨⟨⟨o1, o2⟩, oEE⟩, o3⟩, o4⟩, o5⟩, o9⟩, oE⟩, oB⟩ := hcf
  simp only [chip8_execute]
  by_cases a0 : fetch c / 4096 = 0x0
  · rw [if_pos a0]
    exact op_0_PC env _ _ h0 oEE
  rw [if_neg a0, if_neg o1, if_neg o2, if_neg o3, if_neg o4]
  by_cases a5 : fetch c / 4096 = 0x5
  · rw [if_pos a5, if_neg (o5 a5)]
    simp only [apply_ite CHIP8.PC, show ∀ a x y, (op_5xy2 a x y).PC = a.PC from fun _ _ _ => rfl,
      show ∀ a x y, (op_5xy3 a x y).PC = a.PC from fun _ _ _ => rfl, ite_self]
  rw [if_neg a5]
  by_cases a6 : fetch c / 4096 = 0x6
  · rw [if_pos a6]
  rw [if_neg a6]
  by_cases a7 : fetch c / 4096 = 0x7
  · rw [if_pos a7]
  rw [if_neg a7]
  by_cases a8 : fetch c / 4096 = 0x8
  · rw [if_pos a8]
    exact op_8_PC _ _ _ _
  rw [if_neg a8]
  by_cases a9 : fetch c / 4096 = 0x9
  · rw [if_pos a9, if_neg (o9 a9)]
  rw [if_neg a9]
  by_cases aA : fetch c / 4096 = 0xA
  · rw [if_pos aA]
  rw [if_neg aA, if_neg oB]
  by_cases aC : fetch c / 4096 = 0xC
  · rw [if_pos aC]
  rw [if_neg aC]
  by_cases aD : fetch c / 4096 = 0xD
  · rw [if_pos aD]
    exact rfl
  rw [if_neg aD]
  by_cases aE : fetch c / 4096 = 0xE
  · rw [if_pos aE, if_neg (oE aE).1, if_neg (oE aE).2]
  rw [if_neg aE]
  have hlt : fetch c / 4096 < 16 := by
    unfold fetch ram_read
    omega
  have aF : fetch c / 4096 = 0xF := by omega
  exact op_F_PC env _ sram _ _ (fun h => hF0 ⟨aF, h⟩) (hwait aF)

/-- `8xyN` with `N` above 7 and not `E` changes nothing. -/
theorem op_8_undefined (c : CHIP8) (x y n : Nat) (h7 : 7 < n) (hE : ¬ n = 0xE) :
    op_8 c x y n = c := by
  unfold op_8
  repeat' split
  all_goals first
    | omega
    | rfl

/-- An opcode that section 4.2 does not define only moves `PC` two further. -/
theorem chip8_execute_undefined (env : Chip8Env) (c : CHIP8) (sram : Nat → Nat)
    (hu : defined_opcode (fetch c) = false) :
    chip8_execute env c sram = ({ c with PC := (c.PC + 2) % WORD_RANGE }, sram) := by
  simp [defined_opcode] at hu
  obtain ⟨⟨⟨⟨⟨⟨⟨⟨⟨⟨⟨⟨⟨⟨⟨u0, u1⟩, u2⟩, u3⟩, u4⟩, u5⟩, u6⟩, u7⟩, u8⟩, u9⟩, uA⟩, uB⟩, uC⟩, uD⟩, uE⟩, uF⟩ := hu
  simp only [chip8_execute]
  by_cases a0 : fetch c / 4096 = 0x0
  · obtain ⟨⟨⟨⟨⟨⟨⟨⟨⟨z0, z1⟩, z2⟩, z3⟩, z4⟩, z5⟩, z6⟩, z7⟩, z8⟩, z9⟩ := u0 a0
    rw [if_pos a0]
    unfold op_0
    rw [if_neg z0, if_neg z1, if_neg z2, if_neg z3, if_neg z4, if_neg z5, if_neg z6, if_neg z7,
      if_neg z8, if_neg z9]
  rw [if_neg a0, if_neg u1, if_neg u2, if_neg u3, if_neg u4]
  by_cases a5 : fetch c / 4096 = 0x5
  · obtain ⟨⟨n0, n2⟩, n3⟩ := u5 a5
    rw [if_pos a5, if_neg n0, if_neg n2, if_neg n3]
  rw [if_neg a5, if_neg u6, if_neg u7]
  by_cases a8 : fetch c / 4096 = 0x8
  · obtain ⟨n7, nE⟩ := u8 a8
    rw [if_pos a8, op_8_undefined _ _ _ _ n7 nE]
  rw [if_neg a8]
  by_cases a9 : fetch c / 4096 = 0x9
  · rw [if_pos a9, if_neg (u9 a9)]
  rw [if_neg a9, if_neg uA, if_neg uB, if_neg uC, if_neg uD]
  by_cases aE : fetch c / 4096 = 0xE
  · rw [if_pos aE, if_neg (uE aE).1, if_neg (uE aE).2]
  rw [if_neg aE]
  have hlt : fetch c / 4096 < 16 := by
    unfold fetch ram_read
    omega
  have aF : fetch c / 4096 = 0xF := by omega
  obtain ⟨⟨⟨⟨⟨⟨⟨⟨⟨⟨⟨⟨⟨⟨⟨k0, k1⟩, k2⟩, k3⟩, k4⟩, k5⟩, k6⟩, k7⟩, k8⟩, k9⟩, kA⟩, kB⟩, kC⟩, kD⟩, kE⟩, kF⟩ :=
    uF aF
  have k2' : ¬ (fetch c % 256 = 0x02 ∧ fetch c / 256 % 16 = 0) := by omega
  unfold op_F
  rw [if_neg k0, if_neg k1, if_neg k2', if_neg k3, if_neg k4, if_neg k5, if_neg k6,
    if_neg k7, if_neg k8, if_neg k9, if_neg kA, if_neg kB, if_neg kC, if_neg kD, if_neg kE,
    if_neg kF]

/-- Dispatch on high nibble 0. -/
theorem exec_high_0 (env : Chip8Env) (c : CHIP8) (sram : Nat → Nat) (h : fetch c / 4096 = 0x0) :
    chip8_execute env c sram
      = (op_0 env { c with PC := (c.PC + 2) % WORD_RANGE } (fetch c), sram) := by
  simp only [chip8_execute]
  rw [if_pos h]

/-- Dispatch on high nibble 2. -/
theorem exec_high_2 (env : Chip8Env) (c : CHIP8) (sram : Nat → Nat) (h : fetch c / 4096 = 0x2) :
    chip8_execute env c sram
      = (op_2nnn env { c with PC := (c.PC + 2) % WORD_RANGE } (fetch c % 4096), sram) := by
  simp only [chip8_execute, h]
  rfl

/-- Dispatch on high nibble 8. -/
theorem exec_high_8 (env : Chip8Env) (c : CHIP8) (sram : Nat → Nat) (h : fetch c / 4096 = 0x8) :
    chip8_execute env c sram
      = (op_8 { c with PC := (c.PC + 2) % WORD_RANGE } (fetch c / 256 % 16) (fetch c / 16 % 16)
          (fetch c % 16), sram) := by
  simp only [chip8_execute, h]
  rfl

/-- Dispatch on high nibble F. -/
theorem exec_high_F (env : Chip8Env) (c : CHIP8) (sram : Nat → Nat) (h : fetch c / 4096 = 0xF) :
    chip8_execute env c sram
      = op_F env { c with PC := (c.PC + 2) % WORD_RANGE } sram (fetch c / 256 % 16)
          (fetch c % 256) := by
  simp only [chip8_execute, h]
  rfl

/-- Counterexample to C13 as stated: `0000` is not one of the control-flow
opcodes, yet after it `PC` is where it was (as `test_0000` asserts), not two
further; and the four-byte `F000 NNNN`, not control flow either, moves `PC` by
four. -/
theorem execute_0000_keeps_PC :
    fetch (test_chip8 0x0000) = 0x0000 ∧
    control_flow (fetch (test_chip8 0x0000)) = false ∧
    (test_chip8 0x0000).PC = 0x200 ∧
    (chip8_execute test_env (test_chip8 0x0000) blank_core.sram).1.PC = 0x200 ∧
    (chip8_execute test_env (test_chip8 0x0000) blank_core.sram).1.PC
      ≠ ((test_chip8 0x0000).PC + 2) % WORD_RANGE ∧
    control_flow (fetch (test_chip8 0xF000)) = false ∧
    (chip8_execute test_env (test_chip8 0xF000) blank_core.sram).1.PC = 0x204 := by
  decide

/-- Opcode `0000`: the emulator is unchanged, `PC` included (reduced to 16
bits). -/
theorem exec_0000 (env : Chip8Env) (c : CHIP8) (sram : Nat → Nat) (h : fetch c = 0x0000) :
    chip8_execute env c sram = ({ c with PC := c.PC % WORD_RANGE }, sram) := by
  have hop : op_0 env { c with PC := (c.PC + 2) % WORD_RANGE } 0x0000
      = rewind { c with PC := (c.PC + 2) % WORD_RANGE } := rfl
  rw [exec_high_0 env c sram (by omega), h, hop]
  unfold rewind
  dsimp only
  have e : ((c.PC + 2) % WORD_RANGE + WORD_RANGE - 2) % WORD_RANGE = c.PC % WORD_RANGE := by
    unfold WORD_RANGE
    omega
  rw [e]

/-- Claim C13, amended: for every opcode other than `0000` and the four-byte
`FX00 NNNN` that is not a control-flow opcode (`1nnn`, `2nnn`, `00EE`, the skip
family, `Bnnn`, an `Fx0A` that finds no released key), one call of
`chip8_execute` leaves `PC` equal to its previous value plus 2 (in 16-bit
arithmetic); in particular every undefined opcode is a no-op that only moves
`PC` two further; and `0000` leaves `PC` where it was (reduced to 16 bits, so
unchanged when it is a 16-bit value). -/
theorem execute_advances_PC (env : Chip8Env) (c : CHIP8) (sram : Nat → Nat) :
    (control_flow (fetch c) = false → fetch c ≠ 0x0000 →
      ¬ (fetch c / 4096 = 0xF ∧ fetch c % 256 = 0x00) →
      (fetch c / 4096 = 0xF → fetch c % 256 = 0x0A →
        ∃ k, k < 16 ∧ c.keypad k = KeyState.KEY_RELEASED) →
      (chip8_execute env c sram).1.PC = (c.PC + 2) % WORD_RANGE) ∧
    (defined_opcode (fetch c) = false →
      chip8_execute env c sram = ({ c with PC := (c.PC + 2) % WORD_RANGE }, sram)) ∧
    (fetch c = 0x0000 →
      (chip8_execute env c sram).1.PC = c.PC % WORD_RANGE ∧
      (c.PC < WORD_RANGE → (chip8_execute env c sram).1.PC = c.PC)) := by
  refine ⟨?_, chip8_execute_undefined env c sram, ?_⟩
  · intro hcf h0 hF0 hwait
    refine chip8_execute_PC env c sram hcf h0 hF0 ?_
    intro aF aK
    obtain ⟨k, hk, hr⟩ := hwait aF aK
    cases hf : find_released c.keypad 16 with
    | some j => exact ⟨j, rfl⟩
    | none => exact absurd hr (((find_released_spec c.keypad 16).1.mp hf) k hk)
  · intro h0
    rw [exec_0000 env c sram h0]
    exact ⟨rfl, fun hpc => Nat.mod_eq_of_lt hpc⟩

/-- Witness of C13: `6069` (load), the undefined `5691` and `0000`, at `0x200`. -/
theorem execute_advances_PC_witness :
    control_flow (fetch (test_chip8 0x6069)) = false ∧
    (chip8_execute test_env (test_chip8 0x6069) blank_core.sram).1.PC
      = ((test_chip8 0x6069).PC + 2) % WORD_RANGE ∧
    defined_opcode (fetch (test_chip8 0x5691)) = false ∧
    chip8_execute test_env (test_chip8 0x5691) blank_core.sram
      = ({ test_chip8 0x5691 with PC := ((test_chip8 0x5691).PC + 2) % WORD_RANGE },
          blank_core.sram) ∧
    fetch (test_chip8 0x0000) = 0x0000 ∧ (test_chip8 0x0000).PC = 0x200 ∧
    (chip8_execute test_env (test_chip8 0x0000) blank_core.sram).1.PC = (test_chip8 0x0000).PC :=
  ⟨by decide,
   (execute_advances_PC test_env (test_chip8 0x6069) blank_core.sram).1 (by decide) (by decide)
     (by decide) (fun h => absurd h (by decide)),
   by decide,
   (execute_advances_PC test_env (test_chip8 0x5691) blank_core.sram).2.1 (by decide),
   by decide, by decide,
   ((execute_advances_PC test_env (test_chip8 0x0000) blank_core.sram).2.2 (by decide)).2
     (by decide)⟩

/-! ## Arithmetic -/

/-- A register just written holds the value reduced to 8 bits. -/
theorem set_reg_same (V : Nat → Nat) (x v : Nat) : set_reg V x v x = v % 256 := by
  simp [set_reg]

/-- A write to one register leaves the others alone. -/
theorem set_reg_other (V : Nat → Nat) (x v i : Nat) (h : i ≠ x) : set_reg V x v i = V i := by
  simp [set_reg, h]

/-- The registers after `8xy4`. -/
theorem op_8xy4_V (c : CHIP8) (x y : Nat) :
    (op_8xy4 c x y).V 0xF = (if 0xFF < c.V x + c.V y then 1 else 0) ∧
    (x ≠ 0xF → (op_8xy4 c x y).V x = (c.V x + c.V y) % 256) ∧
    (∀ i, i ≠ x → i ≠ 0xF → (op_8xy4 c x y).V i = c.V i) := by
  unfold op_8xy4
  dsimp only
  refine ⟨?_, ?_, ?_⟩
  · rw [set_reg_same]
    split <;> rfl
  · intro h
    rw [set_reg_other _ _ _ _ h, set_reg_same]
  · intro i h1 h2
    rw [set_reg_other _ _ _ _ h2, set_reg_other _ _ _ _ h1]

/-- Claim C14: `8xy4`, for all register indices `x`, `y` and all register
values: `VF` is 1 if `Vx + Vy > 255` and 0 otherwise, and `Vx` is
`(Vx + Vy) mod 256`; `VF` is written after the result, so for `x = 0xF` the
final `VF` is the carry.  The other registers are unchanged. -/
theorem add_with_carry (env : Chip8Env) (c : CHIP8) (sram : Nat → Nat) (x y : Nat)
    (hop : fetch c / 4096 = 0x8) (hn : fetch c % 16 = 0x4)
    (hx : fetch c / 256 % 16 = x) (hy : fetch c / 16 % 16 = y) :
    (chip8_execute env c sram).1.V 0xF = (if 0xFF < c.V x + c.V y then 1 else 0) ∧
    (x ≠ 0xF → (chip8_execute env c sram).1.V x = (c.V x + c.V y) % 256) ∧
    (∀ i, i ≠ x → i ≠ 0xF → (chip8_execute env c sram).1.V i = c.V i) := by
  rw [exec_high_8 env c sram hop, hn, hx, hy]
  exact op_8xy4_V _ x y

/-- Witness of C14: `8694` with `V6 = 0xFA` and `V9 = 0x07` gives `V6 = 0x01`
and `VF = 1`, as in `test_8xy4` and scenario 3 of the spec. -/
theorem add_with_carry_witness :
    (chip8_execute test_env (add_chip8 0x8694) blank_core.sram).1.V 6 = 0x01 ∧
    (chip8_execute test_env (add_chip8 0x8694) blank_core.sram).1.V 0xF = 1 ∧
    (chip8_execute test_env (add_chip8 0x8694) blank_core.sram).1.V 0xF
      = (if 0xFF < (add_chip8 0x8694).V 6 + (add_chip8 0x8694).V 9 then 1 else 0) :=
  ⟨by decide, by decide,
   (add_with_carry test_env (add_chip8 0x8694) blank_core.sram 6 9 (by decide) (by decide)
     (by decide) (by decide)).1⟩

/-- The registers after `8xy5`. -/
theorem op_8xy5_V (c : CHIP8) (x y : Nat) :
    (op_8xy5 c x y).V 0xF = (if c.V y ≤ c.V x then 1 else 0) ∧
    (x ≠ 0xF → ((op_8xy5 c x y).V x : Int) = ((c.V x : Int) - (c.V y : Int)) % 256) := by
  unfold op_8xy5
  dsimp only
  refine ⟨?_, ?_⟩
  · rw [set_reg_same]
    split <;> rfl
  · intro h
    rw [set_reg_other _ _ _ _ h, set_reg_same]
    omega

/-- The registers after `8xy7`. -/
theorem op_8xy7_V (c : CHIP8) (x y : Nat) :
    (op_8xy7 c x y).V 0xF = (if c.V x ≤ c.V y then 1 else 0) ∧
    (x ≠ 0xF → ((op_8xy7 c x y).V x : Int) = ((c.V y : Int) - (c.V x : Int)) % 256) := by
  unfold op_8xy7
  dsimp only
  refine ⟨?_, ?_⟩
  · rw [set_reg_same]
    split <;> rfl
  · intro h
    rw [set_reg_other _ _ _ _ h, set_reg_same]
    omega

/-- Claim C15: `8xy5` sets `Vx = (Vx - Vy) mod 256` with `VF = 1` iff
`Vx ≥ Vy`, and `8xy7` sets `Vx = (Vy - Vx) mod 256` with `VF = 1` iff
`Vy ≥ Vx`; in both `VF` is written after the result, so for `x = 0xF` the
register holds the flag. -/
theorem subtract_with_borrow (env : Chip8Env) (c : CHIP8) (sram : Nat → Nat) (x y : Nat)
    (hop : fetch c / 4096 = 0x8) (hx : fetch c / 256 % 16 = x) (hy : fetch c / 16 % 16 = y) :
    (fetch c % 16 = 0x5 →
      (chip8_execute env c sram).1.V 0xF = (if c.V y ≤ c.V x then 1 else 0) ∧
      (x ≠ 0xF →
        ((chip8_execute env c sram).1.V x : Int) = ((c.V x : Int) - (c.V y : Int)) % 256)) ∧
    (fetch c % 16 = 0x7 →
      (chip8_execute env c sram).1.V 0xF = (if c.V x ≤ c.V y then 1 else 0) ∧
      (x ≠ 0xF →
        ((chip8_execute env c sram).1.V x : Int) = ((c.V y : Int) - (c.V x : Int)) % 256)) := by
  rw [exec_high_8 env c sram hop, hx, hy]
  refine ⟨?_, ?_⟩
  · intro hn
    rw [hn]
    exact op_8xy5_V _ x y
  · intro hn
    rw [hn]
    exact op_8xy7_V _ x y

/-- Witness of C15: `8695` with `V6 = 0xFA` and `V9 = 0x07` gives `VF = 1`
(no borrow) and `V6 = 0xF3`. -/
theorem subtract_with_borrow_witness :
    (chip8_execute test_env (add_chip8 0x8695) blank_core.sram).1.V 6 = 0xF3 ∧
    (chip8_execute test_env (add_chip8 0x8695) blank_core.sram).1.V 0xF
      = (if (add_chip8 0x8695).V 9 ≤ (add_chip8 0x8695).V 6 then 1 else 0) :=
  ⟨by decide,
   ((subtract_with_borrow test_env (add_chip8 0x8695) blank_core.sram 6 9 (by decide)
     (by decide) (by decide)).1 (by decide)).1⟩

/-! ## Shifts -/

/-- The value the shifts take is `Vx`, whatever quirk 1 is. -/
theorem shift_source_eq (c : CHIP8) (x : Nat) : shift_source c x = c.V x := by
  unfold shift_source
  split <;> rfl

/-- The registers after `8xy6`. -/
theorem op_8xy6_V (c : CHIP8) (x : Nat) (hs : c.V x < 256) :
    (op_8xy6 c x).V 0xF = c.V x % 2 ∧
    (x ≠ 0xF → (op_8xy6 c x).V x = c.V x / 2) := by
  unfold op_8xy6
  rw [shift_source_eq]
  dsimp only
  refine ⟨?_, ?_⟩
  · rw [set_reg_same]
    omega
  · intro h
    rw [set_reg_other _ _ _ _ h, set_reg_same]
    omega

/-- The registers after `8xyE`. -/
theorem op_8xyE_V (c : CHIP8) (x : Nat) (hs : c.V x < 256) :
    (op_8xyE c x).V 0xF = c.V x / 128 ∧
    (x ≠ 0xF → (op_8xyE c x).V x = (c.V x * 2) % 256) := by
  unfold op_8xyE
  rw [shift_source_eq]
  dsimp only
  refine ⟨?_, ?_⟩
  · rw [set_reg_same]
    omega
  · intro h
    rw [set_reg_other _ _ _ _ h, set_reg_same]

/-- Counterexample to C16 as stated: with quirk 1 enabled, `V6 = 0x69` and
`V9 = 0`, `8696` leaves `V6 = 0x34` and `VF = 1` (as `test_8xy6` asserts) and
`869E` leaves `V6 = 0xD2` (as `test_8xyE` asserts): `Vx` is shifted in place,
whereas `Vy >> 1`, bit 0 of `Vy` and `Vy << 1` are all 0. -/
theorem shift_enabled_is_in_place :
    (shift_chip8 0x8696).quirks 1 = true ∧
    (shift_chip8 0x8696).V 6 = 0x69 ∧ (shift_chip8 0x8696).V 9 = 0 ∧
    (chip8_execute test_env (shift_chip8 0x8696) blank_core.sram).1.V 6 = 0x34 ∧
    (chip8_execute test_env (shift_chip8 0x8696) blank_core.sram).1.V 0xF = 1 ∧
    (chip8_execute test_env (shift_chip8 0x8696) blank_core.sram).1.V 6
      ≠ (shift_chip8 0x8696).V 9 / 2 ∧
    (chip8_execute test_env (shift_chip8 0x8696) blank_core.sram).1.V 0xF
      ≠ (shift_chip8 0x8696).V 9 % 2 ∧
    (chip8_execute test_env (shift_chip8 0x869E) blank_core.sram).1.V 6 = 0xD2 ∧
    (chip8_execute test_env (shift_chip8 0x869E) blank_core.sram).1.V 6
      ≠ ((shift_chip8 0x869E).V 9 * 2) % 256 := by
  decide

/-- Claim C16, amended: with quirk 1 enabled, `8xy6` sets `Vx = Vx >> 1` and
`VF` = bit 0 of `Vx`, and `8xyE` sets `Vx = (Vx << 1) mod 256` and `VF` = bit 7
of `Vx` (the shift is in place, as `test_8xy6` and `test_8xyE` assert); with
quirk 1 disabled they shift `Vx` in place and `VF` is the bit shifted out of
`Vx`, as the claim says.  `VF` is written after the result.  Registers hold
bytes. -/
theorem shift_quirk (env : Chip8Env) (c : CHIP8) (sram : Nat → Nat) (x : Nat)
    (hop : fetch c / 4096 = 0x8) (hx : fetch c / 256 % 16 = x) (hV : ∀ i, c.V i < 256) :
    (c.quirks 1 = true →
      (fetch c % 16 = 0x6 →
        (chip8_execute env c sram).1.V 0xF = c.V x % 2 ∧
        (x ≠ 0xF → (chip8_execute env c sram).1.V x = c.V x / 2)) ∧
      (fetch c % 16 = 0xE →
        (chip8_execute env c sram).1.V 0xF = c.V x / 128 ∧
        (x ≠ 0xF → (chip8_execute env c sram).1.V x = (c.V x * 2) % 256))) ∧
    (c.quirks 1 = false →
      (fetch c % 16 = 0x6 →
        (chip8_execute env c sram).1.V 0xF = c.V x % 2 ∧
        (x ≠ 0xF → (chip8_execute env c sram).1.V x = c.V x / 2)) ∧
      (fetch c % 16 = 0xE →
        (chip8_execute env c sram).1.V 0xF = c.V x / 128 ∧
        (x ≠ 0xF → (chip8_execute env c sram).1.V x = (c.V x * 2) % 256))) := by
  rw [exec_high_8 env c sram hop, hx]
  have key : (fetch c % 16 = 0x6 →
        (op_8 { c with PC := (c.PC + 2) % WORD_RANGE } x (fetch c / 16 % 16) (fetch c % 16)).V 0xF
          = c.V x % 2 ∧
        (x ≠ 0xF →
          (op_8 { c with PC := (c.PC + 2) % WORD_RANGE } x (fetch c / 16 % 16) (fetch c % 16)).V x
            = c.V x / 2)) ∧
      (fetch c % 16 = 0xE →
        (op_8 { c with PC := (c.PC + 2) % WORD_RANGE } x (fetch c / 16 % 16) (fetch c % 16)).V 0xF
          = c.V x / 128 ∧
        (x ≠ 0xF →
          (op_8 { c with PC := (c.PC + 2) % WORD_RANGE } x (fetch c / 16 % 16) (fetch c % 16)).V x
            = (c.V x * 2) % 256)) := by
    refine ⟨?_, ?_⟩
    · intro hn
      rw [hn]
      exact op_8xy6_V { c with PC := (c.PC + 2) % WORD_RANGE } x (hV x)
    · intro hn
      rw [hn]
      exact op_8xyE_V { c with PC := (c.PC + 2) % WORD_RANGE } x (hV x)
  exact ⟨fun _ => key, fun _ => key⟩

/-- Witness of C16: `8696` with `V6 = 0x69`, with quirk 1 enabled and with
quirk 1 disabled (`V9 = 0x0F`): `V6` becomes `0x34` and `VF` 1 both times. -/
theorem shift_quirk_witness :
    (shift_chip8 0x8696).quirks 1 = true ∧ (plain_shift_chip8 0x8696).quirks 1 = false ∧
    ((chip8_execute test_env (shift_chip8 0x8696) blank_core.sram).1.V 0xF
        = (shift_chip8 0x8696).V 6 % 2 ∧
      (6 ≠ 0xF → (chip8_execute test_env (shift_chip8 0x8696) blank_core.sram).1.V 6
        = (shift_chip8 0x8696).V 6 / 2)) ∧
    ((chip8_execute test_env (plain_shift_chip8 0x8696) blank_core.sram).1.V 0xF
        = (plain_shift_chip8 0x8696).V 6 % 2 ∧
      (6 ≠ 0xF → (chip8_execute test_env (plain_shift_chip8 0x8696) blank_core.sram).1.V 6
        = (plain_shift_chip8 0x8696).V 6 / 2)) :=
  ⟨by decide, by decide,
   ((shift_quirk test_env (shift_chip8 0x8696) blank_core.sram 6 (by decide) (by decide)
      (fun i => by unfold shift_chip8; dsimp only; split <;> omega)).1 (by decide)).1 (by decide),
   ((shift_quirk test_env (plain_shift_chip8 0x8696) blank_core.sram 6 (by decide) (by decide)
      (fun i => by unfold plain_shift_chip8; dsimp only; repeat' split
                   all_goals omega)).2 (by decide)).1 (by decide)⟩

/-! ## BCD -/

/-- Claim C17: `Fx33`, for every byte `v` in `Vx`, writes the hundreds, tens
and ones digits of `v` to `RAM[I]`, `RAM[I+1]`, `RAM[I+2]` (addresses masked
modulo `MAX_RAM`), so that each byte is in `0..9` and
`100*RAM[I] + 10*RAM[I+1] + RAM[I+2] = v`; `I` and the `V` registers are
unchanged. -/
theorem bcd_digits (env : Chip8Env) (c : CHIP8) (sram : Nat → Nat) (x : Nat)
    (hop : fetch c / 4096 = 0xF) (hkk : fetch c % 256 = 0x33) (hx : fetch c / 256 % 16 = x)
    (hv : c.V x < 256) :
    (chip8_execute env c sram).1.RAM (c.I % MAX_RAM) = c.V x / 100 ∧
    (chip8_execute env c sram).1.RAM ((c.I + 1) % MAX_RAM) = c.V x / 10 % 10 ∧
    (chip8_execute env c sram).1.RAM ((c.I + 2) % MAX_RAM) = c.V x % 10 ∧
    (chip8_execute env c sram).1.RAM (c.I % MAX_RAM) ≤ 9 ∧
    (chip8_execute env c sram).1.RAM ((c.I + 1) % MAX_RAM) ≤ 9 ∧
    (chip8_execute env c sram).1.RAM ((c.I + 2) % MAX_RAM) ≤ 9 ∧
    100 * (chip8_execute env c sram).1.RAM (c.I % MAX_RAM)
      + 10 * (chip8_execute env c sram).1.RAM ((c.I + 1) % MAX_RAM)
      + (chip8_execute env c sram).1.RAM ((c.I + 2) % MAX_RAM) = c.V x ∧
    (chip8_execute env c sram).1.I = c.I ∧
    (chip8_execute env c sram).1.V = c.V := by
  have hop33 : op_F env { c with PC := (c.PC + 2) % WORD_RANGE } sram x 0x33
      = (op_Fx33 { c with PC := (c.PC + 2) % WORD_RANGE } x, sram) := rfl
  rw [exec_high_F env c sram hop, hkk, hx, hop33]
  have n01 : c.I % MAX_RAM ≠ (c.I + 1) % MAX_RAM := by unfold MAX_RAM; omega
  have n02 : c.I % MAX_RAM ≠ (c.I + 2) % MAX_RAM := by unfold MAX_RAM; omega
  have n12 : (c.I + 1) % MAX_RAM ≠ (c.I + 2) % MAX_RAM := by unfold MAX_RAM; omega
  have e0 : (op_Fx33 { c with PC := (c.PC + 2) % WORD_RANGE } x).RAM (c.I % MAX_RAM)
      = c.V x / 100 := by
    unfold op_Fx33 ram_write
    dsimp only
    rw [Function.update_noteq n02, Function.update_noteq n01, Function.update_same]
    omega
  have e1 : (op_Fx33 { c with PC := (c.PC + 2) % WORD_RANGE } x).RAM ((c.I + 1) % MAX_RAM)
      = c.V x / 10 % 10 := by
    unfold op_Fx33 ram_write
    dsimp only
    rw [Function.update_noteq n12, Function.update_same]
    omega
  have e2 : (op_Fx33 { c with PC := (c.PC + 2) % WORD_RANGE } x).RAM ((c.I + 2) % MAX_RAM)
      = c.V x % 10 := by
    unfold op_Fx33 ram_write
    dsimp only
    rw [Function.update_same]
    omega
  dsimp only
  rw [e0, e1, e2]
  refine ⟨rfl, rfl, rfl, ?_, ?_, ?_, ?_, rfl, rfl⟩ <;> omega

/-- Witness of C17: `F033` with `I = 4` and `V0 = 169` stores 1, 6, 9, as in
`test_Fx33`. -/
theorem bcd_digits_witness :
    bcd_chip8.V 0 = 169 ∧
    (chip8_execute test_env bcd_chip8 blank_core.sram).1.RAM (bcd_chip8.I % MAX_RAM) = 1 ∧
    (chip8_execute test_env bcd_chip8 blank_core.sram).1.RAM ((bcd_chip8.I + 1) % MAX_RAM) = 6 ∧
    (chip8_execute test_env bcd_chip8 blank_core.sram).1.RAM ((bcd_chip8.I + 2) % MAX_RAM) = 9 ∧
    100 * (chip8_execute test_env bcd_chip8 blank_core.sram).1.RAM (bcd_chip8.I % MAX_RAM)
      + 10 * (chip8_execute test_env bcd_chip8 blank_core.sram).1.RAM
          ((bcd_chip8.I + 1) % MAX_RAM)
      + (chip8_execute test_env bcd_chip8 blank_core.sram).1.RAM ((bcd_chip8.I + 2) % MAX_RAM)
      = bcd_chip8.V 0 :=
  ⟨by decide, by decide, by decide, by decide,
   (bcd_digits test_env bcd_chip8 blank_core.sram 0 (by decide) (by decide) (by decide)
     (by decide)).2.2.2.2.2.2.1⟩

/-! ## Call and return -/

/-- The effect of `2nnn` when the new frame fits the stack region. -/
theorem op_2nnn_room (env : Chip8Env) (c : CHIP8) (nnn : Nat)
    (hroom : c.SP + 3 < env.SP_START_ADDR + STACK_SIZE)
    (hreg : env.SP_START_ADDR + STACK_SIZE ≤ MAX_RAM) (hpc : c.PC < WORD_RANGE) :
    (op_2nnn env c nnn).SP = c.SP + 2 ∧
    (op_2nnn env c nnn).RAM (c.SP + 2) = c.PC / 256 ∧
    (op_2nnn env c nnn).RAM (c.SP + 3) = c.PC % 256 ∧
    (op_2nnn env c nnn).PC = nnn := by
  unfold MAX_RAM at hreg
  unfold WORD_RANGE at hpc
  have hno : ¬ env.SP_START_ADDR + STACK_SIZE ≤ c.SP + 2 := by omega
  have hsp : (c.SP + 2) % WORD_RANGE = c.SP + 2 := by unfold WORD_RANGE; omega
  have a0 : (c.SP + 2) % MAX_RAM = c.SP + 2 := by unfold MAX_RAM; omega
  have a1 : (c.SP + 2 + 1) % MAX_RAM = c.SP + 3 := by unfold MAX_RAM; omega
  unfold op_2nnn
  rw [if_neg hno]
  dsimp only
  rw [hsp]
  unfold ram_write
  rw [a0, a1]
  refine ⟨rfl, ?_, ?_, rfl⟩
  · rw [Function.update_noteq (by omega), Function.update_same]
    omega
  · rw [Function.update_same]
    omega

/-- The effect of `00EE` when the stack is not empty. -/
theorem op_00EE_pop (env : Chip8Env) (c : CHIP8) (hsp : env.SP_START_ADDR < c.SP)
    (h2 : 2 ≤ c.SP) (hw : c.SP < WORD_RANGE) :
    (op_00EE env c).PC = ram_read c.RAM c.SP * 256 + ram_read c.RAM (c.SP + 1) ∧
    (op_00EE env c).SP = c.SP - 2 := by
  unfold WORD_RANGE at hw
  unfold op_00EE
  rw [if_neg (by omega)]
  refine ⟨rfl, ?_⟩
  dsimp only
  unfold WORD_RANGE
  omega

/-- The result of executing the opcode `00EE`. -/
theorem exec_00EE (env : Chip8Env) (c : CHIP8) (sram : Nat → Nat) (h : fetch c = 0x00EE) :
    chip8_execute env c sram = (op_00EE env { c with PC := (c.PC + 2) % WORD_RANGE }, sram) := by
  rw [exec_high_0 env c sram (by omega), h]
  rfl

/-- Counterexample to C18 as stated: with the stack region full
(`SP = SP_START_ADDR + 30`, and likewise at `SP_START_ADDR + 32`) the call
`2FFF` is a no-op: `SP` does not grow and `PC` is the next instruction, not
`0xFFF`; and `00EE` on an empty stack (`SP = SP_START_ADDR`) leaves `SP` alone
and goes on to the next instruction. -/
theorem call_on_full_stack :
    observe (chip8_execute test_env { test_chip8 0x2FFF with SP := 0x1E0 + 30 } blank_core.sram)
      = (0x202, 0x1E0 + 30, 0, 0, 0, 0) ∧
    observe (chip8_execute test_env { test_chip8 0x2FFF with SP := 0x1E0 + 32 } blank_core.sram)
      = (0x202, 0x1E0 + 32, 0, 0, 0, 0) ∧
    test_env.SP_START_ADDR = 0x1E0 ∧
    observe (chip8_execute test_env (test_chip8 0x00EE) blank_core.sram)
      = (0x202, 0x1E0, 0, 0, 0, 0) := by
  decide

/-- Claim C18, amended: when the new frame fits the 16-frame stack region
(which lies inside `RAM`), `2nnn` increases `SP` by 2, stores the address of
the instruction after the call big-endian at `RAM[SP]`, `RAM[SP+1]` and sets
`PC = nnn`; when the stack is not empty, `00EE` sets `PC` to the big-endian
word at `RAM[SP]` and decreases `SP` by 2; hence a `00EE` executed with `SP`
and the two stack bytes as that call left them returns to the instruction
following the call with `SP` back at its pre-call value. -/
theorem call_return_round_trip (env : Chip8Env) (c : CHIP8) (sram : Nat → Nat) (nnn : Nat)
    (hop : fetch c / 4096 = 0x2) (hn : fetch c % 4096 = nnn)
    (hsp : env.SP_START_ADDR ≤ c.SP)
    (hroom : c.SP + 3 < env.SP_START_ADDR + STACK_SIZE)
    (hreg : env.SP_START_ADDR + STACK_SIZE ≤ MAX_RAM) :
    ((chip8_execute env c sram).1.SP = c.SP + 2 ∧
      (chip8_execute env c sram).1.RAM (c.SP + 2) = (c.PC + 2) % WORD_RANGE / 256 ∧
      (chip8_execute env c sram).1.RAM (c.SP + 3) = (c.PC + 2) % WORD_RANGE % 256 ∧
      (chip8_execute env c sram).1.PC = nnn) ∧
    (∀ d sram', fetch d = 0x00EE → env.SP_START_ADDR < d.SP → 2 ≤ d.SP → d.SP < WORD_RANGE →
      (chip8_execute env d sram').1.PC = ram_read d.RAM d.SP * 256 + ram_read d.RAM (d.SP + 1) ∧
      (chip8_execute env d sram').1.SP = d.SP - 2) ∧
    (∀ d sram', fetch d = 0x00EE → d.SP = (chip8_execute env c sram).1.SP →
      d.RAM (c.SP + 2) = (chip8_execute env c sram).1.RAM (c.SP + 2) →
      d.RAM (c.SP + 3) = (chip8_execute env c sram).1.RAM (c.SP + 3) →
      (chip8_execute env d sram').1.PC = (c.PC + 2) % WORD_RANGE ∧
      (chip8_execute env d sram').1.SP = c.SP) := by
  have hpc : (c.PC + 2) % WORD_RANGE < WORD_RANGE := Nat.mod_lt _ (by unfold WORD_RANGE; norm_num)
  obtain ⟨r1, r2, r3, r4⟩ := op_2nnn_room env { c with PC := (c.PC + 2) % WORD_RANGE } nnn
    hroom hreg hpc
  dsimp only at r1 r2 r3 r4
  have hcall : (chip8_execute env c sram).1
      = op_2nnn env { c with PC := (c.PC + 2) % WORD_RANGE } nnn := by
    rw [exec_high_2 env c sram hop, hn]
  have hret : ∀ d sram', fetch d = 0x00EE → env.SP_START_ADDR < d.SP → 2 ≤ d.SP →
      d.SP < WORD_RANGE →
      (chip8_execute env d sram').1.PC = ram_read d.RAM d.SP * 256 + ram_read d.RAM (d.SP + 1) ∧
      (chip8_execute env d sram').1.SP = d.SP - 2 := by
    intro d sram' hd h1 h2 h3
    rw [exec_00EE env d sram' hd]
    exact op_00EE_pop env { d with PC := (d.PC + 2) % WORD_RANGE } h1 h2 h3
  refine ⟨?_, hret, ?_⟩
  · rw [hcall]
    exact ⟨r1, r2, r3, r4⟩
  · intro d sram' hd hdsp hb0 hb1
    rw [hcall] at hdsp hb0 hb1
    rw [r1] at hdsp
    rw [r2] at hb0
    rw [r3] at hb1
    unfold MAX_RAM at hreg
    unfold STACK_SIZE at hroom hreg
    unfold WORD_RANGE at hpc
    obtain ⟨p1, p2⟩ := hret d sram' hd (by omega) (by omega) (by unfold WORD_RANGE; omega)
    rw [p1, p2, hdsp]
    refine ⟨?_, by omega⟩
    unfold ram_read
    have a0 : (c.SP + 2) % MAX_RAM = c.SP + 2 := by unfold MAX_RAM; omega
    have a1 : (c.SP + 2 + 1) % MAX_RAM = c.SP + 3 := by unfold MAX_RAM; omega
    rw [a0, a1, hb0, hb1]
    unfold WORD_RANGE
    omega

/-- Witness of C18: scenario 5 of the spec, `2300` at `0x200` and `00EE` at
`0x300`: after the call `PC = 0x300` and `SP` is two up, after the return
`PC = 0x202` and `SP = SP_START_ADDR`. -/
theorem call_return_round_trip_witness :
    observe (chip8_execute test_env call_chip8 blank_core.sram) = (0x300, 0x1E2, 0, 0, 0, 0) ∧
    observe (chip8_execute test_env (chip8_execute test_env call_chip8 blank_core.sram).1
      blank_core.sram) = (0x202, 0x1E0, 0, 0, 0, 0) ∧
    (chip8_execute test_env (chip8_execute test_env call_chip8 blank_core.sram).1
      blank_core.sram).1.PC = (call_chip8.PC + 2) % WORD_RANGE ∧
    (chip8_execute test_env (chip8_execute test_env call_chip8 blank_core.sram).1
      blank_core.sram).1.SP = call_chip8.SP :=
  ⟨by decide, by decide,
   (call_return_round_trip test_env call_chip8 blank_core.sram 0x300 (by decide) (by decide)
     (by decide) (by decide) (by decide)).2.2
     (chip8_execute test_env call_chip8 blank_core.sram).1 blank_core.sram (by decide) rfl rfl rfl⟩

/-! ## Wait for key -/

/-- Claim C19: `Fx0A`, while no key in `0..15` is in state RELEASED, leaves `PC`
at the address of the `Fx0A` instruction (a 16-bit value) and the registers
unchanged; when a key is RELEASED, `k` being the lowest such key, it sets
`Vx = k` and leaves `PC` at the following instruction. -/
theorem wait_for_key (env : Chip8Env) (c : CHIP8) (sram : Nat → Nat) (x : Nat)
    (hop : fetch c / 4096 = 0xF) (hkk : fetch c % 256 = 0x0A) (hx : fetch c / 256 % 16 = x) :
    ((∀ i, i < 16 → c.keypad i ≠ KeyState.KEY_RELEASED) →
      (chip8_execute env c sram).1.PC = c.PC % WORD_RANGE ∧
      (chip8_execute env c sram).1.V = c.V) ∧
    (∀ k, k < 16 → c.keypad k = KeyState.KEY_RELEASED →
      (∀ i, i < k → c.keypad i ≠ KeyState.KEY_RELEASED) →
      (chip8_execute env c sram).1.V x = k ∧
      (chip8_execute env c sram).1.PC = (c.PC + 2) % WORD_RANGE) := by
  have hopA : op_F env { c with PC := (c.PC + 2) % WORD_RANGE } sram x 0x0A
      = (op_Fx0A { c with PC := (c.PC + 2) % WORD_RANGE } x, sram) := rfl
  rw [exec_high_F env c sram hop, hkk, hx, hopA]
  obtain ⟨s1, s2⟩ := find_released_spec c.keypad 16
  unfold op_Fx0A
  dsimp only
  refine ⟨?_, ?_⟩
  · intro hnone
    rw [s1.mpr hnone]
    unfold rewind
    dsimp only
    refine ⟨?_, Eq.refl c.V⟩
    unfold WORD_RANGE
    omega
  · intro k hk hrel hlow
    cases hf : find_released c.keypad 16 with
    | none => exact absurd hrel ((s1.mp hf) k hk)
    | some j =>
      obtain ⟨j1, j2, j3⟩ := s2 j hf
      have hjk : j = k := by
        rcases Nat.lt_trichotomy j k with h | h | h
        · exact absurd j2 (hlow j h)
        · exact h
        · exact absurd hrel (j3 k h)
      subst hjk
      dsimp only
      refine ⟨?_, rfl⟩
      rw [set_reg_same]
      omega

/-- Witness of C19: `F00A` with key `A` released gives `V0 = 0xA` and
`PC = 0x202`, as in `test_Fx0A` and scenario 6 of the spec. -/
theorem wait_for_key_witness :
    key_chip8.keypad 0xA = KeyState.KEY_RELEASED ∧
    (chip8_execute test_env key_chip8 blank_core.sram).1.V 0 = 0xA ∧
    (chip8_execute test_env key_chip8 blank_core.sram).1.PC = (key_chip8.PC + 2) % WORD_RANGE :=
  ⟨by decide,
   (wait_for_key test_env key_chip8 blank_core.sram 0 (by decide) (by decide) (by decide)).2
     0xA (by decide) (by decide) (by decide)⟩

/-! ## Quirk options -/

/-- The store of line 375 keeps the length of the array. -/
theorem quirk_var_length (host : VarHost) (i : Nat) (l : List Bool) :
    (quirk_var host i l).length = l.length := by
  unfold quirk_var
  simp

/-- The array after the store of line 375 for quirk `n`. -/
theorem quirk_var_entry (host : VarHost) (n : Nat) (l : List Bool) (i : Nat) :
    (quirk_var host n l).getD i true =
      if i = n ∧ n < l.length then
        ((!(host.environ_cb (variables_key i)).1 || (host.environ_cb (variables_key i)).2.isNone)
          || ((host.environ_cb (variables_key i)).2 != some "disabled"))
      else l.getD i true := by
  unfold quirk_var FIRST_QUIRK_VARIABLE
  dsimp only
  rw [Nat.add_zero, List.getD_eq_getElem?_getD, List.getD_eq_getElem?_getD]
  by_cases hin : i = n
  · subst hin
    by_cases hl : i < l.length
    · simp [List.getElem?_set, hl]
    · have hge : l.length ≤ i := Nat.le_of_not_lt hl
      simp [List.getElem?_set, hl, List.getElem?_eq_none hge]
  · rw [List.getElem?_set_ne (Ne.symm hin)]
    simp [hin]

/-- The quirk loop run over the first `n` quirks. -/
theorem quirks_upto (host : VarHost) (n : Nat) (l : List Bool) :
    (forLoop (quirk_var host) n l).length = l.length ∧
    ∀ i, i < l.length → (forLoop (quirk_var host) n l).getD i true =
      if i < n then
        ((!(host.environ_cb (variables_key i)).1 || (host.environ_cb (variables_key i)).2.isNone)
          || ((host.environ_cb (variables_key i)).2 != some "disabled"))
      else l.getD i true := by
  induction n with
  | zero => simp [forLoop]
  | succ n ih =>
    obtain ⟨ih1, ih2⟩ := ih
    simp only [forLoop]
    refine ⟨by rw [quirk_var_length, ih1], ?_⟩
    intro i hi
    rw [quirk_var_entry, ih1, ih2 i hi]
    by_cases hin : i = n
    · subst hin
      simp [hi]
    · by_cases hlt : i < n
      · have : i < n + 1 := by omega
        simp [hlt, this, hin]
      · have : ¬ i < n + 1 := by omega
        simp [hlt, this, hin]

/-- The array `quirks` has `NUM_QUIRKS` entries after the loop, and entry `i` is false
exactly when the lookup of option `i` succeeds with the value "disabled". -/
theorem init_quirks_entry (host : VarHost) (i : Nat) (hi : i < NUM_QUIRKS) :
    (init_quirks host).length = NUM_QUIRKS ∧
    ((init_quirks host).getD i true = false ↔
      host.environ_cb (variables_key i) = (true, some "disabled")) := by
  unfold init_quirks
  obtain ⟨h1, h2⟩ := quirks_upto host NUM_QUIRKS
    [true, true, true, true, true, true, true, true, true, true]
  refine ⟨h1, ?_⟩
  rw [h2 i hi, if_pos hi]
  rcases h : host.environ_cb (variables_key i) with ⟨ok, value⟩
  cases ok <;> cases value <;> simp

/-- Claim C21: `chip8_init_with_vars` hands `chip8_init` a configuration of ten
quirks in which quirk `i` is disabled if and only if the lookup of its core
option succeeds with a value that is exactly "disabled"; a lookup that fails, a
`NULL` value or any other string leaves the quirk enabled, so that without
options all ten quirks are enabled. -/
theorem quirk_options (host : VarHost) (g : Core) :
    (chip8_init_with_vars host g).2.quirks.length = 10 ∧
    (∀ i, i < NUM_QUIRKS →
      (((chip8_init_with_vars host g).2.quirks.getD i true = false ↔
          host.environ_cb (variables_key i) = (true, some "disabled")) ∧
       ((host.environ_cb (variables_key i)).1 = false →
          (chip8_init_with_vars host g).2.quirks.getD i true = true) ∧
       ((host.environ_cb (variables_key i)).2 = none →
          (chip8_init_with_vars host g).2.quirks.getD i true = true) ∧
       (∀ v, (host.environ_cb (variables_key i)).2 = some v → v ≠ "disabled" →
          (chip8_init_with_vars host g).2.quirks.getD i true = true))) ∧
    (chip8_init_with_vars no_options g).2.quirks
      = [true, true, true, true, true, true, true, true, true, true] := by
  have hdef : init_quirks no_options
      = [true, true, true, true, true, true, true, true, true, true] := by decide
  refine ⟨(init_quirks_entry host 0 (by decide)).1, ?_, hdef⟩
  intro i hi
  have h := (init_quirks_entry host i hi).2
  have hq : (chip8_init_with_vars host g).2.quirks = init_quirks host := rfl
  rw [hq]
  refine ⟨h, ?_, ?_, ?_⟩
  · intro h1
    cases hb : (init_quirks host).getD i true
    · rw [h.mp hb] at h1
      exact absurd h1 (by simp)
    · rfl
  · intro h1
    cases hb : (init_quirks host).getD i true
    · rw [h.mp hb] at h1
      exact absurd h1 (by simp)
    · rfl
  · intro v h1 h2
    cases hb : (init_quirks host).getD i true
    · rw [h.mp hb] at h1
      simp only [Option.some.injEq] at h1
      exact absurd h1.symm h2
    · rfl

/-- Witness of C21: a host whose only option is the Bnnn quirk set to
"disabled" gets quirk 3 disabled and the nine others enabled. -/
theorem quirk_options_witness :
    3 < NUM_QUIRKS ∧
    bnnn_disabled.environ_cb (variables_key 3) = (true, some "disabled") ∧
    (chip8_init_with_vars bnnn_disabled blank_core).2.quirks
      = [true, true, true, false, true, true, true, true, true, true] ∧
    ((chip8_init_with_vars bnnn_disabled blank_core).2.quirks.getD 3 true = false ↔
      bnnn_disabled.environ_cb (variables_key 3) = (true, some "disabled")) :=
  ⟨by decide, by decide, by decide,
   ((quirk_options bnnn_disabled blank_core).2.1 3 (by decide)).1⟩

/-! ## The output frame -/

/-- The store of line 410. -/
theorem draw_pixel_eq (g : Core) (y x : Nat) (fr : Nat → Nat) :
    draw_pixel g y x fr = Function.update fr (x + y * DISPLAY_WIDTH) (pixel_color g y x) := rfl

/-- One row of `draw_display`, run over the first `n` columns. -/
theorem draw_row (g : Core) (y : Nat) (n : Nat) (s : (Nat → Nat) × List Nat) :
    (∀ idx, (forLoop (fun x s => (draw_pixel g y x s.1, s.2 ++ [x + y * DISPLAY_WIDTH])) n s).1 idx =
      if y * DISPLAY_WIDTH ≤ idx ∧ idx < y * DISPLAY_WIDTH + n
        then pixel_color g y (idx - y * DISPLAY_WIDTH) else s.1 idx) ∧
    (forLoop (fun x s => (draw_pixel g y x s.1, s.2 ++ [x + y * DISPLAY_WIDTH])) n s).2 =
      s.2 ++ (List.range n).map (fun x => x + y * DISPLAY_WIDTH) := by
  induction n with
  | zero =>
    refine ⟨?_, by simp [forLoop]⟩
    intro idx
    have : ¬ (y * DISPLAY_WIDTH ≤ idx ∧ idx < y * DISPLAY_WIDTH + 0) := by omega
    simp only [forLoop, if_neg this]
  | succ n ih =>
    obtain ⟨ih1, ih2⟩ := ih
    simp only [forLoop]
    constructor
    · intro idx
      rw [draw_pixel_eq]
      by_cases h : idx = n + y * DISPLAY_WIDTH
      · subst h
        have c : y * DISPLAY_WIDTH ≤ n + y * DISPLAY_WIDTH ∧
            n + y * DISPLAY_WIDTH < y * DISPLAY_WIDTH + (n + 1) := by omega
        rw [Function.update_same, if_pos c, Nat.add_sub_cancel]
      · rw [Function.update_noteq h, ih1]
        by_cases c : y * DISPLAY_WIDTH ≤ idx ∧ idx < y * DISPLAY_WIDTH + n
        · have c' : y * DISPLAY_WIDTH ≤ idx ∧ idx < y * DISPLAY_WIDTH + (n + 1) := by omega
          rw [if_pos c, if_pos c']
        · have c' : ¬ (y * DISPLAY_WIDTH ≤ idx ∧ idx < y * DISPLAY_WIDTH + (n + 1)) := by omega
          rw [if_neg c, if_neg c']
    · rw [ih2, List.range_succ, List.map_append, List.append_assoc]
      rfl

/-- The first `m` rows of `draw_display`, each `w = DISPLAY_WIDTH` pixels wide. -/
theorem draw_rows (g : Core) (w : Nat) (hw : w = DISPLAY_WIDTH) (m : Nat)
    (s : (Nat → Nat) × List Nat) :
    (∀ idx, (forLoop (fun y s => forLoop
        (fun x s => (draw_pixel g y x s.1, s.2 ++ [x + y * DISPLAY_WIDTH])) w s) m s).1 idx =
      if idx < m * w
        then pixel_color g (idx / w) (idx % w) else s.1 idx) ∧
    (forLoop (fun y s => forLoop
        (fun x s => (draw_pixel g y x s.1, s.2 ++ [x + y * DISPLAY_WIDTH])) w s) m s).2 =
      s.2 ++ List.range (m * w) := by
  induction m with
  | zero =>
    refine ⟨?_, by rw [Nat.zero_mul]; simp [forLoop]⟩
    intro idx
    have : ¬ idx < 0 * w := by omega
    simp only [forLoop, if_neg this]
  | succ m ih =>
    obtain ⟨ih1, ih2⟩ := ih
    simp only [forLoop]
    obtain ⟨r1, r2⟩ := draw_row g m w (forLoop (fun y s => forLoop
        (fun x s => (draw_pixel g y x s.1, s.2 ++ [x + y * DISPLAY_WIDTH])) w s) m s)
    have hw' : w = 128 := hw
    constructor
    · intro idx
      rw [r1, ih1]
      unfold DISPLAY_WIDTH
      subst hw'
      by_cases c : m * 128 ≤ idx ∧ idx < m * 128 + 128
      · have c' : idx < (m + 1) * 128 := by omega
        have e1 : idx / 128 = m := by omega
        have e2 : idx % 128 = idx - m * 128 := by omega
        rw [if_pos c, if_pos c', e1, e2]
      · rw [if_neg c]
        by_cases c2 : idx < m * 128
        · have c' : idx < (m + 1) * 128 := by omega
          rw [if_pos c2, if_pos c']
        · have c' : ¬ idx < (m + 1) * 128 := by omega
          rw [if_neg c2, if_neg c']
    · rw [r2, ih2, List.append_assoc]
      congr 1
      rw [Nat.succ_mul, List.range_add]
      congr 1
      apply List.map_congr_left
      intro a _
      rw [hw]
      omega

/-- Recording the stores of a row does not change the frame. -/
theorem draw_row_frame (g : Core) (y n : Nat) (s : (Nat → Nat) × List Nat) :
    (forLoop (fun x s => (draw_pixel g y x s.1, s.2 ++ [x + y * DISPLAY_WIDTH])) n s).1 =
      forLoop (fun x fr => draw_pixel g y x fr) n s.1 := by
  induction n with
  | zero => rfl
  | succ n ih => simp only [forLoop, ih]

/-- Recording the stores of the rows does not change the frame. -/
theorem draw_rows_frame (g : Core) (w m : Nat) (s : (Nat → Nat) × List Nat) :
    (forLoop (fun y s => forLoop
        (fun x s => (draw_pixel g y x s.1, s.2 ++ [x + y * DISPLAY_WIDTH])) w s) m s).1 =
      forLoop (fun y fr => forLoop (fun x fr => draw_pixel g y x fr) w fr) m s.1 := by
  induction m with
  | zero => rfl
  | succ m ih => simp only [forLoop, draw_row_frame, ih]

/-- The frame of `draw_display_stores` is the frame of `draw_display`. -/
theorem draw_display_stores_frame (g : Core) :
    (draw_display_stores g).1 = (draw_display g).frame :=
  draw_rows_frame g DISPLAY_WIDTH DISPLAY_HEIGHT (g.frame, [])

/-- Every cell of the frame after `draw_display`. -/
theorem draw_display_frame (g : Core) (idx : Nat) :
    (draw_display g).frame idx =
      if idx < DISPLAY_HEIGHT * DISPLAY_WIDTH
        then pixel_color g (idx / DISPLAY_WIDTH) (idx % DISPLAY_WIDTH) else g.frame idx := by
  rw [← draw_display_stores_frame]
  exact (draw_rows g DISPLAY_WIDTH rfl DISPLAY_HEIGHT (g.frame, [])).1 idx

/-- Claim C22: for every `(x, y)` in the 128x64 grid the index
`x + y * DISPLAY_WIDTH` lies inside the frame and after `draw_display` the cell
holds `bg_color` when both plane bits are 0, `p1_color` when only
`display[y][x]` is set, `p2_color` when only `display2[y][x]` is set and
`overlap_color` when both are; the stores of the loops go to the indices
`0, 1, ..., 8191` in this order, each cell being written exactly once. -/
theorem draw_display_overlay (g : Core) :
    (∀ x y, x < DISPLAY_WIDTH → y < DISPLAY_HEIGHT →
      x + y * DISPLAY_WIDTH < DISPLAY_WIDTH * DISPLAY_HEIGHT ∧
      (draw_display g).frame (x + y * DISPLAY_WIDTH) =
        (if g.chip8.display y x = false ∧ g.chip8.display2 y x = false then g.bg_color
         else if g.chip8.display y x = true ∧ g.chip8.display2 y x = false then g.p1_color
         else if g.chip8.display y x = false ∧ g.chip8.display2 y x = true then g.p2_color
         else g.overlap_color)) ∧
    (draw_display_stores g).1 = (draw_display g).frame ∧
    (draw_display_stores g).2 = List.range (DISPLAY_WIDTH * DISPLAY_HEIGHT) := by
  refine ⟨?_, draw_display_stores_frame g, ?_⟩
  · intro x y hx hy
    have hlt : x + y * DISPLAY_WIDTH < DISPLAY_HEIGHT * DISPLAY_WIDTH := by
      unfold DISPLAY_WIDTH DISPLAY_HEIGHT at *
      omega
    refine ⟨by rw [Nat.mul_comm DISPLAY_WIDTH DISPLAY_HEIGHT]; exact hlt, ?_⟩
    have e1 : (x + y * DISPLAY_WIDTH) / DISPLAY_WIDTH = y := by
      unfold DISPLAY_WIDTH at *
      omega
    have e2 : (x + y * DISPLAY_WIDTH) % DISPLAY_WIDTH = x := by
      unfold DISPLAY_WIDTH at *
      omega
    rw [draw_display_frame, if_pos hlt, e1, e2]
    unfold pixel_color
    cases g.chip8.display y x <;> cases g.chip8.display2 y x <;> simp
  · have h := (draw_rows g DISPLAY_WIDTH rfl DISPLAY_HEIGHT (g.frame, [])).2
    unfold draw_display_stores
    rw [h, Nat.mul_comm DISPLAY_WIDTH DISPLAY_HEIGHT]
    simp

/-- Witness of C22: with both planes lit at `(5, 2)` and only plane 2 lit at
`(4, 2)`, the cells get the overlap colour and the colour of plane 2. -/
theorem draw_display_overlay_witness :
    (5 < DISPLAY_WIDTH ∧ 2 < DISPLAY_HEIGHT) ∧
    (draw_display planes_core).frame (5 + 2 * DISPLAY_WIDTH) = planes_core.overlap_color ∧
    (draw_display planes_core).frame (4 + 2 * DISPLAY_WIDTH) = planes_core.p2_color :=
  ⟨by decide,
   ((draw_display_overlay planes_core).1 5 2 (by decide) (by decide)).2.trans (by decide),
   ((draw_display_overlay planes_core).1 4 2 (by decide) (by decide)).2.trans (by decide)⟩

/-! ## The key state machine -/

/-- Claim C24: after the key poll of `retro_run` (default build) a key `i` in
`0..15` is DOWN iff its button is pressed, RELEASED iff the button is not
pressed and the key was DOWN before the poll, and UP otherwise; consequently,
when nothing else writes the keypad between two consecutive polls, the key is
not RELEASED after both of them, and RELEASED after a poll only follows DOWN
after the poll before. -/
theorem poll_key_states (cb cb2 : Nat → Bool) (c : CHIP8) (i : Nat) (hi : i < 16) :
    ((poll_keys cb c).keypad i = KeyState.KEY_DOWN ↔ cb (hexorder_at i) = true) ∧
    ((poll_keys cb c).keypad i = KeyState.KEY_RELEASED ↔
      (cb (hexorder_at i) = false ∧ c.keypad i = KeyState.KEY_DOWN)) ∧
    ((poll_keys cb c).keypad i = KeyState.KEY_UP ↔
      (cb (hexorder_at i) = false ∧ c.keypad i ≠ KeyState.KEY_DOWN)) ∧
    ¬ ((poll_keys cb c).keypad i = KeyState.KEY_RELEASED ∧
        (poll_keys cb2 (poll_keys cb c)).keypad i = KeyState.KEY_RELEASED) ∧
    ((poll_keys cb2 (poll_keys cb c)).keypad i = KeyState.KEY_RELEASED →
      (poll_keys cb c).keypad i = KeyState.KEY_DOWN) := by
  have key : ∀ (f : Nat → Bool) (d : CHIP8),
      ((poll_keys f d).keypad i = KeyState.KEY_DOWN ↔ f (hexorder_at i) = true) ∧
      ((poll_keys f d).keypad i = KeyState.KEY_RELEASED ↔
        (f (hexorder_at i) = false ∧ d.keypad i = KeyState.KEY_DOWN)) ∧
      ((poll_keys f d).keypad i = KeyState.KEY_UP ↔
        (f (hexorder_at i) = false ∧ d.keypad i ≠ KeyState.KEY_DOWN)) := by
    intro f d
    rw [poll_keys_keypad f d i hi]
    by_cases hp : f (hexorder_at i) = true
    · simp [hp]
    · by_cases hd : d.keypad i = KeyState.KEY_DOWN
      · simp [hp, hd]
      · simp [hp, hd]
  obtain ⟨k1, k2, k3⟩ := key cb c
  obtain ⟨-, m2, -⟩ := key cb2 (poll_keys cb c)
  refine ⟨k1, k2, k3, ?_, fun h => (m2.mp h).2⟩
  rintro ⟨h1, h2⟩
  have h3 := (m2.mp h2).2
  rw [h1] at h3
  exact absurd h3 (by decide)

/-- Witness of C24: key 5 pressed at one poll and let go at the next is DOWN,
then RELEASED; a key that is RELEASED and stays unpressed is not RELEASED after
both of the next two polls. -/
theorem poll_key_states_witness :
    (5 : Nat) < 16 ∧
    (poll_keys (fun b => decide (b = hexorder_at 5)) blank_chip8).keypad 5 = KeyState.KEY_DOWN ∧
    (poll_keys idle_input.input_state_cb
      (poll_keys (fun b => decide (b = hexorder_at 5)) blank_chip8)).keypad 5
        = KeyState.KEY_RELEASED ∧
    ¬ ((poll_keys idle_input.input_state_cb released_chip8).keypad 5 = KeyState.KEY_RELEASED ∧
        (poll_keys idle_input.input_state_cb
          (poll_keys idle_input.input_state_cb released_chip8)).keypad 5
            = KeyState.KEY_RELEASED) :=
  ⟨by decide, by decide, by decide,
   (poll_key_states idle_input.input_state_cb idle_input.input_state_cb released_chip8 5
     (by decide)).2.2.2.1⟩

/-! ## The beep relation -/

/-- Claim C25: the end-of-frame timer tick (`timer_freq == refresh_freq`)
preserves the relation `beep = (ST > 0)`: if it holds before the tick it holds
after it, for every value of `ST` and `DT`. -/
theorem timer_tick_keeps_beep (c : CHIP8) (hf : c.timer_freq = c.refresh_freq)
    (h : c.beep = decide (0 < c.ST)) :
    (frame_timers c).beep = decide (0 < (frame_timers c).ST) := by
  unfold frame_timers
  by_cases hd : 0 < c.DT <;> by_cases h0 : 0 < c.ST
  · simp [hf, hd, h0]
  · simp [hf, hd, h0, h]
  · simp [hf, hd, h0]
  · simp [hf, hd, h0, h]

/-- Witness of C25: the tick of a state with `ST = 3` and `beep` set leaves
`ST = 2` and `beep` set. -/
theorem timer_tick_keeps_beep_witness :
    sounding_chip8.timer_freq = sounding_chip8.refresh_freq ∧
    sounding_chip8.beep = decide (0 < sounding_chip8.ST) ∧
    (frame_timers sounding_chip8).ST = 2 ∧
    (frame_timers sounding_chip8).beep = decide (0 < (frame_timers sounding_chip8).ST) :=
  ⟨by decide, by decide, by decide, timer_tick_keeps_beep sounding_chip8 (by decide) (by decide)⟩

/-! ## User flags: the result -/

/-- Claim C27: `chip8_handle_user_flags` never reports failure: for every
count `num_flags` (the callers pass the number of registers, `x + 1`) and both
directions it returns true; when `num_flags > NUM_USER_FLAGS` it copies nothing
(neither `V` nor the stored flags change); a save never modifies the emulator
and a restore never modifies the stored flags. -/
theorem user_flags_never_fail (c : CHIP8) (sram : Nat → Nat) (num_flags : Nat) (save : Bool) :
    ∃ c' sram', chip8_handle_user_flags c sram (num_flags : Int) save = some (true, c', sram') ∧
      (NUM_USER_FLAGS < num_flags → c' = c ∧ sram' = sram) ∧
      (save = true → c' = c) ∧ (save = false → sram' = sram) := by
  have hneg : ¬ ((num_flags : Nat) : Int) < 0 := by omega
  unfold chip8_handle_user_flags
  by_cases hle : ((num_flags : Nat) : Int) ≤ ((NUM_USER_FLAGS : Nat) : Int)
  · have hgt : ¬ NUM_USER_FLAGS < num_flags := by omega
    cases save
    · refine ⟨{ c with V := memcpy c.V sram ((num_flags : Nat) : Int).toNat }, sram, ?_, ?_, ?_, ?_⟩
      · simp [hle]
      · intro h; exact absurd h hgt
      · intro h; exact absurd h (by simp)
      · intro _; rfl
    · refine ⟨c, memcpy sram c.V ((num_flags : Nat) : Int).toNat, ?_, ?_, ?_, ?_⟩
      · simp [hle]
      · intro h; exact absurd h hgt
      · intro _; rfl
      · intro h; exact absurd h (by simp)
  · refine ⟨c, sram, ?_, ?_, ?_, ?_⟩
    · simp [hle]
    · intro _; exact ⟨rfl, rfl⟩
    · intro _; rfl
    · intro _; rfl

/-- Witness of C27: a save of 17 flags returns true and copies nothing; a
restore of 3 flags returns true and leaves the stored flags alone. -/
theorem user_flags_never_fail_witness :
    (∃ c' sram', chip8_handle_user_flags flags_chip8 blank_core.sram ((17 : Nat) : Int) true
        = some (true, c', sram') ∧
      (NUM_USER_FLAGS < 17 → c' = flags_chip8 ∧ sram' = blank_core.sram) ∧
      (true = true → c' = flags_chip8) ∧ (true = false → sram' = blank_core.sram)) ∧
    (∃ c' sram', chip8_handle_user_flags flags_chip8 blank_core.sram ((3 : Nat) : Int) false
        = some (true, c', sram') ∧
      (NUM_USER_FLAGS < 3 → c' = flags_chip8 ∧ sram' = blank_core.sram) ∧
      (false = true → c' = flags_chip8) ∧ (false = false → sram' = blank_core.sram)) :=
  ⟨user_flags_never_fail flags_chip8 blank_core.sram 17 true,
   user_flags_never_fail flags_chip8 blank_core.sram 3 false⟩

/-! ## The rewind ring -/

/-- With the pointer in `0..999`, `dbg_stack_push` has a defined result: the
pointer moves up by one, from 999 to 0, and the emulator is stored in the new
slot. -/
theorem dbg_stack_push_in_range (s : Sdl) (h0 : 0 ≤ s.dbg_stack_pntr)
    (h1 : s.dbg_stack_pntr < (DBG_STACK_MAX : Int)) :
    ∃ p : Nat, (p : Int) = (if s.dbg_stack_pntr = 999 then 0 else s.dbg_stack_pntr + 1) ∧
      p < DBG_STACK_MAX ∧
      dbg_stack_push s =
        some { s with dbg_stack_pntr := (p : Int), dbg_stack := Function.update s.dbg_stack p s.chip8 } := by
  unfold DBG_STACK_MAX at *
  have hmax : ¬ INT_MAX ≤ s.dbg_stack_pntr := by unfold INT_MAX; omega
  by_cases h9 : s.dbg_stack_pntr = 999
  · refine ⟨0, by rw [if_pos h9]; rfl, by decide, ?_⟩
    have hge : ((1000 : Nat) : Int) ≤ s.dbg_stack_pntr + 1 := by omega
    have hnn : ¬ (0 : Int) < 0 := by omega
    unfold dbg_stack_push DBG_STACK_MAX
    simp only [if_neg hmax, if_pos hge, if_neg hnn]
    rfl
  · refine ⟨(s.dbg_stack_pntr + 1).toNat, ?_, ?_, ?_⟩
    · rw [if_neg h9]; omega
    · omega
    · have e : (((s.dbg_stack_pntr + 1).toNat : Nat) : Int) = s.dbg_stack_pntr + 1 := by omega
      have hlt : ¬ ((1000 : Nat) : Int) ≤ s.dbg_stack_pntr + 1 := by omega
      have hnn : ¬ s.dbg_stack_pntr + 1 < 0 := by omega
      unfold dbg_stack_push DBG_STACK_MAX
      simp only [if_neg hmax, if_neg hlt, if_neg hnn, e]

/-- With the pointer in `0..999`, `dbg_stack_pop` has a defined result: the
pointer moves down by one, from 0 to 999, and the emulator becomes the content
of the new slot. -/
theorem dbg_stack_pop_in_range (s : Sdl) (h0 : 0 ≤ s.dbg_stack_pntr)
    (h1 : s.dbg_stack_pntr < (DBG_STACK_MAX : Int)) :
    ∃ p : Nat, (p : Int) = (if s.dbg_stack_pntr = 0 then 999 else s.dbg_stack_pntr - 1) ∧
      p < DBG_STACK_MAX ∧
      dbg_stack_pop s =
        some { s with
          dbg_stack_pntr := (p : Int), chip8 := s.dbg_stack p, dbg_step := true,
          dbg_step_back := true } := by
  unfold DBG_STACK_MAX at *
  have hmin : ¬ s.dbg_stack_pntr ≤ INT_MIN := by unfold INT_MIN; omega
  by_cases hz : s.dbg_stack_pntr = 0
  · refine ⟨999, by rw [if_pos hz]; rfl, by decide, ?_⟩
    have hneg : s.dbg_stack_pntr - 1 < 0 := by omega
    have hlt : ¬ ((1000 : Nat) : Int) ≤ ((1000 : Nat) : Int) - 1 := by omega
    unfold dbg_stack_pop DBG_STACK_MAX
    simp only [if_neg hmin, if_pos hneg, if_neg hlt]
    rfl
  · refine ⟨(s.dbg_stack_pntr - 1).toNat, ?_, ?_, ?_⟩
    · rw [if_neg hz]; omega
    · omega
    · have e : (((s.dbg_stack_pntr - 1).toNat : Nat) : Int) = s.dbg_stack_pntr - 1 := by omega
      have hnn : ¬ s.dbg_stack_pntr - 1 < 0 := by omega
      have hlt : ¬ ((1000 : Nat) : Int) ≤ s.dbg_stack_pntr - 1 := by omega
      unfold dbg_stack_pop DBG_STACK_MAX
      simp only [if_neg hmin, if_neg hnn, if_neg hlt, e]

/-- One operation keeps the pointer in `0..999`. -/
theorem dbg_apply_in_range (op : DbgOp) (s : Sdl) (h0 : 0 ≤ s.dbg_stack_pntr)
    (h1 : s.dbg_stack_pntr < (DBG_STACK_MAX : Int)) :
    ∃ s', dbg_apply op s = some s' ∧ 0 ≤ s'.dbg_stack_pntr ∧
      s'.dbg_stack_pntr < (DBG_STACK_MAX : Int) := by
  cases op with
  | push =>
    obtain ⟨p, -, hp, h⟩ := dbg_stack_push_in_range s h0 h1
    exact ⟨_, h, Int.ofNat_nonneg p, Int.ofNat_lt.mpr hp⟩
  | pop =>
    obtain ⟨p, -, hp, h⟩ := dbg_stack_pop_in_range s h0 h1
    exact ⟨_, h, Int.ofNat_nonneg p, Int.ofNat_lt.mpr hp⟩
  | cycle c => exact ⟨_, rfl, h0, h1⟩

/-- Any sequence of operations keeps the pointer in `0..999`. -/
theorem dbg_run_in_range (ops : List DbgOp) :
    ∀ s : Sdl, 0 ≤ s.dbg_stack_pntr → s.dbg_stack_pntr < (DBG_STACK_MAX : Int) →
      ∃ s', dbg_run ops s = some s' ∧ 0 ≤ s'.dbg_stack_pntr ∧
        s'.dbg_stack_pntr < (DBG_STACK_MAX : Int) := by
  induction ops with
  | nil => intro s h0 h1; exact ⟨s, rfl, h0, h1⟩
  | cons op ops ih =>
    intro s h0 h1
    obtain ⟨s1, e1, a0, a1⟩ := dbg_apply_in_range op s h0 h1
    obtain ⟨s2, e2, b0, b1⟩ := ih s1 a0 a1
    refine ⟨s2, ?_, b0, b1⟩
    simp only [dbg_run, e1, e2]

/-- A pop directly after a push: the pointer is back where it was, the
emulator is the content of that slot, and only the slot above changed. -/
theorem dbg_push_pop (s : Sdl) (h0 : 0 ≤ s.dbg_stack_pntr)
    (h1 : s.dbg_stack_pntr < (DBG_STACK_MAX : Int)) :
    ∃ s', dbg_run [DbgOp.push, DbgOp.pop] s = some s' ∧
      s'.dbg_stack_pntr = s.dbg_stack_pntr ∧
      s'.chip8 = s.dbg_stack s.dbg_stack_pntr.toNat ∧
      ∀ i, i ≠ (if s.dbg_stack_pntr = 999 then 0 else s.dbg_stack_pntr.toNat + 1) →
        s'.dbg_stack i = s.dbg_stack i := by
  obtain ⟨p, hp, hpr, hpush⟩ := dbg_stack_push_in_range s h0 h1
  obtain ⟨q, hq, hqr, hpop⟩ := dbg_stack_pop_in_range
    { s with dbg_stack_pntr := (p : Int), dbg_stack := Function.update s.dbg_stack p s.chip8 }
    (Int.ofNat_nonneg p) (Int.ofNat_lt.mpr hpr)
  dsimp only at hq hpop
  unfold DBG_STACK_MAX at *
  have hqs : (q : Int) = s.dbg_stack_pntr := by
    rw [hq, hp]
    split <;> split <;> omega
  have hqn : q = s.dbg_stack_pntr.toNat := by omega
  have hne : q ≠ p := by
    have : (q : Int) ≠ (p : Int) := by
      rw [hqs, hp]
      split <;> omega
    exact_mod_cast this
  have hrun : dbg_run [DbgOp.push, DbgOp.pop] s = dbg_stack_pop
      { s with dbg_stack_pntr := (p : Int), dbg_stack := Function.update s.dbg_stack p s.chip8 } := by
    simp only [dbg_run, dbg_apply, hpush]
    cases dbg_stack_pop
      { s with dbg_stack_pntr := (p : Int), dbg_stack := Function.update s.dbg_stack p s.chip8 }
      <;> rfl
  rw [hpop] at hrun
  refine ⟨_, hrun, hqs, ?_, ?_⟩
  · show Function.update s.dbg_stack p s.chip8 q = s.dbg_stack s.dbg_stack_pntr.toNat
    rw [Function.update_noteq hne, hqn]
  · intro i hi
    show Function.update s.dbg_stack p s.chip8 i = s.dbg_stack i
    have : i ≠ p := by
      intro h
      apply hi
      subst h
      split <;> omega
    rw [Function.update_noteq this]

/-- The slots after the first `n` rounds of the loop of `init_emulator`. -/
theorem init_slots (c : CHIP8) (n : Nat) (st : Nat → CHIP8) (j : Nat) :
    forLoop (fun i st => Function.update st i c) n st j = if j < n then c else st j := by
  induction n with
  | zero => simp [forLoop]
  | succ n ih =>
    simp only [forLoop]
    by_cases h : j = n
    · subst h
      simp
    · rw [Function.update_noteq h, ih]
      by_cases hlt : j < n
      · have : j < n + 1 := by omega
        simp [hlt, this]
      · have : ¬ j < n + 1 := by omega
        simp [hlt, this]

/-- Claim C28: from a pointer in `0..DBG_STACK_MAX-1`, any sequence of
`dbg_stack_push` and `dbg_stack_pop` (with the emulator running in between)
keeps `dbg_stack_pntr` in that range, a push wrapping 999 to 0 and a pop
wrapping 0 to 999; a pop directly after a push brings the pointer back to its
value before the push and sets the emulator to the snapshot stored in that
slot, which is the state recorded by the push before the last one, or the
initial emulator when `init_emulator` filled the stack and nothing was pushed
before. -/
theorem rewind_ring (s : Sdl) (h0 : 0 ≤ s.dbg_stack_pntr)
    (h1 : s.dbg_stack_pntr < (DBG_STACK_MAX : Int)) :
    (∀ ops, ∃ s', dbg_run ops s = some s' ∧ 0 ≤ s'.dbg_stack_pntr ∧
      s'.dbg_stack_pntr ≤ (DBG_STACK_MAX : Int) - 1) ∧
    (∃ s', dbg_stack_push s = some s' ∧
      s'.dbg_stack_pntr = (if s.dbg_stack_pntr = 999 then 0 else s.dbg_stack_pntr + 1)) ∧
    (∃ s', dbg_stack_pop s = some s' ∧
      s'.dbg_stack_pntr = (if s.dbg_stack_pntr = 0 then 999 else s.dbg_stack_pntr - 1)) ∧
    (∃ s', dbg_run [DbgOp.push, DbgOp.pop] s = some s' ∧
      s'.dbg_stack_pntr = s.dbg_stack_pntr ∧
      s'.chip8 = s.dbg_stack s.dbg_stack_pntr.toNat) ∧
    (∀ c1 c2, ∃ s', dbg_run
        [DbgOp.cycle c1, DbgOp.push, DbgOp.cycle c2, DbgOp.push, DbgOp.pop] s = some s' ∧
      s'.chip8 = c1) ∧
    (∀ c, ∃ s', dbg_run [DbgOp.cycle c, DbgOp.push, DbgOp.pop] (init_dbg_stack s) = some s' ∧
      s'.chip8 = s.chip8) := by
  refine ⟨?_, ?_, ?_, ?_, ?_, ?_⟩
  · intro ops
    obtain ⟨s', e, a, b⟩ := dbg_run_in_range ops s h0 h1
    exact ⟨s', e, a, by omega⟩
  · obtain ⟨p, hp, -, h⟩ := dbg_stack_push_in_range s h0 h1
    exact ⟨_, h, hp⟩
  · obtain ⟨p, hp, -, h⟩ := dbg_stack_pop_in_range s h0 h1
    exact ⟨_, h, hp⟩
  · obtain ⟨s', e, a, b, -⟩ := dbg_push_pop s h0 h1
    exact ⟨s', e, a, b⟩
  · intro c1 c2
    obtain ⟨p, hp, hpr, hpush⟩ := dbg_stack_push_in_range { s with chip8 := c1 } h0 h1
    obtain ⟨s', e, a, b, -⟩ := dbg_push_pop
      { s with chip8 := c2, dbg_stack_pntr := (p : Int),
               dbg_stack := Function.update s.dbg_stack p c1 }
      (Int.ofNat_nonneg p) (Int.ofNat_lt.mpr hpr)
    refine ⟨s', ?_, ?_⟩
    · simp only [dbg_run, dbg_apply, hpush]
      exact e
    · rw [b]
      show Function.update s.dbg_stack p c1 ((p : Int).toNat) = c1
      rw [Int.toNat_ofNat, Function.update_same]
  · intro c
    obtain ⟨s', e, a, b, -⟩ := dbg_push_pop { init_dbg_stack s with chip8 := c } h0 h1
    refine ⟨s', ?_, ?_⟩
    · simp only [dbg_run, dbg_apply]
      exact e
    · rw [b]
      show forLoop (fun i st => Function.update st i s.chip8) DBG_STACK_MAX s.dbg_stack
        s.dbg_stack_pntr.toNat = s.chip8
      rw [init_slots, if_pos]
      unfold DBG_STACK_MAX at *
      omega

/-- Witness of C28: from the initial statics a pop wraps the pointer to 999
and a push brings it back to 0; after two pushes of the states at `0x202` and
`0x204`, a pop goes back to the state at `0x202`. -/
theorem rewind_ring_witness :
    (0 : Int) ≤ blank_sdl.dbg_stack_pntr ∧ blank_sdl.dbg_stack_pntr < (DBG_STACK_MAX : Int) ∧
    dbg_summary (dbg_run [DbgOp.pop] blank_sdl) = some (999, 0x200, 0) ∧
    dbg_summary (dbg_run [DbgOp.pop, DbgOp.push] blank_sdl) = some (0, 0x200, 0) ∧
    dbg_summary (dbg_run
      [DbgOp.cycle { blank_chip8 with PC := 0x202 }, DbgOp.push,
       DbgOp.cycle { blank_chip8 with PC := 0x204 }, DbgOp.push, DbgOp.pop] blank_sdl)
      = some (1, 0x202, 0) ∧
    ∃ s', dbg_run [DbgOp.push, DbgOp.pop] blank_sdl = some s' ∧
      s'.dbg_stack_pntr = blank_sdl.dbg_stack_pntr ∧
      s'.chip8 = blank_sdl.dbg_stack blank_sdl.dbg_stack_pntr.toNat :=
  ⟨by decide, by decide, by decide, by decide, by decide,
   (rewind_ring blank_sdl (by decide) (by decide)).2.2.2.1⟩

/-! ## The keyboard map -/

/-- A key code outside the sixteen cases falls to the `default` case. -/
theorem SDLK_to_hex_unmapped (key : Int) (h : key ∉ mapped_keys) : SDLK_to_hex key = BAD_KEY := by
  simp only [mapped_keys, List.mem_cons, List.mem_singleton, List.not_mem_nil, or_false,
    not_or] at h
  obtain ⟨a1, a2, a3, a4, a5, a6, a7, a8, a9, a10, a11, a12, a13, a14, a15, a16⟩ := h
  unfold SDLK_to_hex
  simp only [a1, a2, a3, a4, a5, a6, a7, a8, a9, a10, a11, a12, a13, a14, a15, a16, if_false]

/-- `SDLK_to_hex` returns a keypad index or `BAD_KEY`. -/
theorem SDLK_to_hex_range (key : Int) : SDLK_to_hex key < 16 ∨ SDLK_to_hex key = BAD_KEY := by
  by_cases h : key ∈ mapped_keys
  · have hall : ∀ k ∈ mapped_keys, SDLK_to_hex k < 16 := by decide
    exact Or.inl (hall key h)
  · exact Or.inr (SDLK_to_hex_unmapped key h)

/-- A recorded store at a keypad index keeps all recorded indices below 16. -/
theorem store_key_stores (hexkey : Nat) (st : KeyState) (s : Sdl) (stores : List KeyStore)
    (hr : hexkey < 16)
    (hs : ∀ w ∈ stores, w.index < 16) :
    ∀ w ∈ (store_key hexkey st s stores).2, w.index < 16 := by
  intro w hw
  unfold store_key at hw
  rcases List.mem_append.mp hw with h | h
  · exact hs w h
  · simp only [List.mem_singleton] at h
    subst h
    exact hr

/-- Every store `handle_input` makes to `chip8.keypad` is at an index below
16. -/
theorem handle_input_stores (ops : Chip8Ops) (events : List SDL_Event) :
    ∀ (s : Sdl) (stores : List KeyStore) (r : InputResult),
      (∀ w ∈ stores, w.index < 16) → handle_input ops events s stores = some r →
      ∀ w ∈ r.stores, w.index < 16 := by
  induction events with
  | nil =>
    intro s stores r hs h
    simp only [handle_input, Option.some.injEq] at h
    rw [← h]
    exact hs
  | cons e es ih =>
    intro s stores r hs h
    cases e with
    | quit =>
      simp only [handle_input, Option.some.injEq] at h
      rw [← h]
      exact hs
    | keyup sym =>
      simp only [handle_input] at h
      by_cases hb : SDLK_to_hex sym ≠ BAD_KEY
      · rw [if_pos hb] at h
        simp only [Option.some.injEq] at h
        rw [← h]
        have hr : SDLK_to_hex sym < 16 := by
          rcases SDLK_to_hex_range sym with h1 | h1
          · exact h1
          · exact absurd h1 hb
        exact store_key_stores _ _ s stores hr hs
      · rw [if_neg hb] at h
        split at h
        · exact absurd h (by simp)
        · exact ih _ _ _ hs h
    | keydown sym =>
      simp only [handle_input] at h
      by_cases hb : SDLK_to_hex sym ≠ BAD_KEY
      · rw [if_pos hb] at h
        have hr : SDLK_to_hex sym < 16 := by
          rcases SDLK_to_hex_range sym with h1 | h1
          · exact h1
          · exact absurd h1 hb
        exact ih _ _ _ (store_key_stores _ _ s stores hr hs) h
      · rw [if_neg hb] at h
        exact ih _ _ _ hs h
    | other =>
      simp only [handle_input] at h
      exact ih _ _ _ hs h

/-- Claim C29: `SDLK_to_hex` maps the sixteen keys `1 2 3 4 / q w e r /
a s d f / z x c v` to the keypad values `1 2 3 C / 4 5 6 D / 7 8 9 E / A 0 B F`
in this order; the keys are sixteen different codes, every value in `0x0..0xF`
is the image of exactly one of them, and every other key code gives `BAD_KEY`,
which is `0x42` and not a keypad index; so every store of `handle_input` to
`chip8.keypad` is at an index in `0..15`. -/
theorem SDLK_to_hex_bijection :
    mapped_keys.map SDLK_to_hex = keypad_layout ∧
    mapped_keys.length = 16 ∧ mapped_keys.Nodup ∧
    (∀ k ∈ mapped_keys, SDLK_to_hex k < 16) ∧
    (∀ h, h < 16 → ∃ k ∈ mapped_keys, SDLK_to_hex k = h ∧
      ∀ k2 ∈ mapped_keys, SDLK_to_hex k2 = h → k2 = k) ∧
    (∀ k, k ∉ mapped_keys → SDLK_to_hex k = BAD_KEY) ∧
    BAD_KEY = 0x42 ∧ ¬ BAD_KEY < 16 ∧
    (∀ ops events s r, handle_input ops events s [] = some r →
      ∀ w ∈ r.stores, w.index < 16) := by
  refine ⟨by decide, by decide, by decide, by decide, by decide, SDLK_to_hex_unmapped, rfl,
    by decide, ?_⟩
  intro ops events s r h
  exact handle_input_stores ops events s [] r (by intro w hw; simp at hw) h

/-- Witness of C29: `w` is key 5 and the space bar is no keypad key; `w` going
down and up stores DOWN and RELEASED at index 5 and returns with one event
left in the queue. -/
theorem SDLK_to_hex_bijection_witness :
    SDLK_to_hex SDLK_w = 0x5 ∧ SDLK_to_hex SDLK_SPACE = BAD_KEY ∧
    input_summary (handle_input idle_ops
      [SDL_Event.keydown SDLK_w, SDL_Event.keydown SDLK_SPACE, SDL_Event.keyup SDLK_w,
       SDL_Event.other] blank_sdl [])
      = some (true, 1, [⟨5, KeyState.KEY_DOWN⟩, ⟨5, KeyState.KEY_RELEASED⟩]) ∧
    ∀ r, handle_input idle_ops [SDL_Event.keydown SDLK_w, SDL_Event.keyup SDLK_RETURN] blank_sdl []
      = some r → ∀ w ∈ r.stores, w.index < 16 :=
  ⟨by decide, by decide, by decide,
   SDLK_to_hex_bijection.2.2.2.2.2.2.2.2 idle_ops
     [SDL_Event.keydown SDLK_w, SDL_Event.keyup SDLK_RETURN] blank_sdl⟩

/-! ## The resampler: frames handed over -/

/-- Queueing one more stereo frame of the sample `s`. -/
theorem replicate_two_more (k : Nat) (s : Int) :
    List.replicate (2 * k) s ++ [s, s] = List.replicate (2 * (k + 1)) s := by
  have e : 2 * (k + 1) = 2 * k + 2 := by omega
  rw [e, List.replicate_add]
  rfl

/-- The loop of `audio_sample` with `k < 100` frames queued. -/
theorem audio_sample_loop_frames (q : Nat) (s : Int) (hq : 0 < q) :
    ∀ (fuel c k : Nat) (out : List Batch), c / q < fuel → k < 100 →
      ∃ k' out', audio_sample_loop q s fuel c (List.replicate (2 * k) s) out
          = some (c % q, List.replicate (2 * k') s, out') ∧
        k' < 100 ∧
        (out'.map Batch.frames).sum + k' = (out.map Batch.frames).sum + k + c / q ∧
        ∀ b ∈ out', b ∈ out ∨ (b.frames = 100 ∧ b.data = List.replicate 200 s) := by
  intro fuel
  induction fuel with
  | zero => intro c k out h; exact absurd h (Nat.not_lt_zero _)
  | succ n ih =>
    intro c k out h hk
    unfold audio_sample_loop
    by_cases hc : q ≤ c
    · have hdiv : c / q = (c - q) / q + 1 := Nat.div_eq_sub_div hq hc
      have hmod : c % q = (c - q) % q := Nat.mod_eq_sub_mod hc
      have h1 : (c - q) / q < n := by
        rw [hdiv] at h
        exact Nat.lt_of_succ_lt_succ h
      simp only [hc, if_true, replicate_two_more, List.length_replicate]
      by_cases hfull : 200 ≤ 2 * (k + 1)
      · have hk99 : k = 99 := by omega
        subst hk99
        simp only [hfull, if_true]
        obtain ⟨k', out', e, a, b, d⟩ := ih (c - q) 0
          (out ++ [⟨List.replicate (2 * (99 + 1)) s, 2 * (99 + 1) / 2⟩]) h1 (by decide)
        refine ⟨k', out', ?_, a, ?_, ?_⟩
        · rw [hmod]
          exact e
        · rw [b, hdiv]
          simp only [List.map_append, List.sum_append, List.map_cons, List.map_nil, List.sum_cons,
            List.sum_nil]
          omega
        · intro x hx
          rcases d x hx with m | m
          · rcases List.mem_append.mp m with m1 | m1
            · exact Or.inl m1
            · simp only [List.mem_singleton] at m1
              subst m1
              exact Or.inr ⟨rfl, rfl⟩
          · exact Or.inr m
      · simp only [hfull, if_false]
        obtain ⟨k', out', e, a, b, d⟩ := ih (c - q) (k + 1) out h1 (by omega)
        refine ⟨k', out', ?_, a, ?_, d⟩
        · rw [hmod]
          exact e
        · rw [b, hdiv]
          omega
    · simp only [hc, if_false]
      have e1 : c % q = c := Nat.mod_eq_of_lt (by omega)
      have e2 : c / q = 0 := Nat.div_eq_of_lt (by omega)
      rw [e1, e2]
      exact ⟨k, out, rfl, hk, rfl, fun b hb => Or.inl hb⟩

/-- Claim C26: whenever `q = ONE_SEC / AUDIO_RESAMPLE_RATE > 0`, `audio_sample`
returns; the frame counts of the batches it hands to the host add up to
`floor(c / q)`, `c` being `audio_counter_resample` on entry; every batch holds
between 1 and 100 stereo frames, that is at most the 200 entries of the
buffer, each entry (both channels) being the given sample; and
`audio_counter_resample` is left at `c mod q`, nothing else being changed. -/
theorem audio_sample_conserves (lib : Chip8Lib) (s : Int) (g : Core)
    (hq : 0 < lib.ONE_SEC / AUDIO_RESAMPLE_RATE) :
    ∃ bs, audio_sample lib s g =
        some ({ g with audio_counter_resample :=
                g.audio_counter_resample % (lib.ONE_SEC / AUDIO_RESAMPLE_RATE) }, bs) ∧
      (bs.map Batch.frames).sum = g.audio_counter_resample / (lib.ONE_SEC / AUDIO_RESAMPLE_RATE) ∧
      ∀ b ∈ bs, 0 < b.frames ∧ b.frames ≤ 100 ∧ b.data.length ≤ 200 ∧
        b.data = List.replicate (2 * b.frames) s := by
  have hfuel : g.audio_counter_resample / (lib.ONE_SEC / AUDIO_RESAMPLE_RATE)
      < g.audio_counter_resample + 1 :=
    Nat.lt_succ_of_le (Nat.div_le_self _ _)
  obtain ⟨k', out', e, a, b, d⟩ := audio_sample_loop_frames _ s hq
    (g.audio_counter_resample + 1) g.audio_counter_resample 0 [] hfuel (by decide)
  have e' : audio_sample_loop (lib.ONE_SEC / AUDIO_RESAMPLE_RATE) s
      (g.audio_counter_resample + 1) g.audio_counter_resample [] []
      = some (g.audio_counter_resample % (lib.ONE_SEC / AUDIO_RESAMPLE_RATE),
          List.replicate (2 * k') s, out') := e
  have hfull : ∀ x ∈ out', 0 < x.frames ∧ x.frames ≤ 100 ∧ x.data.length ≤ 200 ∧
      x.data = List.replicate (2 * x.frames) s := by
    intro x hx
    rcases d x hx with m | ⟨m1, m2⟩
    · simp at m
    · rw [m1, m2]
      exact ⟨by decide, by decide, by rw [List.length_replicate], rfl⟩
  simp only [List.map_nil, List.sum_nil, Nat.zero_add] at b
  unfold audio_sample
  rw [e']
  dsimp only
  by_cases hne : List.replicate (2 * k') s ≠ []
  · have hk0 : 0 < k' := by
      rcases Nat.eq_zero_or_pos k' with h | h
      · subst h
        exact absurd rfl hne
      · exact h
    refine ⟨out' ++ [⟨List.replicate (2 * k') s, (List.replicate (2 * k') s).length / 2⟩],
      by rw [if_pos hne], ?_, ?_⟩
    · simp only [List.map_append, List.sum_append, List.map_cons, List.map_nil, List.sum_cons,
        List.sum_nil, List.length_replicate]
      omega
    · intro x hx
      rcases List.mem_append.mp hx with m | m
      · exact hfull x m
      · simp only [List.mem_singleton] at m
        subst m
        simp only [List.length_replicate]
        have e3 : 2 * k' / 2 = k' := by omega
        rw [e3]
        exact ⟨hk0, by omega, by omega, rfl⟩
  · have hk0 : k' = 0 := by
      rcases Nat.eq_zero_or_pos k' with h | h
      · exact h
      · exfalso
        apply hne
        intro hnil
        have := congrArg List.length hnil
        simp at this
        omega
    refine ⟨out', by rw [if_neg hne], ?_, hfull⟩
    omega

/-- Witness of C26: with one second of `10^9` ticks (`q = 22675`) and three
million ticks in the counter, the host gets a batch of 100 frames and one of
32, and 6900 ticks are left. -/
theorem audio_sample_conserves_witness :
    0 < sample_lib.ONE_SEC / AUDIO_RESAMPLE_RATE ∧
    resample_summary sample_lib 32640 loaded_core = some (6900, [100, 32]) ∧
    ∃ bs, audio_sample sample_lib 32640 loaded_core =
        some ({ loaded_core with audio_counter_resample :=
                loaded_core.audio_counter_resample % (sample_lib.ONE_SEC / AUDIO_RESAMPLE_RATE) },
              bs) ∧
      (bs.map Batch.frames).sum
        = loaded_core.audio_counter_resample / (sample_lib.ONE_SEC / AUDIO_RESAMPLE_RATE) ∧
      ∀ b ∈ bs, 0 < b.frames ∧ b.frames ≤ 100 ∧ b.data.length ≤ 200 ∧
        b.data = List.replicate (2 * b.frames) 32640 :=
  ⟨by decide, by decide, audio_sample_conserves sample_lib 32640 loaded_core (by decide)⟩

/-! ## Scheduler conservation -/

/-- The key poll changes the keypad only. -/
theorem poll_keys_keeps (cb : Nat → Bool) (c : CHIP8) :
    (poll_keys cb c).cpu_freq = c.cpu_freq ∧ (poll_keys cb c).refresh_freq = c.refresh_freq ∧
    (poll_keys cb c).exit = c.exit := by
  unfold poll_keys
  generalize 16 = n
  induction n with
  | zero => exact ⟨rfl, rfl, rfl⟩
  | succ n ih =>
    simp only [forLoop]
    unfold poll_key
    split <;> exact ih

/-- Without an option update the start of the frame keeps the rates and
`exit`. -/
theorem frame_start_idle (lib : Chip8Lib) (inp : FrameInput) (g : Core)
    (hu : inp.variables_updated = false) :
    (frame_start lib inp g).chip8.cpu_freq = g.chip8.cpu_freq ∧
    (frame_start lib inp g).chip8.refresh_freq = g.chip8.refresh_freq ∧
    (frame_start lib inp g).chip8.exit = g.chip8.exit := by
  unfold frame_start
  simp only [hu, Bool.false_eq_true, if_false]
  exact poll_keys_keeps inp.input_state_cb g.chip8

/-- When the emulator core keeps the rates, a loop that ends with `exit` clear
had a bound that fits the 32-bit counter. -/
theorem run_loop_fits (lib : Chip8Lib) (cycle_step : Nat) (hr : keeps_rates lib) :
    ∀ (fuel i : Nat) (g : Core) (log : List CycleLog) (g' : Core) (log' : List CycleLog),
      run_loop lib cycle_step fuel i g log = some (g', log') →
      i < UINT_RANGE → g'.chip8.exit = false → cycle_bound g < UINT_RANGE := by
  intro fuel
  induction fuel with
  | zero =>
    intro i g log g' log' h
    simp [run_loop] at h
  | succ n ih =>
    intro i g log g' log' h hi hex
    unfold run_loop at h
    by_cases hz : g.chip8.refresh_freq = 0
    · simp only [hz, if_true] at h
      exact absurd h (by simp)
    · simp only [hz, if_false] at h
      by_cases hc : i < cycle_bound g ∧ g.chip8.exit = false
      · rw [if_pos hc] at h
        split at h
        · exact absurd h (by simp)
        · rename_i g1 bs hrun
          obtain ⟨-, -, -, a4⟩ := run_cycle_rates lib cycle_step g g1 bs hr hrun
          have hlt : (i + 1) % UINT_RANGE < UINT_RANGE :=
            Nat.mod_lt _ (by unfold UINT_RANGE; norm_num)
          have := ih _ _ _ _ _ h hlt hex
          rw [a4] at this
          exact this
      · rw [if_neg hc] at h
        simp only [Option.some.injEq, Prod.mk.injEq] at h
        rw [← h.1] at hex
        have : ¬ i < cycle_bound g := fun hlt => hc ⟨hlt, hex⟩
        omega

/-- With a sound frequency in range, the instruction loop leaves the sampler
ready. -/
theorem run_loop_ready (lib : Chip8Lib) (cycle_step : Nat) (hsnd : sound_freq_in_range lib) :
    ∀ (fuel i : Nat) (g : Core) (log : List CycleLog) (g' : Core) (log' : List CycleLog),
      run_loop lib cycle_step fuel i g log = some (g', log') →
      sampler_ready lib g → sampler_ready lib g' := by
  intro fuel
  induction fuel with
  | zero =>
    intro i g log g' log' h
    simp [run_loop] at h
  | succ n ih =>
    intro i g log g' log' h hready
    unfold run_loop at h
    by_cases hz : g.chip8.refresh_freq = 0
    · simp only [hz, if_true] at h
      exact absurd h (by simp)
    · simp only [hz, if_false] at h
      by_cases hc : i < cycle_bound g ∧ g.chip8.exit = false
      · rw [if_pos hc] at h
        obtain ⟨g1, bs, hrun, hready1⟩ := run_cycle_total lib cycle_step g hsnd hready
        rw [hrun] at h
        exact ih _ _ _ _ _ h hready1
      · rw [if_neg hc] at h
        simp only [Option.some.injEq, Prod.mk.injEq] at h
        rw [← h.1]
        exact hready

/-- A frame without option update that returns with `exit` clear, the sum
`cpu_freq + cpu_debt` fitting `unsigned long`: the rates are unchanged, the
refresh rate is positive, and the instructions executed and the new debt are
the quotient and the remainder of `cpu_freq + cpu_debt` by `refresh_freq`. -/
theorem retro_run_conserves (lib : Chip8Lib) (inp : FrameInput) (fuel : Nat) (g : Core)
    (r : Core × FrameOutput) (hr : keeps_rates lib) (hu : inp.variables_updated = false)
    (hsum : g.chip8.cpu_freq + g.cpu_debt < ULONG_RANGE)
    (h : retro_run lib inp fuel g = some r) (hex : r.1.chip8.exit = false) :
    r.1.chip8.cpu_freq = g.chip8.cpu_freq ∧ r.1.chip8.refresh_freq = g.chip8.refresh_freq ∧
    0 < g.chip8.refresh_freq ∧
    r.2.cycles.length * g.chip8.refresh_freq + r.1.cpu_debt = g.chip8.cpu_freq + g.cpu_debt ∧
    r.1.cpu_debt < g.chip8.refresh_freq := by
  by_cases hset : g.chip8.exit = true
  · rw [retro_run_exit_set lib inp fuel g hset] at h
    simp only [Option.some.injEq] at h
    rw [← h] at hex
    rw [hset] at hex
    exact absurd hex (by simp)
  · have hclr : g.chip8.exit = false := by simpa using hset
    obtain ⟨f1, f2, -⟩ := frame_start_idle lib inp g hu
    obtain ⟨s1, -, -⟩ := frame_start_statics lib inp g
    unfold retro_run at h
    simp only [hclr, Bool.false_eq_true, if_false] at h
    split at h
    · exact absurd h (by simp)
    · split at h
      · exact absurd h (by simp)
      · rename_i g1 log hloop
        split at h
        · exact absurd h (by simp)
        · rename_i hz
          simp only [Option.some.injEq] at h
          obtain ⟨r1, r2, r3⟩ := run_loop_rates lib _ hr _ _ _ _ _ _ hloop
          obtain ⟨t1, t2, t3⟩ := frame_timers_keeps g1.chip8
          have hex1 : g1.chip8.exit = false := by
            rw [← t1]
            rw [← h] at hex
            exact hex
          have hfit := run_loop_fits lib _ hr _ _ _ _ _ _ hloop
            (by unfold UINT_RANGE; norm_num) hex1
          have hcount := run_loop_count lib _ hr _ _ _ _ _ _ hloop (Nat.zero_le _) hfit hex1
          have hbound : cycle_bound (frame_start lib inp g)
              = (g.chip8.cpu_freq + g.cpu_debt) / g.chip8.refresh_freq := by
            unfold cycle_bound
            rw [s1, f1, f2, Nat.mod_eq_of_lt hsum]
          have e1 : r.1.chip8.cpu_freq = g.chip8.cpu_freq := by
            rw [← h]
            exact (t2.trans r1).trans f1
          have e2 : r.1.chip8.refresh_freq = g.chip8.refresh_freq := by
            rw [← h]
            exact (t3.trans r2).trans f2
          have e3 : r.1.cpu_debt = (g.chip8.cpu_freq + g.cpu_debt) % g.chip8.refresh_freq := by
            rw [← h]
            show ((frame_timers g1.chip8).cpu_freq + g1.cpu_debt) % ULONG_RANGE
              % (frame_timers g1.chip8).refresh_freq = _
            rw [t2, t3, r1, r2, r3, s1, f1, f2, Nat.mod_eq_of_lt hsum]
          have e4 : r.2.cycles.length = (g.chip8.cpu_freq + g.cpu_debt) / g.chip8.refresh_freq := by
            rw [← h]
            show log.length = _
            rw [hcount, hbound]
            simp
          have hpos : 0 < g.chip8.refresh_freq := by
            have hz' : ¬ (frame_timers g1.chip8).refresh_freq = 0 := hz
            rw [t3, r2, f2] at hz'
            exact Nat.pos_of_ne_zero hz'
          refine ⟨e1, e2, hpos, ?_, ?_⟩
          · rw [e3, e4, Nat.mul_comm]
            exact Nat.div_add_mod _ _
          · rw [e3]
            exact Nat.mod_lt _ hpos

/-- With a sound frequency in range, a frame leaves the sampler ready. -/
theorem retro_run_ready (lib : Chip8Lib) (inp : FrameInput) (fuel : Nat) (g : Core)
    (r : Core × FrameOutput) (hsnd : sound_freq_in_range lib) (hready : sampler_ready lib g)
    (h : retro_run lib inp fuel g = some r) : sampler_ready lib r.1 := by
  by_cases hset : g.chip8.exit = true
  · rw [retro_run_exit_set lib inp fuel g hset] at h
    simp only [Option.some.injEq] at h
    rw [← h]
    exact hready
  · have hclr : g.chip8.exit = false := by simpa using hset
    obtain ⟨-, s2, s3⟩ := frame_start_statics lib inp g
    have hready0 : sampler_ready lib (frame_start lib inp g) := by
      unfold sampler_ready at hready ⊢
      rw [s2, s3]
      exact hready
    unfold retro_run at h
    simp only [hclr, Bool.false_eq_true, if_false] at h
    split at h
    · exact absurd h (by simp)
    · split at h
      · exact absurd h (by simp)
      · rename_i g1 log hloop
        split at h
        · exact absurd h (by simp)
        · simp only [Option.some.injEq] at h
          have hready1 := run_loop_ready lib _ hsnd _ _ _ _ _ _ hloop hready0
          rw [← h]
          exact hready1

/-- Once `exit` is set, further frames execute nothing and leave it set. -/
theorem frames_exit_sticky (lib : Chip8Lib) (fuel : Nat) (inps : List FrameInput) :
    ∀ (g : Core) (r : Core × Nat), retro_run_frames lib fuel inps g = some r →
      g.chip8.exit = true → r.1.chip8.exit = true := by
  induction inps with
  | nil =>
    intro g r h hset
    simp only [retro_run_frames, Option.some.injEq] at h
    rw [← h]
    exact hset
  | cons inp rest ih =>
    intro g r h hset
    simp only [retro_run_frames, retro_run_exit_set lib inp fuel g hset] at h
    split at h
    · exact absurd h (by simp)
    · rename_i r' hrest
      simp only [Option.some.injEq] at h
      rw [← h]
      exact ih g r' hrest hset

/-- Frames without option update that end with `exit` clear, from a debt below
`refresh_freq`, while `cpu_freq + refresh_freq` does not exceed the range of
`unsigned long`: the rates are unchanged, and the instructions executed in all
frames times `refresh_freq` plus the final debt make up `cpu_freq` times the
number of frames plus the initial debt. -/
theorem frames_conserve (lib : Chip8Lib) (fuel : Nat) (hr : keeps_rates lib)
    (inps : List FrameInput) :
    ∀ (g : Core) (r : Core × Nat), retro_run_frames lib fuel inps g = some r →
      (∀ inp ∈ inps, inp.variables_updated = false) →
      g.cpu_debt < g.chip8.refresh_freq →
      g.chip8.cpu_freq + g.chip8.refresh_freq ≤ ULONG_RANGE →
      r.1.chip8.exit = false →
      r.1.chip8.cpu_freq = g.chip8.cpu_freq ∧ r.1.chip8.refresh_freq = g.chip8.refresh_freq ∧
      r.2 * g.chip8.refresh_freq + r.1.cpu_debt = inps.length * g.chip8.cpu_freq + g.cpu_debt ∧
      r.1.cpu_debt < g.chip8.refresh_freq := by
  induction inps with
  | nil =>
    intro g r h _ hd _ _
    simp only [retro_run_frames, Option.some.injEq] at h
    rw [← h]
    refine ⟨rfl, rfl, ?_, hd⟩
    simp
  | cons inp rest ih =>
    intro g r h hu hd hfit hex
    simp only [retro_run_frames] at h
    split at h
    · exact absurd h (by simp)
    · rename_i r0 hrun
      split at h
      · exact absurd h (by simp)
      · rename_i r1 hrest
        simp only [Option.some.injEq] at h
        have hex1 : r1.1.chip8.exit = false := by
          rw [← h] at hex
          exact hex
        have hex0 : r0.1.chip8.exit = false := by
          cases hb : r0.1.chip8.exit
          · rfl
          · have := frames_exit_sticky lib fuel rest r0.1 r1 hrest hb
            rw [hex1] at this
            exact absurd this (by simp)
        obtain ⟨a1, a2, -, a4, a5⟩ := retro_run_conserves lib inp fuel g r0 hr
          (hu inp (List.mem_cons_self _ _)) (by omega) hrun hex0
        obtain ⟨b1, b2, b3, b4⟩ := ih r0.1 r1 hrest
          (fun i hi => hu i (List.mem_cons_of_mem _ hi))
          (by rw [a2]; exact a5) (by rw [a1, a2]; exact hfit) hex1
        rw [a1, a2] at b3
        rw [a2] at b4
        rw [← h]
        refine ⟨b1.trans a1, b2.trans a2, ?_, b4⟩
        show (r0.2.cycles.length + r1.2) * g.chip8.refresh_freq + r1.1.cpu_debt
          = (rest.length + 1) * g.chip8.cpu_freq + g.cpu_debt
        rw [Nat.add_mul, Nat.succ_mul]
        omega

/-- Frames entered with `exit` set return. -/
theorem frames_exit_return (lib : Chip8Lib) (fuel : Nat) (inps : List FrameInput) :
    ∀ g : Core, g.chip8.exit = true → ∃ r, retro_run_frames lib fuel inps g = some r := by
  induction inps with
  | nil => intro g _; exact ⟨_, rfl⟩
  | cons inp rest ih =>
    intro g hset
    obtain ⟨r, e⟩ := ih g hset
    refine ⟨(r.1, 0 + r.2), ?_⟩
    simp only [retro_run_frames, retro_run_exit_set lib inp fuel g hset, e]
    rfl

/-- Under the stated conditions consecutive frames without option update all
return, once `fuel` exceeds `(cpu_freq + refresh_freq) / refresh_freq`. -/
theorem frames_return (lib : Chip8Lib) (fuel : Nat) (hr : keeps_rates lib)
    (hsnd : sound_freq_in_range lib) (inps : List FrameInput) :
    ∀ g : Core, sampler_ready lib g → (∀ inp ∈ inps, inp.variables_updated = false) →
      0 < g.chip8.cpu_freq → g.cpu_debt < g.chip8.refresh_freq →
      g.chip8.cpu_freq + g.chip8.refresh_freq ≤ ULONG_RANGE →
      (g.chip8.cpu_freq + g.chip8.refresh_freq) / g.chip8.refresh_freq < UINT_RANGE →
      (g.chip8.cpu_freq + g.chip8.refresh_freq) / g.chip8.refresh_freq < fuel →
      ∃ r, retro_run_frames lib fuel inps g = some r := by
  induction inps with
  | nil => intro g _ _ _ _ _ _ _; exact ⟨_, rfl⟩
  | cons inp rest ih =>
    intro g hready hu hcpu hd hfit hN hfuel
    have hu0 := hu inp (List.mem_cons_self _ _)
    obtain ⟨f1, f2, -⟩ := frame_start_idle lib inp g hu0
    have hle : (g.chip8.cpu_freq + g.cpu_debt) / g.chip8.refresh_freq
        ≤ (g.chip8.cpu_freq + g.chip8.refresh_freq) / g.chip8.refresh_freq :=
      Nat.div_le_div_right (by omega)
    obtain ⟨r0, hrun, -⟩ := retro_run_floor lib inp fuel g hr hsnd hready
      (by rw [f1]; exact hcpu) (by rw [f2]; omega) (by rw [f1]; omega)
      (by rw [f1, f2]; omega) (by rw [f1, f2]; omega)
    have hready0 := retro_run_ready lib inp fuel g r0 hsnd hready hrun
    cases hb : r0.1.chip8.exit
    · obtain ⟨a1, a2, -, -, a5⟩ := retro_run_conserves lib inp fuel g r0 hr hu0 (by omega) hrun hb
      obtain ⟨r1, e⟩ := ih r0.1 hready0 (fun i hi => hu i (List.mem_cons_of_mem _ hi))
        (by rw [a1]; exact hcpu) (by rw [a2]; exact a5) (by rw [a1, a2]; exact hfit)
        (by rw [a1, a2]; exact hN) (by rw [a1, a2]; exact hfuel)
      refine ⟨(r1.1, r0.2.cycles.length + r1.2), ?_⟩
      simp only [retro_run_frames, hrun, e]
    · obtain ⟨r1, e⟩ := frames_exit_return lib fuel rest r0.1 hb
      refine ⟨(r1.1, r0.2.cycles.length + r1.2), ?_⟩
      simp only [retro_run_frames, hrun, e]

/-- Counterexample to C23 as stated: with `refresh_freq = 60`, `cpu_freq` at
the largest `unsigned long` and a debt of 59, the sum `cpu_freq + cpu_debt`
wraps to 58 in `unsigned long`; the frame returns with `exit` clear and the
rates unchanged after 0 instructions and leaves a debt of 58, so
`n * refresh_freq + d'` is 58 and not `cpu_freq + d`. -/
theorem scheduler_sum_wraps :
    idle_input.variables_updated = false ∧ 0 < wrap_core.chip8.refresh_freq ∧
    wrap_core.cpu_debt < wrap_core.chip8.refresh_freq ∧
    frame_summary sample_lib idle_input 1 wrap_core = some (false, 0, 58) ∧
    (retro_run sample_lib idle_input 1 wrap_core).map
      (fun r => (r.1.chip8.cpu_freq, r.1.chip8.refresh_freq))
      = some (wrap_core.chip8.cpu_freq, wrap_core.chip8.refresh_freq) ∧
    0 * wrap_core.chip8.refresh_freq + 58 ≠ wrap_core.chip8.cpu_freq + wrap_core.cpu_debt := by
  decide

/-- Claim C23, amended: scheduler conservation, while the sums
`cpu_freq + cpu_debt` fit `unsigned long`.  For a frame in which `exit` is not
raised and the frequencies do not change (no option update, the emulator core
keeping the rates), the number `n` of executed instructions and the new debt
`d'` satisfy `n * refresh_freq + d' = cpu_freq + d` and `d' < refresh_freq`,
`refresh_freq` being positive.  Hence, starting from `cpu_debt = 0` with
`refresh_freq > 0` and `cpu_freq + refresh_freq` within `unsigned long`, after
`k` such frames the total number of executed instructions is exactly
`floor(k * cpu_freq / refresh_freq)` and the debt is the remainder.  And the
frames do return when `cpu_freq > 0`, the quotient fits the 32-bit loop counter
and the sampler runs without fault. -/
theorem scheduler_conserves (lib : Chip8Lib) (hr : keeps_rates lib) (g : Core) :
    (∀ inp fuel r, inp.variables_updated = false →
      g.chip8.cpu_freq + g.cpu_debt < ULONG_RANGE →
      retro_run lib inp fuel g = some r → r.1.chip8.exit = false →
      0 < g.chip8.refresh_freq ∧
      r.1.chip8.cpu_freq = g.chip8.cpu_freq ∧ r.1.chip8.refresh_freq = g.chip8.refresh_freq ∧
      r.2.cycles.length * g.chip8.refresh_freq + r.1.cpu_debt = g.chip8.cpu_freq + g.cpu_debt ∧
      r.1.cpu_debt < g.chip8.refresh_freq) ∧
    (∀ inps fuel r, (∀ inp ∈ inps, inp.variables_updated = false) →
      g.cpu_debt = 0 → 0 < g.chip8.refresh_freq →
      g.chip8.cpu_freq + g.chip8.refresh_freq ≤ ULONG_RANGE →
      retro_run_frames lib fuel inps g = some r → r.1.chip8.exit = false →
      r.2 = inps.length * g.chip8.cpu_freq / g.chip8.refresh_freq ∧
      r.1.cpu_debt = inps.length * g.chip8.cpu_freq % g.chip8.refresh_freq) ∧
    (∀ inps fuel, (∀ inp ∈ inps, inp.variables_updated = false) →
      g.cpu_debt = 0 → 0 < g.chip8.refresh_freq → 0 < g.chip8.cpu_freq →
      g.chip8.cpu_freq + g.chip8.refresh_freq ≤ ULONG_RANGE →
      (g.chip8.cpu_freq + g.chip8.refresh_freq) / g.chip8.refresh_freq < UINT_RANGE →
      (g.chip8.cpu_freq + g.chip8.refresh_freq) / g.chip8.refresh_freq < fuel →
      sound_freq_in_range lib → sampler_ready lib g →
      ∃ r, retro_run_frames lib fuel inps g = some r) := by
  refine ⟨?_, ?_, ?_⟩
  · intro inp fuel r hu hsum h hex
    obtain ⟨a1, a2, a3, a4, a5⟩ := retro_run_conserves lib inp fuel g r hr hu hsum h hex
    exact ⟨a3, a1, a2, a4, a5⟩
  · intro inps fuel r hu hd hpos hfit h hex
    obtain ⟨-, -, b3, b4⟩ := frames_conserve lib fuel hr inps g r h hu (by omega) hfit hex
    rw [hd, Nat.add_zero] at b3
    rw [← b3]
    constructor
    · rw [Nat.mul_comm, Nat.mul_add_div hpos, Nat.div_eq_of_lt b4, Nat.add_zero]
    · rw [Nat.mul_comm, Nat.mul_add_mod, Nat.mod_eq_of_lt b4]
  · intro inps fuel hu hd hpos hcpu hfit hN hfuel hsnd hready
    exact frames_return lib fuel hr hsnd inps g hready hu hcpu (by omega) hfit hN hfuel

/-- Witness of C23: three frames at 1000 Hz over 60 Hz from debt 0 execute
`floor(3000 / 60) = 50` instructions in all and leave no debt. -/
theorem scheduler_conserves_witness :
    keeps_rates sample_lib ∧
    frames_summary sample_lib 18 [idle_input, idle_input, idle_input] blank_core
      = some (false, 50, 0) ∧
    ∀ r, retro_run_frames sample_lib 18 [idle_input, idle_input, idle_input] blank_core = some r →
      r.1.chip8.exit = false →
      r.2 = [idle_input, idle_input, idle_input].length * blank_core.chip8.cpu_freq
              / blank_core.chip8.refresh_freq ∧
      r.1.cpu_debt = [idle_input, idle_input, idle_input].length * blank_core.chip8.cpu_freq
              % blank_core.chip8.refresh_freq :=
  ⟨⟨fun _ _ => ⟨rfl, rfl⟩, fun _ => ⟨rfl, rfl⟩⟩, by decide,
   fun r => (scheduler_conserves sample_lib ⟨fun _ _ => ⟨rfl, rfl⟩, fun _ => ⟨rfl, rfl⟩⟩
     blank_core).2.1 [idle_input, idle_input, idle_input] 18 r
     (by intro inp hi; simp only [List.mem_cons, List.mem_singleton, List.not_mem_nil, or_false,
           or_self] at hi; rw [hi]; rfl)
     rfl (by decide) (by decide)⟩

end Jaxe
